import Mathlib

/-!
# toolsearch: a verification development

A shallow embedding of the Go package `toolsearch` (files `bm25.go` and
`fingerprint.go`) and theorems about it.

Modelling conventions

* A Go `string` is a sequence of bytes (`GoString`); `<` on it is the byte-wise
  lexicographic order, as in Go.
* Go `int` values that can be negative (configuration fields, `limit`) are `Int`.
* The searcher is a value of `BM25Searcher`; `Search`, `rebuildIndex` and `Close`
  pass it explicitly.  Locks are not modelled: calls run one after the other.
* The full-text engine (bleve) is an external collaborator.  It is a record of
  operations over an arbitrary engine state `ε`, so that every sequential
  behaviour of an engine is covered.  Every call made to it is logged in a trace.
* Functions of the Go standard library (`strings.TrimSpace`, `strings.ToLower`,
  `sha256`, `sort.Slice`) are fields of `GoLib`.  `sort.Slice` is not stable, so
  it is specified by its contract only: the result is a permutation of the
  input, ordered by `less` whenever `less` is a strict weak ordering.
* A run-time panic (nil index, slice bound out of range, negative length) is an
  explicit outcome.
-/

namespace Toolsearch

/-! ## Data model -/

/-- A Go string: an immutable sequence of bytes. -/
abbrev GoString := List (Fin 256)

/-- The record `toolindex.Summary`, the payload returned to callers. -/
structure Summary where
  ID : GoString
  Name : GoString
  Namespace : GoString
  ShortDescription : GoString
  Tags : List GoString
deriving DecidableEq

/-- The record `toolindex.SearchDoc`, one searchable document. -/
structure SearchDoc where
  ID : GoString
  DocText : GoString
  Summary : Summary
deriving DecidableEq

/-- The struct `BM25Config`. -/
structure BM25Config where
  NameBoost : Int
  NamespaceBoost : Int
  TagsBoost : Int
  MaxDocs : Int
  MaxDocTextLen : Int
deriving DecidableEq

/-- Go `error` values that the package returns: errors raised by the engine and
the wrappers that `rebuildIndex` builds with `fmt.Errorf`. -/
inductive GoError where
  /-- an error value raised by the engine -/
  | engine (code : Nat)
  /-- the value of `fmt.Errorf("%w; close index: %v", err, cerr)` -/
  | wrapClose (err cerr : GoError)
  /-- the value of `fmt.Errorf("close index: %w", cerr)` -/
  | closeIndex (cerr : GoError)
  /-- the value of `fmt.Errorf("close old index: %v; close new index: %v", cerr, nerr)` -/
  | closeOldNew (cerr nerr : GoError)
  /-- the value of `fmt.Errorf("close old index: %w", cerr)` -/
  | closeOld (cerr : GoError)
deriving DecidableEq

/-- A `bleve.Index` value: the handle the engine gave out for it, and the batch of
`(id, content)` documents that was submitted to it. -/
structure Index where
  handle : Nat
  docs : List (GoString × GoString)
deriving DecidableEq

/-- One raw hit of the engine (`search.DocumentMatch`): id and relevance score. -/
structure Hit (σ : Type) where
  ID : GoString
  Score : σ
deriving DecidableEq

/-- The local struct `scoredHit` of `Search`. -/
structure scoredHit (σ : Type) where
  id : GoString
  score : σ
deriving DecidableEq

/-- The calls the package makes to the engine. -/
inductive EngineCall where
  /-- the call `bleve.NewMemOnly(bleve.NewIndexMapping())` -/
  | newMemOnly
  /-- the call `batch.Index(id, indexedDoc{Content: content})` on the batch of index `handle` -/
  | batchIndex (handle : Nat) (id content : GoString)
  /-- the call `index.Batch(batch)` -/
  | batch (handle : Nat) (docs : List (GoString × GoString))
  /-- the call `index.Search(searchRequest)` with the query string and `Size` -/
  | search (handle : Nat) (query : GoString) (size : Nat)
  /-- the call `index.Close()` -/
  | close (handle : Nat)
deriving DecidableEq

/-- The external full-text engine, over an engine state `ε` and a score type `σ`.
Each operation returns its result and the next engine state. -/
structure Engine (ε σ : Type) where
  /-- construct a fresh, empty, in-memory index; returns its handle -/
  newMemOnly : ε → Except GoError Nat × ε
  /-- add one document to the batch of the index under construction -/
  batchIndex : ε → Nat → GoString → GoString → Option GoError × ε
  /-- execute the batch on the index -/
  batch : ε → Nat → List (GoString × GoString) → Option GoError × ε
  /-- run a query-string query on an index, asking for at most `size` hits -/
  search : ε → Index → GoString → Nat → Except GoError (List (Hit σ)) × ε
  /-- release an index -/
  close : ε → Nat → Option GoError × ε

/-- The engine state together with the log of the calls made so far, oldest first. -/
structure World (ε : Type) where
  eng : ε
  trace : List EngineCall

/-- The struct `BM25Searcher` without its lock. `index = none` is the nil index,
`idToSummary = none` the nil map. The map is an association list, newest entry
first, read with `List.lookup`. -/
structure BM25Searcher where
  cfg : BM25Config
  index : Option Index
  idToSummary : Option (List (GoString × Summary))
  lastFingerprint : GoString
  indexBuildCount : Nat
deriving DecidableEq

/-- A strict weak ordering given as a Go `less` function. -/
structure IsStrictWeak {α : Type} (less : α → α → Bool) : Prop where
  asymm : ∀ a b, less a b = true → less b a = false
  negTrans : ∀ a b c, less a c = true → less a b = true ∨ less b c = true

/-- The six ASCII white-space bytes of `strings.TrimSpace`. -/
def isAsciiSpace (b : Fin 256) : Bool :=
  b.val = 9 || b.val = 10 || b.val = 11 || b.val = 12 || b.val = 13 || b.val = 32

/-- The functions of the Go standard library that the package calls, with the
part of their documented contract that the proofs use. -/
structure GoLib where
  /-- the function `strings.TrimSpace` -/
  trimSpace : GoString → GoString
  /-- the function `strings.ToLower` -/
  toLower : GoString → GoString
  /-- the digest `sha256.Sum` of a byte stream -/
  sha256 : List (Fin 256) → List (Fin 256)
  /-- the function `sort.Slice`, applied to a copy of the slice -/
  sortSlice : {α : Type} → (α → α → Bool) → List α → List α
  /-- trimming the empty string gives the empty string -/
  trimSpace_nil : trimSpace [] = []
  /-- a string of ASCII white space only trims to the empty string -/
  trimSpace_space : ∀ s : GoString, (∀ b ∈ s, isAsciiSpace b = true) → trimSpace s = []
  /-- lower-casing maps the empty string, and only it, to the empty string -/
  toLower_eq_nil_iff : ∀ s : GoString, toLower s = [] ↔ s = []
  /-- a lower-cased string holds no ASCII upper-case letter, no byte `A` to `Z` -/
  toLower_no_upper : ∀ s : GoString, ∀ b ∈ toLower s, ¬ (65 ≤ b.val ∧ b.val ≤ 90)
  /-- lower-casing a string without a space gives a string without a space -/
  toLower_no_space : ∀ s : GoString, (32 : Fin 256) ∉ s → (32 : Fin 256) ∉ toLower s
  /-- a SHA-256 digest has 32 bytes -/
  sha256_length : ∀ m, (sha256 m).length = 32
  /-- sorting permutes -/
  sortSlice_perm : ∀ {α : Type} (less : α → α → Bool) (xs : List α),
    (sortSlice less xs).Perm xs
  /-- the result is ordered: no element is `less` than one before it -/
  sortSlice_sorted : ∀ {α : Type} (less : α → α → Bool) (xs : List α),
    IsStrictWeak less → (sortSlice less xs).Pairwise (fun a b => less b a = false)

/-! ## Engine calls, logged -/

/-- Call `bleve.NewMemOnly`. -/
def World.newMemOnly {ε σ : Type} (E : Engine ε σ) (w : World ε) :
    Except GoError Nat × World ε :=
  let r := E.newMemOnly w.eng
  (r.1, ⟨r.2, w.trace ++ [EngineCall.newMemOnly]⟩)

/-- Call `batch.Index`. -/
def World.batchIndex {ε σ : Type} (E : Engine ε σ) (w : World ε) (h : Nat)
    (id content : GoString) : Option GoError × World ε :=
  let r := E.batchIndex w.eng h id content
  (r.1, ⟨r.2, w.trace ++ [EngineCall.batchIndex h id content]⟩)

/-- Call `index.Batch`. -/
def World.batch {ε σ : Type} (E : Engine ε σ) (w : World ε) (h : Nat)
    (docs : List (GoString × GoString)) : Option GoError × World ε :=
  let r := E.batch w.eng h docs
  (r.1, ⟨r.2, w.trace ++ [EngineCall.batch h docs]⟩)

/-- Call `index.Search`. -/
def World.search {ε σ : Type} (E : Engine ε σ) (w : World ε) (idx : Index)
    (query : GoString) (size : Nat) : Except GoError (List (Hit σ)) × World ε :=
  let r := E.search w.eng idx query size
  (r.1, ⟨r.2, w.trace ++ [EngineCall.search idx.handle query size]⟩)

/-- Call `index.Close`. -/
def World.close {ε σ : Type} (E : Engine ε σ) (w : World ε) (h : Nat) :
    Option GoError × World ε :=
  let r := E.close w.eng h
  (r.1, ⟨r.2, w.trace ++ [EngineCall.close h]⟩)

/-! ## bm25.go -/

/-- The constructor `NewBM25Searcher`: zero boosts are replaced by the defaults. -/
def NewBM25Searcher (cfg : BM25Config) : BM25Searcher :=
  let cfg := if cfg.NameBoost = 0 then { cfg with NameBoost := 3 } else cfg
  let cfg := if cfg.NamespaceBoost = 0 then { cfg with NamespaceBoost := 2 } else cfg
  let cfg := if cfg.TagsBoost = 0 then { cfg with TagsBoost := 2 } else cfg
  { cfg := cfg, index := none, idToSummary := none, lastFingerprint := [],
    indexBuildCount := 0 }

/-- The method `IndexBuildCount`. -/
def IndexBuildCount (s : BM25Searcher) : Nat := s.indexBuildCount

/-- The function `strings.Join`. -/
def stringsJoin (parts : List GoString) (sep : GoString) : GoString :=
  List.intercalate sep parts

/-- The function `buildWeightedDoc`. -/
def buildWeightedDoc (L : GoLib) (cfg : BM25Config) (doc : SearchDoc) : GoString :=
  let parts : List GoString := []
  let parts :=
    if cfg.NameBoost > 0 then
      parts ++ List.replicate cfg.NameBoost.toNat (L.toLower doc.Summary.Name)
    else parts
  let parts :=
    if cfg.NamespaceBoost > 0 then
      parts ++ List.replicate cfg.NamespaceBoost.toNat (L.toLower doc.Summary.Namespace)
    else parts
  let parts :=
    if cfg.TagsBoost > 0 then
      parts ++ (doc.Summary.Tags.map fun tag =>
        List.replicate cfg.TagsBoost.toNat (L.toLower tag)).flatten
    else parts
  let docText := L.toLower doc.DocText
  let docText :=
    if cfg.MaxDocTextLen > 0 ∧ (docText.length : Int) > cfg.MaxDocTextLen then
      docText.take cfg.MaxDocTextLen.toNat
    else docText
  let parts := if docText ≠ [] then parts ++ [docText] else parts
  stringsJoin parts [32]

/-- The comparison of `sortDocsByID`: `sorted[i].ID < sorted[j].ID`. -/
def docLess (a b : SearchDoc) : Bool := decide (a.ID < b.ID)

/-- The function `sortDocsByID`: a copy of `docs` sorted by id. -/
def sortDocsByID (L : GoLib) (docs : List SearchDoc) : List SearchDoc :=
  L.sortSlice docLess docs

/-- Steps 1 and 2 of `Search` (lines 120 to 126): sort by id, then cut to `MaxDocs`. -/
def sortedDocs (L : GoLib) (cfg : BM25Config) (docs : List SearchDoc) : List SearchDoc :=
  let sorted := sortDocsByID L docs
  if cfg.MaxDocs > 0 ∧ (sorted.length : Int) > cfg.MaxDocs then
    sorted.take cfg.MaxDocs.toNat
  else sorted

/-! ## fingerprint.go -/

/-- The function `slices.Sort` on strings. The order is total, so every correct
sorting routine returns the same list. -/
def slicesSort (xs : List GoString) : List GoString :=
  List.insertionSort (fun a b => a ≤ b) xs

/-- The bytes that `computeFingerprint` writes to the hash for one document. -/
def docStream (doc : SearchDoc) : List (Fin 256) :=
  doc.ID ++ [0] ++ doc.DocText ++ [0] ++ doc.Summary.ID ++ [0] ++ doc.Summary.Name ++ [0]
    ++ doc.Summary.Namespace ++ [0] ++ doc.Summary.ShortDescription ++ [0]
    ++ stringsJoin (slicesSort doc.Summary.Tags) [1] ++ [0]

/-- The whole byte stream that `computeFingerprint` writes to the hash. -/
def fingerprintStream (docs : List SearchDoc) : List (Fin 256) :=
  (docs.map docStream).flatten

/-- One lowercase hexadecimal digit, as a byte of `"0123456789abcdef"`. -/
def hexDigit (n : Nat) : Fin 256 :=
  if n < 10 then Fin.ofNat (48 + n) else Fin.ofNat (87 + n)

/-- The function `hex.EncodeToString`. -/
def hexEncodeToString (bs : List (Fin 256)) : GoString :=
  (bs.map fun b => [hexDigit (b.val / 16), hexDigit (b.val % 16)]).flatten

/-- The function `computeFingerprint`. -/
def computeFingerprint (L : GoLib) (docs : List SearchDoc) : GoString :=
  hexEncodeToString (L.sha256 (fingerprintStream docs))

/-! ## bm25.go: rebuildIndex, Search, Close -/

/-- The loop of `rebuildIndex` (lines 219 to 228): record each summary in the map
and add each weighted text to the batch; stop at the first ingestion error.
Returns the map and the batch contents. -/
def indexDocs {ε σ : Type} (L : GoLib) (E : Engine ε σ) (cfg : BM25Config) (h : Nat) :
    List SearchDoc → List (GoString × Summary) → List (GoString × GoString) → World ε →
    Except GoError (List (GoString × Summary) × List (GoString × GoString)) × World ε
  | [], m, b, w => (Except.ok (m, b), w)
  | doc :: rest, m, b, w =>
    let m1 := (doc.ID, doc.Summary) :: m
    let weightedText := buildWeightedDoc L cfg doc
    match World.batchIndex E w h doc.ID weightedText with
    | (some err, w1) => (Except.error err, w1)
    | (none, w1) => indexDocs L E cfg h rest m1 (b ++ [(doc.ID, weightedText)]) w1

/-- Close the index under construction after the failure `err` (lines 223 to 226
and 230 to 233). -/
def closeAfter {ε σ : Type} (E : Engine ε σ) (w : World ε) (h : Nat) (err : GoError) :
    GoError × World ε :=
  match World.close E w h with
  | (some cerr, w1) => (GoError.wrapClose err cerr, w1)
  | (none, w1) => (err, w1)

/-- The tail of `rebuildIndex` (lines 236 to 263), run once the new index is built:
discard it when the fingerprint is already installed, otherwise close the old
index and install the new one. -/
def installIndex {ε σ : Type} (E : Engine ε σ) (s : BM25Searcher) (w : World ε)
    (index : Index) (idToSummary : List (GoString × Summary)) (fingerprint : GoString) :
    Option GoError × BM25Searcher × World ε :=
  if s.lastFingerprint = fingerprint then
    match World.close E w index.handle with
    | (some cerr, w1) => (some (GoError.closeIndex cerr), s, w1)
    | (none, w1) => (none, s, w1)
  else
    let installed : BM25Searcher :=
      { s with index := some index, idToSummary := some idToSummary,
               lastFingerprint := fingerprint, indexBuildCount := s.indexBuildCount + 1 }
    match s.index with
    | some old =>
      match World.close E w old.handle with
      | (some cerr, w1) =>
        match World.close E w1 index.handle with
        | (some nerr, w2) => (some (GoError.closeOldNew cerr nerr), s, w2)
        | (none, w2) => (some (GoError.closeOld cerr), s, w2)
      | (none, w1) => (none, installed, w1)
    | none => (none, installed, w)

/-- The method `rebuildIndex`: returns the error (if any), the searcher and the world
after the call. -/
def rebuildIndex {ε σ : Type} (L : GoLib) (E : Engine ε σ) (s : BM25Searcher) (w : World ε)
    (docs : List SearchDoc) (fingerprint : GoString) :
    Option GoError × BM25Searcher × World ε :=
  match World.newMemOnly E w with
  | (Except.error err, w1) => (some err, s, w1)
  | (Except.ok h, w1) =>
    match indexDocs L E s.cfg h docs [] [] w1 with
    | (Except.error err, w2) =>
      let r := closeAfter E w2 h err
      (some r.1, s, r.2)
    | (Except.ok (idToSummary, batch), w2) =>
      match World.batch E w2 h batch with
      | (some err, w3) =>
        let r := closeAfter E w3 h err
        (some r.1, s, r.2)
      | (none, w3) => installIndex E s w3 ⟨h, batch⟩ idToSummary fingerprint

/-- What a call of `Search` produces: a result slice, an error, or a run-time panic. -/
inductive SearchResult where
  /-- the return `(results, nil)` -/
  | ok (results : List Summary)
  /-- the return `(nil, err)` -/
  | error (err : GoError)
  /-- a run-time panic -/
  | panic
deriving DecidableEq

/-- The outcome of `Search`: its result, the searcher and the world after the call. -/
structure SearchOut (ε : Type) where
  result : SearchResult
  searcher : BM25Searcher
  world : World ε

/-- The map read `s.idToSummary[id]` with the comma-ok form. -/
def mapLookup (m : Option (List (GoString × Summary))) (id : GoString) : Option Summary :=
  match m with
  | none => none
  | some kvs => kvs.lookup id

/-- The zero value of `toolindex.Summary`. -/
def zeroSummary : Summary :=
  { ID := [], Name := [], Namespace := [], ShortDescription := [], Tags := [] }

/-- The comparison of the hit sort (lines 189 to 194): score descending, then id
ascending. -/
def hitLess {σ : Type} [LinearOrder σ] (a b : scoredHit σ) : Bool :=
  if a.score ≠ b.score then decide (a.score > b.score) else decide (a.id < b.id)

/-- Lines 181 to 186 of `Search`: keep the hits whose id is in the map. -/
def collectHits {σ : Type} (m : Option (List (GoString × Summary))) (raw : List (Hit σ)) :
    List (scoredHit σ) :=
  (raw.filter fun hit => (mapLookup m hit.ID).isSome).map fun hit => ⟨hit.ID, hit.Score⟩

/-- Lines 181 to 194 of `Search`: filter the raw hits, then sort them. -/
def rankHits {σ : Type} [LinearOrder σ] (L : GoLib) (m : Option (List (GoString × Summary)))
    (raw : List (Hit σ)) : List (scoredHit σ) :=
  L.sortSlice hitLess (collectHits m raw)

/-- Lines 176 to 205 of `Search`: from the raw hits to the returned value. The slice
expression `hits[:limit]` panics when `limit` is negative. -/
def finishSearch {σ : Type} [LinearOrder σ] (L : GoLib)
    (m : Option (List (GoString × Summary))) (limit : Int) (raw : List (Hit σ)) :
    SearchResult :=
  let hits := rankHits L m raw
  if (hits.length : Int) > limit then
    if limit < 0 then SearchResult.panic
    else SearchResult.ok ((hits.take limit.toNat).map fun hit => (mapLookup m hit.id).getD zeroSummary)
  else SearchResult.ok (hits.map fun hit => (mapLookup m hit.id).getD zeroSummary)

/-- Lines 128 to 139 of `Search`, the empty-query path. `make` panics on a negative
length. -/
def emptyQueryResult (limit : Int) (sortedDocs : List SearchDoc) : SearchResult :=
  let n := if limit > (sortedDocs.length : Int) then (sortedDocs.length : Int) else limit
  if n < 0 then SearchResult.panic
  else SearchResult.ok ((sortedDocs.take n.toNat).map fun d => d.Summary)

/-- The method `Search`. -/
def Search {ε σ : Type} [LinearOrder σ] (L : GoLib) (E : Engine ε σ) (s : BM25Searcher)
    (w : World ε) (query : GoString) (limit : Int) (docs : List SearchDoc) : SearchOut ε :=
  let query := L.trimSpace query
  let sortedDocs := sortedDocs L s.cfg docs
  if query = [] then
    ⟨emptyQueryResult limit sortedDocs, s, w⟩
  else if sortedDocs.length = 0 then
    ⟨SearchResult.ok [], s, w⟩
  else
    let fingerprint := computeFingerprint L sortedDocs
    let needsRebuild : Bool := s.index.isNone || decide (s.lastFingerprint ≠ fingerprint)
    let r : Option GoError × BM25Searcher × World ε :=
      if needsRebuild then rebuildIndex L E s w sortedDocs fingerprint else (none, s, w)
    match r with
    | (some err, s1, w1) => ⟨SearchResult.error err, s1, w1⟩
    | (none, s1, w1) =>
      let query := L.toLower query
      match s1.index with
      | none => ⟨SearchResult.panic, s1, w1⟩
      | some index =>
        match World.search E w1 index query sortedDocs.length with
        | (Except.error err, w2) => ⟨SearchResult.error err, s1, w2⟩
        | (Except.ok raw, w2) => ⟨finishSearch L s1.idToSummary limit raw, s1, w2⟩

/-- The method `Close`. -/
def Close {ε σ : Type} (E : Engine ε σ) (s : BM25Searcher) (w : World ε) :
    Option GoError × BM25Searcher × World ε :=
  match s.index with
  | some index =>
    let r := World.close E w index.handle
    (r.1, { s with index := none, idToSummary := none, lastFingerprint := [] }, r.2)
  | none => (none, s, w)

/-! ## An executable instance of the library and of the engine

Used to run the model on concrete inputs. -/

/-- The function `strings.TrimSpace` on ASCII strings. -/
def asciiTrimSpace (s : GoString) : GoString :=
  ((s.dropWhile isAsciiSpace).reverse.dropWhile isAsciiSpace).reverse

/-- The function `strings.ToLower` on ASCII strings. -/
def asciiToLower (s : GoString) : GoString :=
  s.map fun b => if 65 ≤ b.val ∧ b.val ≤ 90 then Fin.ofNat (b.val + 32) else b

/-- A stand-in for the digest: the first 32 bytes of the stream, padded with zeros.
It is not SHA-256; it only has the length of one. -/
def paddedDigest (m : List (Fin 256)) : List (Fin 256) :=
  (m ++ List.replicate 32 0).take 32

/-- Insertion sort by a Go `less` function, one routine that meets the contract of
`sort.Slice`. -/
def insertionSortBy {α : Type} (less : α → α → Bool) (xs : List α) : List α :=
  List.insertionSort (fun a b => less b a = false) xs

/-- An instance of the library interface: it agrees with Go on ASCII strings, sorts by
insertion, and uses `paddedDigest` in place of SHA-256. -/
def refLib : GoLib where
  trimSpace := asciiTrimSpace
  toLower := asciiToLower
  sha256 := paddedDigest
  sortSlice := insertionSortBy
  trimSpace_nil := rfl
  trimSpace_space := by
    intro s hs
    have h : s.dropWhile isAsciiSpace = [] := by
      rw [List.dropWhile_eq_nil_iff]
      exact hs
    simp [asciiTrimSpace, h]
  toLower_eq_nil_iff := by
    intro s
    simp [asciiToLower]
  toLower_no_upper := by
    intro s b hb
    unfold asciiToLower at hb
    obtain ⟨a, _, rfl⟩ := List.mem_map.mp hb
    have ha := a.isLt
    split
    · rename_i h
      simp only [Fin.ofNat, Nat.succ_eq_add_one, Nat.reduceAdd]
      omega
    · rename_i h
      exact h
  toLower_no_space := by
    intro s hs hmem
    unfold asciiToLower at hmem
    obtain ⟨a, ha, heq⟩ := List.mem_map.mp hmem
    have hlt := a.isLt
    split at heq
    · rename_i h
      have := congrArg Fin.val heq
      simp only [Fin.ofNat, Nat.succ_eq_add_one, Nat.reduceAdd] at this
      have h32 : ((32 : Fin 256) : Nat) = 32 := rfl
      omega
    · rw [heq] at ha
      exact hs ha
  sha256_length := by
    intro m
    simp [paddedDigest]
  sortSlice_perm := by
    intro α less xs
    exact List.perm_insertionSort _ xs
  sortSlice_sorted := by
    intro α less xs hsw
    have htot : IsTotal α (fun a b => less b a = false) := by
      constructor
      intro a b
      cases hba : less b a
      · exact Or.inl rfl
      · exact Or.inr (hsw.asymm b a hba)
    have htr : IsTrans α (fun a b => less b a = false) := by
      constructor
      intro a b c hab hbc
      cases hca : less c a
      · rfl
      · rcases hsw.negTrans c b a hca with h | h
        · rw [h] at hbc
          exact absurd hbc (by simp)
        · rw [h] at hab
          exact absurd hab (by simp)
    exact List.sorted_insertionSort (fun a b => less b a = false) xs

/-- A small deterministic engine: handles are numbered from the engine state, no
operation fails, and a query matches every document whose content contains the
first byte of the query, scored by the number of occurrences of that byte; the
hits come back in reverse batch order, at most `size` of them. -/
def countEngine : Engine Nat Nat where
  newMemOnly := fun e => (Except.ok e, e + 1)
  batchIndex := fun e _ _ _ => (none, e)
  batch := fun e _ _ => (none, e)
  search := fun e idx query size =>
    (Except.ok (((idx.docs.reverse.filter fun d => decide (0 < d.2.count (query.headD 0))).map
      fun d => ⟨d.1, d.2.count (query.headD 0)⟩).take size), e)
  close := fun e _ => (none, e)

/-- An engine on which every operation fails. -/
def failingEngine : Engine Nat Nat where
  newMemOnly := fun e => (Except.error (GoError.engine 1), e)
  batchIndex := fun e _ _ _ => (some (GoError.engine 2), e)
  batch := fun e _ _ => (some (GoError.engine 3), e)
  search := fun e _ _ _ => (Except.error (GoError.engine 4), e)
  close := fun e _ => (some (GoError.engine 5), e)

/-- The initial world: engine state `0`, nothing logged. -/
def world0 : World Nat := ⟨0, []⟩

/-- A document with the given id and body, and a summary carrying the same id. -/
def mkDoc (id body : GoString) : SearchDoc :=
  { ID := id, DocText := body,
    Summary := { ID := id, Name := [], Namespace := [], ShortDescription := [], Tags := [] } }

/-- The configuration with every field zero. -/
def zeroConfig : BM25Config :=
  { NameBoost := 0, NamespaceBoost := 0, TagsBoost := 0, MaxDocs := 0, MaxDocTextLen := 0 }

/-- Sample documents `a`, `b`, `c` with bodies `git`, `gg`, `x`. -/
def docA : SearchDoc := mkDoc [97] [103, 105, 116]

/-- See `docA`. -/
def docB : SearchDoc := mkDoc [98] [103, 103]

/-- See `docA`. -/
def docC : SearchDoc := mkDoc [99] [120]

/-- The order that `Search` imposes on the hits behind its results: score
descending, and id ascending among equal scores. -/
def RankedBefore {σ : Type} [LinearOrder σ] (a b : scoredHit σ) : Prop :=
  b.score < a.score ∨ (a.score = b.score ∧ a.id ≤ b.id)

/-- The summary that `Search` returns for a ranked hit (line 202). -/
def summaryOf (m : Option (List (GoString × Summary))) {σ : Type} (hit : scoredHit σ) :
    Summary :=
  (mapLookup m hit.id).getD zeroSummary

/-- The configuration with every field zero except `MaxDocs`. -/
def maxDocsConfig (k : Int) : BM25Config :=
  { NameBoost := 0, NamespaceBoost := 0, TagsBoost := 0, MaxDocs := k, MaxDocTextLen := 0 }

/-- The `(id, content)` pair that `rebuildIndex` submits to the engine for a document. -/
def batchEntry (L : GoLib) (cfg : BM25Config) (d : SearchDoc) : GoString × GoString :=
  (d.ID, buildWeightedDoc L cfg d)

/-- The id-to-summary map that the loop of `rebuildIndex` builds from `docs`: one entry
per document, the last document first. -/
def summaryMap (docs : List SearchDoc) : List (GoString × Summary) :=
  (docs.map fun d => (d.ID, d.Summary)).reverse

/-- The searcher after `rebuildIndex` has installed an index with handle `h` built
from `docs` (lines 258 to 261). -/
def installed (L : GoLib) (s : BM25Searcher) (h : Nat) (docs : List SearchDoc)
    (fingerprint : GoString) : BM25Searcher :=
  { cfg := s.cfg, index := some ⟨h, docs.map (batchEntry L s.cfg)⟩,
    idToSummary := some (summaryMap docs), lastFingerprint := fingerprint,
    indexBuildCount := s.indexBuildCount + 1 }

/-- An engine call that hands the engine nothing but documents of `pool`: a
`batch.Index` call submits the id and weighted text of a document of `pool`, an
`index.Batch` call submits the entries of `pool` in order, and a search asks for
`len(pool)` hits. -/
def CallWithin (L : GoLib) (cfg : BM25Config) (pool : List SearchDoc) : EngineCall → Prop
  | EngineCall.batchIndex _ id content =>
    ∃ d ∈ pool, id = d.ID ∧ content = buildWeightedDoc L cfg d
  | EngineCall.batch _ b => b = pool.map (batchEntry L cfg)
  | EngineCall.search _ _ size => size = pool.length
  | EngineCall.newMemOnly => True
  | EngineCall.close _ => True

/-! ## Sequences of calls -/

/-- One call made on a searcher: `Search(query, limit, docs)` or `Close()`. -/
inductive Call where
  /-- a call of `Search` -/
  | search (query : GoString) (limit : Int) (docs : List SearchDoc)
  /-- a call of `Close` -/
  | close

/-- The documents supplied to a call (none for `Close`). -/
def Call.docs : Call → List SearchDoc
  | Call.search _ _ docs => docs
  | Call.close => []

/-- Run one call: the searcher and the world after it. -/
def stepCall {ε σ : Type} [LinearOrder σ] (L : GoLib) (E : Engine ε σ)
    (sw : BM25Searcher × World ε) (c : Call) : BM25Searcher × World ε :=
  match c with
  | Call.search query limit docs =>
    ((Search L E sw.1 sw.2 query limit docs).searcher,
      (Search L E sw.1 sw.2 query limit docs).world)
  | Call.close => ((Close E sw.1 sw.2).2.1, (Close E sw.1 sw.2).2.2)

/-- Run a sequence of calls one after the other. -/
def runCalls {ε σ : Type} [LinearOrder σ] (L : GoLib) (E : Engine ε σ)
    (sw : BM25Searcher × World ε) (calls : List Call) : BM25Searcher × World ε :=
  calls.foldl (stepCall L E) sw

/-- The cache of the searcher is empty, or it holds the index, the mapping and the
fingerprint built from one document sequence `pool` that satisfies `P`. -/
def CachedFrom (L : GoLib) (P : List SearchDoc → Prop) (s : BM25Searcher) : Prop :=
  (s.index = none ∧ s.idToSummary = none ∧ s.lastFingerprint = []) ∨
  ∃ (h : Nat) (pool : List SearchDoc), P pool ∧
    s.index = some ⟨h, pool.map (batchEntry L s.cfg)⟩ ∧
    s.idToSummary = some (summaryMap pool) ∧
    s.lastFingerprint = computeFingerprint L pool

/-! ## Documents up to tag order, and separator-free documents -/

/-- Two summaries agree on every field, the tags up to their order. -/
def SummaryUpToTagOrder (a b : Summary) : Prop :=
  a.ID = b.ID ∧ a.Name = b.Name ∧ a.Namespace = b.Namespace ∧
  a.ShortDescription = b.ShortDescription ∧ a.Tags.Perm b.Tags

/-- Two documents agree on id, body text and summary, the tags up to their order. -/
def SameUpToTagOrder (a b : SearchDoc) : Prop :=
  a.ID = b.ID ∧ a.DocText = b.DocText ∧ SummaryUpToTagOrder a.Summary b.Summary

/-- A document whose text cannot be confused with the separators of the fingerprint
stream: no field and no tag contains the byte `0x00`, no tag contains the byte `0x01`,
and no tag is the empty string. -/
def CleanDoc (d : SearchDoc) : Prop :=
  (0 : Fin 256) ∉ d.ID ∧ (0 : Fin 256) ∉ d.DocText ∧ (0 : Fin 256) ∉ d.Summary.ID ∧
  (0 : Fin 256) ∉ d.Summary.Name ∧ (0 : Fin 256) ∉ d.Summary.Namespace ∧
  (0 : Fin 256) ∉ d.Summary.ShortDescription ∧
  ∀ t ∈ d.Summary.Tags, (0 : Fin 256) ∉ t ∧ (1 : Fin 256) ∉ t ∧ t ≠ []

instance (a b : Summary) : Decidable (SummaryUpToTagOrder a b) := by
  unfold SummaryUpToTagOrder
  infer_instance

instance (a b : SearchDoc) : Decidable (SameUpToTagOrder a b) := by
  unfold SameUpToTagOrder
  infer_instance

instance (d : SearchDoc) : Decidable (CleanDoc d) := by
  unfold CleanDoc
  infer_instance

/-- A document with the given id, body and tags, and an otherwise empty summary. -/
def mkTagDoc (id body : GoString) (tags : List GoString) : SearchDoc :=
  { ID := id, DocText := body,
    Summary := { ID := id, Name := [], Namespace := [], ShortDescription := [], Tags := tags } }

/-- The document `t` with body `g` and the tags `x`, `y`. -/
def docT1 : SearchDoc := mkTagDoc [116] [103] [[120], [121]]

/-- The document `docT1` with its tags in the other order. -/
def docT2 : SearchDoc := mkTagDoc [116] [103] [[121], [120]]

/-! ## The weighted text in the words of the specification -/

/-- The body fragment of the weighted text as the specification describes it: the
lower-cased body, cut to its first `MaxDocTextLen` bytes when `MaxDocTextLen > 0` and it
is longer. -/
def specBody (L : GoLib) (cfg : BM25Config) (doc : SearchDoc) : GoString :=
  if cfg.MaxDocTextLen > 0 ∧ ((L.toLower doc.DocText).length : Int) > cfg.MaxDocTextLen then
    (L.toLower doc.DocText).take cfg.MaxDocTextLen.toNat
  else L.toLower doc.DocText

/-- The fragment list of the weighted text as the specification describes it:
`NameBoost` copies of the lower-cased name if `NameBoost > 0`; `NamespaceBoost` copies of
the lower-cased namespace if `NamespaceBoost > 0`; for each tag in the given order,
`TagsBoost` copies of the lower-cased tag if `TagsBoost > 0`; then the body fragment
`specBody`, if it is non-empty. -/
def specFragments (L : GoLib) (cfg : BM25Config) (doc : SearchDoc) : List GoString :=
  (if cfg.NameBoost > 0 then List.replicate cfg.NameBoost.toNat (L.toLower doc.Summary.Name)
    else []) ++
  (if cfg.NamespaceBoost > 0 then
      List.replicate cfg.NamespaceBoost.toNat (L.toLower doc.Summary.Namespace)
    else []) ++
  (if cfg.TagsBoost > 0 then
      (doc.Summary.Tags.map fun tag =>
        List.replicate cfg.TagsBoost.toNat (L.toLower tag)).flatten
    else []) ++
  (if specBody L cfg doc = [] then [] else [specBody L cfg doc])

/-- The searcher after a new searcher has run the query `g` over the sample documents. -/
def searcherABC : BM25Searcher :=
  (Search refLib countEngine (NewBM25Searcher zeroConfig) world0 [103] 10
    [docC, docB, docA]).searcher

/-- The world after a new searcher has run the query `g` over the sample documents. -/
def worldABC : World Nat :=
  (Search refLib countEngine (NewBM25Searcher zeroConfig) world0 [103] 10
    [docC, docB, docA]).world

/-- The document `t` with body `g` and the single tag `x\x01y`. -/
def docJoinedTag : SearchDoc := mkTagDoc [116] [103] [[120, 1, 121]]

/-- The document `t` with body `g` and no tag. -/
def docNoTag : SearchDoc := mkTagDoc [116] [103] []

/-- The document `t` with body `g` and one tag, the empty string. -/
def docEmptyTag : SearchDoc := mkTagDoc [116] [103] [[]]

/-- A document with id `a\x00` and an empty body. -/
def docZeroInID : SearchDoc :=
  { ID := [97, 0], DocText := [], Summary := zeroSummary }

/-- A document with id `a` and body `\x00`. -/
def docZeroInText : SearchDoc :=
  { ID := [97], DocText := [0], Summary := zeroSummary }

/-! ## Counting occurrences -/

/-- The string `w` occurs in the string `p`. -/
def Occurs (w p : GoString) : Prop := ∃ a b : GoString, p = a ++ w ++ b

/-- The scan of `strings.Count` for a non-empty `w`: an occurrence of `w` is counted
where it starts, leftmost first, and the `len(w) - 1` bytes after its first byte are
skipped, so that the occurrences counted do not overlap. The first argument is the number
of bytes still to skip. -/
def countScan (w : GoString) : Nat → GoString → Nat
  | _, [] => 0
  | skip + 1, _ :: t => countScan w skip t
  | 0, c :: t =>
    if (c :: t).take w.length = w then 1 + countScan w (w.length - 1) t
    else countScan w 0 t

/-- The function `strings.Count(s, substr)` for a non-empty `substr`: the number of
non-overlapping instances of `substr` in `s`. -/
def stringsCount (s substr : GoString) : Nat := countScan substr 0 s

/-! ## The phases of a rebuild -/

/-- Lines 210 to 234 of `rebuildIndex`: construct a new index, ingest the documents and
execute the batch. Returns the failure, after closing the new index if one was
constructed, or the handle of the new index with the map and the batch contents. -/
def buildNewIndex {ε σ : Type} (L : GoLib) (E : Engine ε σ) (cfg : BM25Config) (w : World ε)
    (docs : List SearchDoc) :
    Except GoError (Nat × List (GoString × Summary) × List (GoString × GoString)) × World ε :=
  match World.newMemOnly E w with
  | (Except.error err, w1) => (Except.error err, w1)
  | (Except.ok h, w1) =>
    match indexDocs L E cfg h docs [] [] w1 with
    | (Except.error err, w2) =>
      let r := closeAfter E w2 h err
      (Except.error r.1, r.2)
    | (Except.ok (idToSummary, batch), w2) =>
      match World.batch E w2 h batch with
      | (some err, w3) =>
        let r := closeAfter E w3 h err
        (Except.error r.1, r.2)
      | (none, w3) => (Except.ok (h, idToSummary, batch), w3)

/-- Lines 146 to 159 of `Search`: compute the fingerprint of the canonical documents and
rebuild the index when the searcher has none or holds another fingerprint. -/
def ensureIndex {ε σ : Type} (L : GoLib) (E : Engine ε σ) (s : BM25Searcher) (w : World ε)
    (sortedDocs : List SearchDoc) : Option GoError × BM25Searcher × World ε :=
  if (s.index.isNone ||
      decide (s.lastFingerprint ≠ computeFingerprint L sortedDocs)) = true then
    rebuildIndex L E s w sortedDocs (computeFingerprint L sortedDocs)
  else (none, s, w)

/-- An engine like `countEngine` on which chosen operations fail: constructing an index
fails with `newErr`, ingesting the document `id` with `indexErr id`, executing the batch
of index `h` with `batchErr h`, closing index `h` with `closeErr h`, and searching with
`searchErr`; `none` means that the operation succeeds. -/
def scriptedEngine (newErr : Option GoError) (indexErr : GoString → Option GoError)
    (batchErr closeErr : Nat → Option GoError) (searchErr : Option GoError) :
    Engine Nat Nat where
  newMemOnly := fun e =>
    match newErr with
    | some err => (Except.error err, e)
    | none => (Except.ok e, e + 1)
  batchIndex := fun e _ id _ => (indexErr id, e)
  batch := fun e h _ => (batchErr h, e)
  search := fun e idx query size =>
    match searchErr with
    | some err => (Except.error err, e)
    | none => countEngine.search e idx query size
  close := fun e h => (closeErr h, e)

/-- A document with id `a`, body `g` and the name `n`. -/
def docNamed1 : SearchDoc :=
  { ID := [97], DocText := [103],
    Summary := { ID := [97], Name := [110], Namespace := [], ShortDescription := [], Tags := [] } }

/-- The document `docNamed1` with the name `m`. -/
def docNamed2 : SearchDoc :=
  { ID := [97], DocText := [103],
    Summary := { ID := [97], Name := [109], Namespace := [], ShortDescription := [], Tags := [] } }

/-- The configuration with every boost `-1` and no limits. -/
def negativeBoostConfig : BM25Config :=
  { NameBoost := -1, NamespaceBoost := -1, TagsBoost := -1, MaxDocs := 0, MaxDocTextLen := 0 }

/-- The configuration with every boost zero and `MaxDocTextLen = k`. -/
def maxTextConfig (k : Int) : BM25Config :=
  { NameBoost := 0, NamespaceBoost := 0, TagsBoost := 0, MaxDocs := 0, MaxDocTextLen := k }

/-- The configuration with `TagsBoost = n` and every other field zero. -/
def tagsOnlyConfig (n : Int) : BM25Config :=
  { NameBoost := 0, NamespaceBoost := 0, TagsBoost := n, MaxDocs := 0, MaxDocTextLen := 0 }

/-- The configuration with `NameBoost = n` and every other field zero. -/
def nameOnlyConfig (n : Int) : BM25Config :=
  { NameBoost := n, NamespaceBoost := 0, TagsBoost := 0, MaxDocs := 0, MaxDocTextLen := 0 }

/-- A document with an empty body and the tags `a` and `ab`. -/
def docTagsAB : SearchDoc := mkTagDoc [100] [] [[97], [97, 98]]

/-- A document with an empty body, the name `Git` and the tags `x` and `y`. -/
def docGit : SearchDoc :=
  { ID := [100], DocText := [],
    Summary := { ID := [100], Name := [71, 105, 116], Namespace := [], ShortDescription := [],
                 Tags := [[120], [121]] } }

/-- An engine on which ingesting the document `b` fails with error 7; every other
operation succeeds. -/
def ingestFailEngine : Engine Nat Nat :=
  scriptedEngine none (fun id => if id = [98] then some (GoError.engine 7) else none)
    (fun _ => none) (fun _ => none) none

/-- An engine on which closing the index with handle 0 fails with error 9; every other
operation succeeds. -/
def closeFailEngine : Engine Nat Nat :=
  scriptedEngine none (fun _ => none) (fun _ => none)
    (fun h => if h = 0 then some (GoError.engine 9) else none) none

/-- An engine on which every search fails with error 4; every other operation
succeeds. -/
def searchFailEngine : Engine Nat Nat :=
  scriptedEngine none (fun _ => none) (fun _ => none) (fun _ => none) (some (GoError.engine 4))

/-- A document with id `d` whose body is `G` followed by the two bytes of `é`. -/
def docCut : SearchDoc := mkDoc [100] [71, 195, 169]

/-! ## The cached state -/

/-- The last document of `pool` whose id is `id`, if there is one. -/
def lastWithID (pool : List SearchDoc) (id : GoString) : Option SearchDoc :=
  pool.reverse.find? fun d => decide (d.ID = id)

/-- The calls of a trace that close an index. -/
def closeCalls (trace : List EngineCall) : List EngineCall :=
  trace.filter fun c =>
    match c with
    | EngineCall.close _ => true
    | _ => false

/-- Two documents with the same id `a`: the first has the name `n`, the second the
name `m`. -/
def docsSameID : List SearchDoc := [docNamed1, docNamed2]

/-! ## Error values -/

/-- The method `Error` of an error value this package returns: the message that
`fmt.Errorf` formats, in which both `%w` and `%v` print the message of their operand.
The messages of the engine's own errors are given by `engMsg`. -/
def GoError.Error (engMsg : Nat → GoString) : GoError → GoString
  | GoError.engine code => engMsg code
  -- "%w; close index: %v"
  | GoError.wrapClose err cerr =>
    GoError.Error engMsg err ++
      [59, 32, 99, 108, 111, 115, 101, 32, 105, 110, 100, 101, 120, 58, 32] ++
      GoError.Error engMsg cerr
  -- "close index: %w"
  | GoError.closeIndex cerr =>
    [99, 108, 111, 115, 101, 32, 105, 110, 100, 101, 120, 58, 32] ++ GoError.Error engMsg cerr
  -- "close old index: %v; close new index: %v"
  | GoError.closeOldNew cerr nerr =>
    [99, 108, 111, 115, 101, 32, 111, 108, 100, 32, 105, 110, 100, 101, 120, 58, 32] ++
      GoError.Error engMsg cerr ++
      [59, 32, 99, 108, 111, 115, 101, 32, 110, 101, 119, 32, 105, 110, 100, 101, 120, 58, 32] ++
      GoError.Error engMsg nerr
  -- "close old index: %w"
  | GoError.closeOld cerr =>
    [99, 108, 111, 115, 101, 32, 111, 108, 100, 32, 105, 110, 100, 101, 120, 58, 32] ++
      GoError.Error engMsg cerr

/-- The function `errors.Unwrap` on an error value this package builds: the operand of
the `%w` verb of its format, `none` when the format has no `%w`. An error of the engine is
taken as it is, with nothing to unwrap. -/
def GoError.Unwrap : GoError → Option GoError
  | GoError.engine _ => none
  | GoError.wrapClose err _ => some err
  | GoError.closeIndex cerr => some cerr
  | GoError.closeOldNew _ _ => none
  | GoError.closeOld cerr => some cerr

/-- An engine on which ingesting the document `b` fails with error 7 and every close
fails with error 9; every other operation succeeds. -/
def ingestCloseFailEngine : Engine Nat Nat :=
  scriptedEngine none (fun id => if id = [98] then some (GoError.engine 7) else none)
    (fun _ => none) (fun _ => some (GoError.engine 9)) none

/-- Messages for the sample engine errors: error `n` has the one-byte message `n`. -/
def sampleMsg (code : Nat) : GoString := [Fin.ofNat code]

/-! ## Checked cuts -/

/-- The slice expression `xs[:hi]` with its run-time check: it panics (`none`) unless
`0 <= hi <= len(xs)`. -/
def sliceTo {α : Type} (xs : List α) (hi : Int) : Option (List α) :=
  if 0 ≤ hi ∧ hi ≤ (xs.length : Int) then some (xs.take hi.toNat) else none

/-- The length check of `make([]T, n)`: it panics (`none`) when `n` is negative. -/
def makeLen (n : Int) : Option Nat :=
  if 0 ≤ n then some n.toNat else none

/-- Lines 124 to 126 of `Search` with the check of the slice expression. -/
def cutToMaxDocs (cfg : BM25Config) (sorted : List SearchDoc) : Option (List SearchDoc) :=
  if cfg.MaxDocs > 0 ∧ (sorted.length : Int) > cfg.MaxDocs then sliceTo sorted cfg.MaxDocs
  else some sorted

/-- Lines 101 to 103 of `buildWeightedDoc` with the check of the slice expression. -/
def cutDocText (cfg : BM25Config) (docText : GoString) : Option GoString :=
  if cfg.MaxDocTextLen > 0 ∧ (docText.length : Int) > cfg.MaxDocTextLen then
    sliceTo docText cfg.MaxDocTextLen
  else some docText

/-- The loop of lines 135 to 137 of `Search` over `i = 0, ..., n - 1`, with the check of
the index expression `sortedDocs[i]`. -/
def copySummaries (sortedDocs : List SearchDoc) : Nat → Option (List Summary)
  | 0 => some []
  | i + 1 =>
    match copySummaries sortedDocs i, sortedDocs.get? i with
    | some results, some d => some (results ++ [d.Summary])
    | _, _ => none

/-- Lines 130 to 138 of `Search` with the checks of `make` and of the index expression. -/
def emptyQueryChecked (limit : Int) (sortedDocs : List SearchDoc) : Option (List Summary) :=
  let n := if limit > (sortedDocs.length : Int) then (sortedDocs.length : Int) else limit
  match makeLen n with
  | none => none
  | some k => copySummaries sortedDocs k

/-- Lines 197 to 199 of `Search` with the check of the slice expression. -/
def cutToLimit {α : Type} (hits : List α) (limit : Int) : Option (List α) :=
  if (hits.length : Int) > limit then sliceTo hits limit else some hits

/-- The outcome of a checked computation of the results: a panic when a check failed. -/
def SearchResult.ofChecked : Option (List Summary) → SearchResult
  | some results => SearchResult.ok results
  | none => SearchResult.panic

/-- A configuration with negative `MaxDocs` and `MaxDocTextLen`. -/
def negativeCutConfig : BM25Config :=
  { NameBoost := 0, NamespaceBoost := 0, TagsBoost := 0, MaxDocs := -2, MaxDocTextLen := -3 }

/-! ## Results under a smaller limit -/

/-- The first `limit` entries of a result slice; an error or a panic is kept. -/
def SearchResult.firstN (limit : Int) : SearchResult → SearchResult
  | SearchResult.ok results => SearchResult.ok (results.take limit.toNat)
  | SearchResult.error err => SearchResult.error err
  | SearchResult.panic => SearchResult.panic

/-! ## Sorting lemmas -/

theorem docLess_strictWeak : IsStrictWeak docLess := by
  constructor
  · intro a b h
    simp only [docLess, decide_eq_true_eq] at h
    simp only [docLess, decide_eq_false_iff_not]
    exact lt_asymm h
  · intro a b c h
    simp only [docLess, decide_eq_true_eq] at h ⊢
    exact LT.lt.lt_or_lt h b.ID

theorem sortDocsByID_perm (L : GoLib) (docs : List SearchDoc) :
    (sortDocsByID L docs).Perm docs :=
  L.sortSlice_perm docLess docs

theorem sortDocsByID_sorted (L : GoLib) (docs : List SearchDoc) :
    (sortDocsByID L docs).Pairwise (fun a b => a.ID ≤ b.ID) := by
  have h := L.sortSlice_sorted docLess docs docLess_strictWeak
  refine h.imp ?_
  intro a b hab
  simp only [docLess, decide_eq_false_iff_not] at hab
  exact not_lt.mp hab

theorem sortDocsByID_length (L : GoLib) (docs : List SearchDoc) :
    (sortDocsByID L docs).length = docs.length :=
  (sortDocsByID_perm L docs).length_eq

/-- Two permutations of each other with the same image under `f`, one of them without
repetition, are equal. -/
theorem eq_of_perm_of_map_eq {α β : Type} (f : α → β) :
    ∀ (l1 l2 : List α), l1.Perm l2 → (l1.map f).Nodup → l1.map f = l2.map f → l1 = l2 := by
  intro l1
  induction l1 with
  | nil =>
    intro l2 hp _ _
    exact hp.nil_eq
  | cons a t ih =>
    intro l2 hp hnd hmap
    cases l2 with
    | nil => exact absurd hp.length_eq (by simp)
    | cons b u =>
      simp only [List.map_cons, List.cons.injEq] at hmap
      simp only [List.map_cons, List.nodup_cons] at hnd
      have hb : b ∈ a :: t := hp.symm.subset (List.mem_cons_self b u)
      have hab : a = b := by
        rcases List.mem_cons.mp hb with h | h
        · exact h.symm
        · exfalso
          apply hnd.1
          rw [hmap.1]
          exact List.mem_map_of_mem f h
      subst hab
      rw [ih u (List.Perm.cons_inv hp) hnd.2 hmap.2]

/-- Documents with pairwise distinct ids have exactly one id-ascending arrangement:
any two lists that are sorted by id and permutations of each other are equal. -/
theorem sorted_docs_unique (l1 l2 : List SearchDoc) (hp : l1.Perm l2)
    (hnd : (l1.map fun d => d.ID).Nodup)
    (h1 : l1.Pairwise (fun a b => a.ID ≤ b.ID)) (h2 : l2.Pairwise (fun a b => a.ID ≤ b.ID)) :
    l1 = l2 := by
  apply eq_of_perm_of_map_eq (fun d => d.ID) l1 l2 hp hnd
  have s1 : (l1.map fun d => d.ID).Sorted (· ≤ ·) := List.pairwise_map.mpr h1
  have s2 : (l2.map fun d => d.ID).Sorted (· ≤ ·) := List.pairwise_map.mpr h2
  exact List.eq_of_perm_of_sorted (hp.map _) s1 s2

theorem sortDocsByID_congr (L : GoLib) (docs docs2 : List SearchDoc)
    (hnd : (docs.map fun d => d.ID).Nodup) (hp : docs.Perm docs2) :
    sortDocsByID L docs = sortDocsByID L docs2 := by
  have p1 := sortDocsByID_perm L docs
  have p2 := sortDocsByID_perm L docs2
  apply sorted_docs_unique _ _ (p1.trans (hp.trans p2.symm)) _
    (sortDocsByID_sorted L docs) (sortDocsByID_sorted L docs2)
  exact ((p1.map _).nodup_iff).mpr hnd

theorem sortedDocs_congr (L : GoLib) (cfg : BM25Config) (docs docs2 : List SearchDoc)
    (hnd : (docs.map fun d => d.ID).Nodup) (hp : docs.Perm docs2) :
    sortedDocs L cfg docs = sortedDocs L cfg docs2 := by
  unfold sortedDocs
  rw [sortDocsByID_congr L docs docs2 hnd hp]

/-- A list that is already strictly ascending by id is left as it is. -/
theorem sortDocsByID_of_sorted (L : GoLib) (docs : List SearchDoc)
    (hs : docs.Pairwise (fun a b => a.ID < b.ID)) : sortDocsByID L docs = docs := by
  have hnd : (docs.map fun d => d.ID).Nodup := by
    rw [List.Nodup, List.pairwise_map]
    exact hs.imp (fun h => ne_of_lt h)
  apply sorted_docs_unique _ _ (sortDocsByID_perm L docs) _ (sortDocsByID_sorted L docs)
    (hs.imp le_of_lt)
  exact (((sortDocsByID_perm L docs).map _).nodup_iff).mpr hnd

/-- The cut to `MaxDocs` written as a plain `take`. -/
theorem sortedDocs_eq (L : GoLib) (cfg : BM25Config) (docs : List SearchDoc) :
    sortedDocs L cfg docs =
      if 0 < cfg.MaxDocs then (sortDocsByID L docs).take cfg.MaxDocs.toNat
      else sortDocsByID L docs := by
  unfold sortedDocs
  by_cases hk : 0 < cfg.MaxDocs
  · by_cases hlen : ((sortDocsByID L docs).length : Int) > cfg.MaxDocs
    · simp [hk, hlen]
    · have : (sortDocsByID L docs).length ≤ cfg.MaxDocs.toNat := by omega
      simp [hk, hlen, List.take_of_length_le this]
  · simp [hk]

theorem sortedDocs_length_le (L : GoLib) (cfg : BM25Config) (docs : List SearchDoc) :
    (sortedDocs L cfg docs).length ≤ docs.length := by
  rw [sortedDocs_eq]
  split
  · rw [List.length_take, sortDocsByID_length]
    exact Nat.min_le_right _ _
  · rw [sortDocsByID_length]

theorem sortedDocs_length_le_maxDocs (L : GoLib) (cfg : BM25Config) (docs : List SearchDoc)
    (hk : 0 < cfg.MaxDocs) : ((sortedDocs L cfg docs).length : Int) ≤ cfg.MaxDocs := by
  rw [sortedDocs_eq, if_pos hk, List.length_take]
  omega


/-! ## The hit order -/

theorem hitLess_iff {σ : Type} [LinearOrder σ] (a b : scoredHit σ) :
    hitLess a b = true ↔ b.score < a.score ∨ (a.score = b.score ∧ a.id < b.id) := by
  unfold hitLess
  by_cases h : a.score = b.score
  · simp [h]
  · simp [h]

theorem hitLess_false_iff {σ : Type} [LinearOrder σ] (a b : scoredHit σ) :
    hitLess b a = false ↔ RankedBefore a b := by
  rw [← Bool.not_eq_true, hitLess_iff, RankedBefore]
  constructor
  · intro h
    push_neg at h
    rcases lt_or_eq_of_le h.1 with hlt | heq
    · exact Or.inl hlt
    · exact Or.inr ⟨heq.symm, h.2 heq⟩
  · intro h hc
    rcases h with h | ⟨h1, h2⟩
    · rcases hc with hc | ⟨hc1, _⟩
      · exact lt_asymm h hc
      · rw [hc1] at h
        exact lt_irrefl _ h
    · rcases hc with hc | ⟨_, hc2⟩
      · rw [h1] at hc
        exact lt_irrefl _ hc
      · exact not_lt.mpr h2 hc2

theorem hitLess_strictWeak {σ : Type} [LinearOrder σ] :
    IsStrictWeak (hitLess : scoredHit σ → scoredHit σ → Bool) := by
  constructor
  · intro a b h
    rw [hitLess_false_iff]
    rw [hitLess_iff] at h
    rcases h with h | ⟨h1, h2⟩
    · exact Or.inl h
    · exact Or.inr ⟨h1, le_of_lt h2⟩
  · intro a b c h
    rw [hitLess_iff] at h
    rw [hitLess_iff, hitLess_iff]
    rcases h with h | ⟨h1, h2⟩
    · rcases lt_trichotomy b.score a.score with hb | hb | hb
      · exact Or.inl (Or.inl hb)
      · rw [← hb] at h
        exact Or.inr (Or.inl h)
      · exact Or.inr (Or.inl (lt_trans h hb))
    · rcases lt_trichotomy b.score a.score with hb | hb | hb
      · exact Or.inl (Or.inl hb)
      · rcases LT.lt.lt_or_lt h2 b.id with hid | hid
        · exact Or.inl (Or.inr ⟨hb.symm, hid⟩)
        · exact Or.inr (Or.inr ⟨hb.trans h1, hid⟩)
      · rw [h1] at hb
        exact Or.inr (Or.inl hb)

theorem rankedBefore_antisymm {σ : Type} [LinearOrder σ] (a b : scoredHit σ)
    (hab : RankedBefore a b) (hba : RankedBefore b a) : a = b := by
  unfold RankedBefore at hab hba
  have hs : a.score = b.score := by
    rcases hab with h | h
    · rcases hba with h2 | h2
      · exact absurd h (lt_asymm h2)
      · exact h2.1.symm
    · exact h.1
  have hi : a.id = b.id := by
    rcases hab with h | h
    · rw [hs] at h
      exact absurd h (lt_irrefl _)
    · rcases hba with h2 | h2
      · rw [hs] at h2
        exact absurd h2 (lt_irrefl _)
      · exact le_antisymm h.2 h2.2
  cases a
  cases b
  simp only [scoredHit.mk.injEq]
  exact ⟨hi, hs⟩

theorem rankHits_perm {σ : Type} [LinearOrder σ] (L : GoLib)
    (m : Option (List (GoString × Summary))) (raw : List (Hit σ)) :
    (rankHits L m raw).Perm (collectHits m raw) :=
  L.sortSlice_perm hitLess _

theorem rankHits_sorted {σ : Type} [LinearOrder σ] (L : GoLib)
    (m : Option (List (GoString × Summary))) (raw : List (Hit σ)) :
    (rankHits L m raw).Pairwise RankedBefore := by
  have h := L.sortSlice_sorted hitLess (collectHits m raw) hitLess_strictWeak
  exact h.imp (fun hab => (hitLess_false_iff _ _).mp hab)

theorem collectHits_perm {σ : Type} (m : Option (List (GoString × Summary)))
    (raw1 raw2 : List (Hit σ)) (hp : raw1.Perm raw2) :
    (collectHits m raw1).Perm (collectHits m raw2) :=
  (hp.filter _).map _

theorem rankHits_congr {σ : Type} [LinearOrder σ] (L : GoLib)
    (m : Option (List (GoString × Summary))) (raw1 raw2 : List (Hit σ))
    (hp : raw1.Perm raw2) : rankHits L m raw1 = rankHits L m raw2 := by
  have p : (rankHits L m raw1).Perm (rankHits L m raw2) :=
    (rankHits_perm L m raw1).trans
      ((collectHits_perm m raw1 raw2 hp).trans (rankHits_perm L m raw2).symm)
  have hanti : IsAntisymm (scoredHit σ) RankedBefore := ⟨rankedBefore_antisymm⟩
  exact List.eq_of_perm_of_sorted p (rankHits_sorted L m raw1) (rankHits_sorted L m raw2)

theorem mem_collectHits {σ : Type} (m : Option (List (GoString × Summary)))
    (raw : List (Hit σ)) (hit : scoredHit σ) (h : hit ∈ collectHits m raw) :
    (⟨hit.id, hit.score⟩ : Hit σ) ∈ raw ∧ (mapLookup m hit.id).isSome = true := by
  unfold collectHits at h
  rcases List.mem_map.mp h with ⟨r, hr, rfl⟩
  rcases List.mem_filter.mp hr with ⟨h1, h2⟩
  exact ⟨h1, h2⟩

theorem collectHits_length_le {σ : Type} (m : Option (List (GoString × Summary)))
    (raw : List (Hit σ)) : (collectHits m raw).length ≤ raw.length := by
  unfold collectHits
  rw [List.length_map]
  exact List.length_filter_le _ _

theorem rankHits_length_le {σ : Type} [LinearOrder σ] (L : GoLib)
    (m : Option (List (GoString × Summary))) (raw : List (Hit σ)) :
    (rankHits L m raw).length ≤ raw.length := by
  rw [(rankHits_perm L m raw).length_eq]
  exact collectHits_length_le m raw

/-- With a non-negative limit the tail of `Search` returns the summaries of the first
`limit` ranked hits. -/
theorem finishSearch_eq {σ : Type} [LinearOrder σ] (L : GoLib)
    (m : Option (List (GoString × Summary))) (limit : Int) (raw : List (Hit σ))
    (hlimit : 0 ≤ limit) :
    finishSearch L m limit raw =
      SearchResult.ok (((rankHits L m raw).take limit.toNat).map fun hit => summaryOf m hit) := by
  unfold finishSearch summaryOf
  by_cases h : ((rankHits L m raw).length : Int) > limit
  · have : ¬ limit < 0 := not_lt.mpr hlimit
    simp [h, this]
  · have hle : (rankHits L m raw).length ≤ limit.toNat := by omega
    simp [h, List.take_of_length_le hle]


/-! ## The paths of Search -/

/-- The empty-query path: the result is the prefix of the canonical documents, the
searcher and the world are untouched. -/
theorem Search_empty {ε σ : Type} [LinearOrder σ] (L : GoLib) (E : Engine ε σ)
    (s : BM25Searcher) (w : World ε) (query : GoString) (limit : Int) (docs : List SearchDoc)
    (hq : L.trimSpace query = []) :
    Search L E s w query limit docs =
      ⟨emptyQueryResult limit (sortedDocs L s.cfg docs), s, w⟩ := by
  unfold Search
  simp [hq]

theorem emptyQueryResult_eq (limit : Int) (ds : List SearchDoc) (hlimit : 0 ≤ limit) :
    emptyQueryResult limit ds = SearchResult.ok ((ds.take limit.toNat).map fun d => d.Summary) := by
  unfold emptyQueryResult
  by_cases h : limit > (ds.length : Int)
  · have hle : ds.length ≤ limit.toNat := by omega
    simp [h, List.take_of_length_le hle]
  · have : ¬ limit < 0 := not_lt.mpr hlimit
    simp [h, this]

/-- Every successful `Search` ends in one of three ways: the empty-query path, the
no-documents path, or the ranked path on some answer `raw` of the engine. -/
theorem Search_ok_cases {ε σ : Type} [LinearOrder σ] (L : GoLib) (E : Engine ε σ)
    (s : BM25Searcher) (w : World ε) (query : GoString) (limit : Int) (docs : List SearchDoc)
    (results : List Summary)
    (hres : (Search L E s w query limit docs).result = SearchResult.ok results) :
    (L.trimSpace query = [] ∧
        emptyQueryResult limit (sortedDocs L s.cfg docs) = SearchResult.ok results) ∨
    (L.trimSpace query ≠ [] ∧ sortedDocs L s.cfg docs = [] ∧ results = []) ∨
    (L.trimSpace query ≠ [] ∧ sortedDocs L s.cfg docs ≠ [] ∧
      ∃ (e : ε) (idx : Index) (raw : List (Hit σ)),
        (E.search e idx (L.toLower (L.trimSpace query)) (sortedDocs L s.cfg docs).length).1
            = Except.ok raw ∧
        finishSearch L (Search L E s w query limit docs).searcher.idToSummary limit raw
            = SearchResult.ok results) := by
  by_cases hq : L.trimSpace query = []
  · left
    rw [Search_empty L E s w query limit docs hq] at hres
    exact ⟨hq, hres⟩
  · right
    by_cases hd : sortedDocs L s.cfg docs = []
    · left
      unfold Search at hres
      simp [hq, hd] at hres
      exact ⟨hq, hd, hres⟩
    · right
      refine ⟨hq, hd, ?_⟩
      have hlen : ¬ (sortedDocs L s.cfg docs).length = 0 := by
        simpa [List.length_eq_zero] using hd
      unfold Search at hres ⊢
      simp only [hq, hlen, if_false] at hres ⊢
      split at hres
      · simp at hres
      · split at hres
        · simp at hres
        · split at hres
          · simp at hres
          · rename_i r s1 w1 heq x index hidx x2 raw w2 hsearch
            refine ⟨w1.eng, index, raw, ?_, hres⟩
            unfold World.search at hsearch
            exact (Prod.mk.inj hsearch).1


/-! ## Ranking of the results -/

/-- The order `<` on Go strings is the lexicographic order of their bytes. -/
theorem goString_lt_iff (a b : GoString) :
    a < b ↔ List.Lex (fun x y : Fin 256 => x < y) a b := Iff.rfl

/-- C1. For every library, engine, searcher state, documents, query that is non-empty
after trimming and limit `0 ≤ limit`: the summaries that a successful `Search` returns
are the summaries of a list `hits` of scored hits, in the same order, and `hits` is
ordered by relevance score descending, any two hits of equal score being ordered by id
ascending in the byte-wise lexicographic order. `hits` is empty (no documents), or it is
the first `limit` entries of the ranking of an answer `raw` of the engine, each a raw
hit of that answer. -/
theorem search_results_ranked {ε σ : Type} [LinearOrder σ] (L : GoLib) (E : Engine ε σ)
    (s : BM25Searcher) (w : World ε) (query : GoString) (limit : Int) (docs : List SearchDoc)
    (results : List Summary) (hlimit : 0 ≤ limit) (hq : L.trimSpace query ≠ [])
    (hres : (Search L E s w query limit docs).result = SearchResult.ok results) :
    ∃ hits : List (scoredHit σ),
      results = hits.map (fun hit =>
        summaryOf (Search L E s w query limit docs).searcher.idToSummary hit) ∧
      hits.Pairwise (fun a b => b.score < a.score ∨
        (a.score = b.score ∧
          (a.id = b.id ∨ List.Lex (fun x y : Fin 256 => x < y) a.id b.id))) ∧
      (hits = [] ∨
        ∃ (e : ε) (idx : Index) (raw : List (Hit σ)),
          (E.search e idx (L.toLower (L.trimSpace query))
              (sortedDocs L s.cfg docs).length).1 = Except.ok raw ∧
          hits = (rankHits L (Search L E s w query limit docs).searcher.idToSummary raw).take
            limit.toNat ∧
          ∀ hit ∈ hits, (⟨hit.id, hit.score⟩ : Hit σ) ∈ raw) := by
  rcases Search_ok_cases L E s w query limit docs results hres with h | h | h
  · exact absurd h.1 hq
  · refine ⟨[], ?_, List.Pairwise.nil, Or.inl rfl⟩
    simp [h.2.2]
  · obtain ⟨_, _, e, idx, raw, hraw, hfin⟩ := h
    rw [finishSearch_eq L _ limit raw hlimit] at hfin
    refine ⟨(rankHits L (Search L E s w query limit docs).searcher.idToSummary raw).take
      limit.toNat, ?_, ?_, Or.inr ⟨e, idx, raw, hraw, rfl, ?_⟩⟩
    · exact (SearchResult.ok.inj hfin).symm
    · have hsorted := rankHits_sorted L (Search L E s w query limit docs).searcher.idToSummary raw
      refine (hsorted.sublist (List.take_sublist _ _)).imp ?_
      intro a b hab
      rcases hab with hab | ⟨h1, h2⟩
      · exact Or.inl hab
      · exact Or.inr ⟨h1, (le_iff_eq_or_lt.mp h2).imp id (fun hlt => (goString_lt_iff _ _).mp hlt)⟩
    · intro hit hmem
      have h1 := List.mem_of_mem_take hmem
      have h2 := (rankHits_perm L _ raw).subset h1
      exact (mem_collectHits _ raw hit h2).1

/-- C1, at a concrete input: three documents, the query `g`, limit 10. -/
theorem search_results_ranked_witness :
    (0 : Int) ≤ 10 ∧ refLib.trimSpace [103] ≠ [] ∧
    (Search refLib countEngine (NewBM25Searcher zeroConfig) world0 [103] 10
        [docC, docB, docA]).result = SearchResult.ok [docB.Summary, docA.Summary] ∧
    ∃ hits : List (scoredHit Nat),
      [docB.Summary, docA.Summary] = hits.map (fun hit =>
        summaryOf (Search refLib countEngine (NewBM25Searcher zeroConfig) world0 [103] 10
          [docC, docB, docA]).searcher.idToSummary hit) ∧
      hits.Pairwise (fun a b => b.score < a.score ∨
        (a.score = b.score ∧
          (a.id = b.id ∨ List.Lex (fun x y : Fin 256 => x < y) a.id b.id))) ∧
      (hits = [] ∨
        ∃ (e : Nat) (idx : Index) (raw : List (Hit Nat)),
          (countEngine.search e idx (refLib.toLower (refLib.trimSpace [103]))
              (sortedDocs refLib (NewBM25Searcher zeroConfig).cfg [docC, docB, docA]).length).1
            = Except.ok raw ∧
          hits = (rankHits refLib (Search refLib countEngine (NewBM25Searcher zeroConfig) world0
            [103] 10 [docC, docB, docA]).searcher.idToSummary raw).take (10 : Int).toNat ∧
          ∀ hit ∈ hits, (⟨hit.id, hit.score⟩ : Hit Nat) ∈ raw) :=
  ⟨by decide, by decide, by decide,
    search_results_ranked refLib countEngine (NewBM25Searcher zeroConfig) world0 [103] 10
      [docC, docB, docA] [docB.Summary, docA.Summary] (by decide) (by decide) (by decide)⟩

/-- C2. The result of `Search` does not depend on the order in which the engine returns
its hits: for every library, cached mapping, limit and two raw hit lists that are
permutations of each other (scores linearly ordered), the filter, sort, truncate and
map-to-summary pipeline of `Search` (lines 176 to 205) returns the same value, hence
the same sequence of summaries, for both. -/
theorem search_pipeline_hit_order_irrelevant {σ : Type} [LinearOrder σ] (L : GoLib)
    (m : Option (List (GoString × Summary))) (limit : Int) (raw1 raw2 : List (Hit σ))
    (hp : raw1.Perm raw2) :
    finishSearch L m limit raw1 = finishSearch L m limit raw2 := by
  unfold finishSearch
  rw [rankHits_congr L m raw1 raw2 hp]


/-- C2, at a concrete input: two hits of equal score, in both orders. -/
theorem search_pipeline_hit_order_irrelevant_witness :
    ([⟨[98], 1⟩, ⟨[97], 1⟩] : List (Hit Nat)).Perm [⟨[97], 1⟩, ⟨[98], 1⟩] ∧
    finishSearch refLib (some [([98], docB.Summary), ([97], docA.Summary)]) 10
        ([⟨[98], 1⟩, ⟨[97], 1⟩] : List (Hit Nat)) =
      finishSearch refLib (some [([98], docB.Summary), ([97], docA.Summary)]) 10
        ([⟨[97], 1⟩, ⟨[98], 1⟩] : List (Hit Nat)) :=
  ⟨List.Perm.swap _ _ _,
    search_pipeline_hit_order_irrelevant refLib _ 10 _ _ (List.Perm.swap _ _ _)⟩

/-! ## Independence of the caller-supplied order -/

/-- C3. For every library, engine, searcher state, world, query and limit, and every
two document lists with pairwise distinct ids that are permutations of each other,
`Search` started from the same searcher and engine state returns the same outcome for
both lists: the same result (the same ordered sequence of summaries, or the same error),
the same searcher afterwards and the same engine state and calls. This covers the
empty-query path and the ranked path. -/
theorem search_input_order_irrelevant {ε σ : Type} [LinearOrder σ] (L : GoLib)
    (E : Engine ε σ) (s : BM25Searcher) (w : World ε) (query : GoString) (limit : Int)
    (docs docs2 : List SearchDoc) (hnd : (docs.map fun d => d.ID).Nodup)
    (hp : docs.Perm docs2) :
    Search L E s w query limit docs = Search L E s w query limit docs2 := by
  unfold Search
  rw [sortedDocs_congr L s.cfg docs docs2 hnd hp]

/-- C3, at a concrete input: three documents in two orders, on the ranked path. -/
theorem search_input_order_irrelevant_witness :
    ([docC, docB, docA].map fun d => d.ID).Nodup ∧
    [docC, docB, docA].Perm [docA, docC, docB] ∧
    Search refLib countEngine (NewBM25Searcher zeroConfig) world0 [103] 10 [docC, docB, docA] =
      Search refLib countEngine (NewBM25Searcher zeroConfig) world0 [103] 10
        [docA, docC, docB] :=
  ⟨by decide, by decide,
    search_input_order_irrelevant refLib countEngine (NewBM25Searcher zeroConfig) world0 [103] 10
      [docC, docB, docA] [docA, docC, docB] (by decide) (by decide)⟩

/-! ## The empty-query path -/

/-- C4. For every document list, limit `0 ≤ limit` and query that is empty after
trimming, `Search` returns no error and exactly `min(limit, len(canonical))` summaries,
the `i`-th being the `Summary` of the `i`-th canonical document; `canonical` is the input
sorted by id ascending (a permutation of the input, ascending by id) and then cut to its
first `MaxDocs` entries when `MaxDocs > 0`. -/
theorem search_empty_query_canonical {ε σ : Type} [LinearOrder σ] (L : GoLib)
    (E : Engine ε σ) (s : BM25Searcher) (w : World ε) (query : GoString) (limit : Int)
    (docs : List SearchDoc) (hlimit : 0 ≤ limit) (hq : L.trimSpace query = []) :
    ∃ (canonical : List SearchDoc) (results : List Summary),
      (Search L E s w query limit docs).result = SearchResult.ok results ∧
      canonical = (if 0 < s.cfg.MaxDocs then (sortDocsByID L docs).take s.cfg.MaxDocs.toNat
        else sortDocsByID L docs) ∧
      (sortDocsByID L docs).Perm docs ∧
      (sortDocsByID L docs).Pairwise (fun a b => a.ID ≤ b.ID) ∧
      results.length = min limit.toNat canonical.length ∧
      ∀ i : Nat, i < results.length → results[i]? = (canonical[i]?).map (fun d => d.Summary) := by
  refine ⟨sortedDocs L s.cfg docs,
    ((sortedDocs L s.cfg docs).take limit.toNat).map (fun d => d.Summary), ?_, ?_, ?_, ?_, ?_, ?_⟩
  · rw [Search_empty L E s w query limit docs hq, emptyQueryResult_eq _ _ hlimit]
  · exact sortedDocs_eq L s.cfg docs
  · exact sortDocsByID_perm L docs
  · exact sortDocsByID_sorted L docs
  · rw [List.length_map, List.length_take]
  · intro i hi
    rw [List.length_map, List.length_take] at hi
    have hi1 : i < limit.toNat := lt_of_lt_of_le hi (Nat.min_le_left _ _)
    rw [List.getElem?_map, List.getElem?_take_of_lt hi1]

/-- C4, at a concrete input: three documents, the empty query, limit 2. -/
theorem search_empty_query_canonical_witness :
    (0 : Int) ≤ 2 ∧ refLib.trimSpace [] = [] ∧
    ∃ (canonical : List SearchDoc) (results : List Summary),
      (Search refLib countEngine (NewBM25Searcher zeroConfig) world0 [] 2
        [docC, docB, docA]).result = SearchResult.ok results ∧
      canonical = (if 0 < (NewBM25Searcher zeroConfig).cfg.MaxDocs then
          (sortDocsByID refLib [docC, docB, docA]).take (NewBM25Searcher zeroConfig).cfg.MaxDocs.toNat
        else sortDocsByID refLib [docC, docB, docA]) ∧
      (sortDocsByID refLib [docC, docB, docA]).Perm [docC, docB, docA] ∧
      (sortDocsByID refLib [docC, docB, docA]).Pairwise (fun a b => a.ID ≤ b.ID) ∧
      results.length = min (2 : Int).toNat canonical.length ∧
      ∀ i : Nat, i < results.length → results[i]? = (canonical[i]?).map (fun d => d.Summary) :=
  ⟨by decide, by decide,
    search_empty_query_canonical refLib countEngine (NewBM25Searcher zeroConfig) world0 [] 2
      [docC, docB, docA] (by decide) (by decide)⟩

/-- C5. A `Search` whose query is empty after trimming never touches the cache: for
every prior searcher state, document list and limit, the index handle, the id-to-summary
mapping, the cached fingerprint and the build count after the call equal their values
before it, and no engine operation is performed: the engine state is unchanged and no
call is added to the log of engine calls. -/
theorem search_empty_query_frame {ε σ : Type} [LinearOrder σ] (L : GoLib)
    (E : Engine ε σ) (s : BM25Searcher) (w : World ε) (query : GoString) (limit : Int)
    (docs : List SearchDoc) (hq : L.trimSpace query = []) :
    (Search L E s w query limit docs).searcher.index = s.index ∧
    (Search L E s w query limit docs).searcher.idToSummary = s.idToSummary ∧
    (Search L E s w query limit docs).searcher.lastFingerprint = s.lastFingerprint ∧
    (Search L E s w query limit docs).searcher.indexBuildCount = s.indexBuildCount ∧
    (Search L E s w query limit docs).searcher = s ∧
    (Search L E s w query limit docs).world.trace = w.trace ∧
    (Search L E s w query limit docs).world.eng = w.eng := by
  rw [Search_empty L E s w query limit docs hq]
  exact ⟨rfl, rfl, rfl, rfl, rfl, rfl, rfl⟩

/-- C5, at a concrete input: a searcher that holds an index, and an engine on which
every operation would fail. -/
theorem search_empty_query_frame_witness :
    refLib.trimSpace [32, 9] = [] ∧
    (Search refLib failingEngine
        (Search refLib countEngine (NewBM25Searcher zeroConfig) world0 [103] 10
          [docC, docB, docA]).searcher world0 [32, 9] 2 [docB, docA]).searcher =
      (Search refLib countEngine (NewBM25Searcher zeroConfig) world0 [103] 10
          [docC, docB, docA]).searcher ∧
    (Search refLib failingEngine
        (Search refLib countEngine (NewBM25Searcher zeroConfig) world0 [103] 10
          [docC, docB, docA]).searcher world0 [32, 9] 2 [docB, docA]).world.trace = [] :=
  ⟨by decide,
    (search_empty_query_frame refLib failingEngine _ world0 [32, 9] 2 [docB, docA]
      (by decide)).2.2.2.2.1,
    (search_empty_query_frame refLib failingEngine _ world0 [32, 9] 2 [docB, docA]
      (by decide)).2.2.2.2.2.1⟩


/-! ## What a rebuild hands to the engine and installs -/

theorem indexDocs_spec {ε σ : Type} (L : GoLib) (E : Engine ε σ) (cfg : BM25Config) (h : Nat) :
    ∀ (docs : List SearchDoc) (m : List (GoString × Summary)) (b : List (GoString × GoString))
      (w : World ε),
      (∃ calls, (indexDocs L E cfg h docs m b w).2.trace = w.trace ++ calls ∧
        ∀ c ∈ calls, ∃ d ∈ docs, c = EngineCall.batchIndex h d.ID (buildWeightedDoc L cfg d)) ∧
      ∀ m2 b2, (indexDocs L E cfg h docs m b w).1 = Except.ok (m2, b2) →
        m2 = summaryMap docs ++ m ∧ b2 = b ++ docs.map (batchEntry L cfg) := by
  intro docs
  induction docs with
  | nil =>
    intro m b w
    refine ⟨⟨[], by simp [indexDocs], by simp⟩, ?_⟩
    intro m2 b2 hok
    simp only [indexDocs, Except.ok.injEq, Prod.mk.injEq] at hok
    simp [summaryMap, hok.1, hok.2]
  | cons d rest ih =>
    intro m b w
    unfold indexDocs
    cases hbi : (E.batchIndex w.eng h d.ID (buildWeightedDoc L cfg d)).1 with
    | some err =>
      simp only [World.batchIndex, hbi]
      refine ⟨⟨[EngineCall.batchIndex h d.ID (buildWeightedDoc L cfg d)], rfl, ?_⟩, ?_⟩
      · intro c hc
        exact ⟨d, List.mem_cons_self _ _, List.mem_singleton.mp hc⟩
      · intro m2 b2 hok
        simp at hok
    | none =>
      simp only [World.batchIndex, hbi]
      obtain ⟨⟨calls, htr, hcalls⟩, hok⟩ := ih ((d.ID, d.Summary) :: m)
        (b ++ [(d.ID, buildWeightedDoc L cfg d)])
        ⟨(E.batchIndex w.eng h d.ID (buildWeightedDoc L cfg d)).2,
          w.trace ++ [EngineCall.batchIndex h d.ID (buildWeightedDoc L cfg d)]⟩
      refine ⟨⟨EngineCall.batchIndex h d.ID (buildWeightedDoc L cfg d) :: calls, ?_, ?_⟩, ?_⟩
      · rw [htr]
        simp
      · intro c hc
        rcases List.mem_cons.mp hc with hc | hc
        · exact ⟨d, List.mem_cons_self _ _, hc⟩
        · obtain ⟨d2, hd2, hc2⟩ := hcalls c hc
          exact ⟨d2, List.mem_cons_of_mem _ hd2, hc2⟩
      · intro m2 b2 h2
        obtain ⟨hm, hb⟩ := hok m2 b2 h2
        refine ⟨?_, ?_⟩
        · rw [hm]
          simp [summaryMap]
        · rw [hb]
          simp [batchEntry]


theorem closeAfter_trace {ε σ : Type} (E : Engine ε σ) (w : World ε) (h : Nat) (err : GoError) :
    (closeAfter E w h err).2.trace = w.trace ++ [EngineCall.close h] := by
  unfold closeAfter World.close
  split <;> rename_i heq <;> simp only [Prod.mk.injEq] at heq <;> rw [← heq.2]

theorem installIndex_spec {ε σ : Type} (L : GoLib) (E : Engine ε σ) (s : BM25Searcher)
    (w : World ε) (h : Nat) (docs : List SearchDoc) (fingerprint : GoString) :
    (∃ calls, (installIndex E s w ⟨h, docs.map (batchEntry L s.cfg)⟩ (summaryMap docs)
        fingerprint).2.2.trace = w.trace ++ calls ∧ ∀ c ∈ calls, ∃ h2, c = EngineCall.close h2) ∧
    ((installIndex E s w ⟨h, docs.map (batchEntry L s.cfg)⟩ (summaryMap docs)
        fingerprint).2.1 = s ∨
      (installIndex E s w ⟨h, docs.map (batchEntry L s.cfg)⟩ (summaryMap docs)
        fingerprint).2.1 = installed L s h docs fingerprint) ∧
    ((installIndex E s w ⟨h, docs.map (batchEntry L s.cfg)⟩ (summaryMap docs)
        fingerprint).1 = none →
      (installIndex E s w ⟨h, docs.map (batchEntry L s.cfg)⟩ (summaryMap docs)
        fingerprint).2.1.lastFingerprint = fingerprint) := by
  unfold installIndex
  by_cases hfp : s.lastFingerprint = fingerprint
  · simp only [hfp, if_true]
    split <;> rename_i heq <;> simp only [World.close, Prod.mk.injEq] at heq <;>
      rw [← heq.2]
    · exact ⟨⟨[EngineCall.close h], rfl, by simp⟩, Or.inl rfl, by simp⟩
    · exact ⟨⟨[EngineCall.close h], rfl, by simp⟩, Or.inl rfl, fun _ => hfp⟩
  · simp only [hfp, if_false]
    split
    · rename_i old hold
      split
      · rename_i cerr w1 heq
        simp only [World.close, Prod.mk.injEq] at heq
        split <;> rename_i heq2 <;> simp only [World.close, Prod.mk.injEq] at heq2 <;>
          rw [← heq2.2, ← heq.2]
        · exact ⟨⟨[EngineCall.close old.handle, EngineCall.close h], by simp, by simp⟩,
            Or.inl rfl, by simp⟩
        · exact ⟨⟨[EngineCall.close old.handle, EngineCall.close h], by simp, by simp⟩,
            Or.inl rfl, by simp⟩
      · rename_i w1 heq
        simp only [World.close, Prod.mk.injEq] at heq
        rw [← heq.2]
        exact ⟨⟨[EngineCall.close old.handle], rfl, by simp⟩, Or.inr rfl, fun _ => rfl⟩
    · exact ⟨⟨[], by simp, by simp⟩, Or.inr rfl, fun _ => rfl⟩

/-- What `rebuildIndex` does: every call it makes hands the engine documents of `docs`
only; the searcher is left as it was or gets the index, map and fingerprint of `docs`;
and when it reports no error the cached fingerprint is the requested one. -/
theorem rebuildIndex_spec {ε σ : Type} (L : GoLib) (E : Engine ε σ) (s : BM25Searcher)
    (w : World ε) (docs : List SearchDoc) (fingerprint : GoString) :
    (∃ calls, (rebuildIndex L E s w docs fingerprint).2.2.trace = w.trace ++ calls ∧
      ∀ c ∈ calls, CallWithin L s.cfg docs c) ∧
    ((rebuildIndex L E s w docs fingerprint).2.1 = s ∨
      ∃ h, (rebuildIndex L E s w docs fingerprint).2.1 = installed L s h docs fingerprint) ∧
    ((rebuildIndex L E s w docs fingerprint).1 = none →
      (rebuildIndex L E s w docs fingerprint).2.1.lastFingerprint = fingerprint) := by
  unfold rebuildIndex
  split
  · rename_i err w1 heq
    simp only [World.newMemOnly, Prod.mk.injEq] at heq
    rw [← heq.2]
    exact ⟨⟨[EngineCall.newMemOnly], rfl, by simp [CallWithin]⟩, Or.inl rfl, by simp⟩
  · rename_i h w1 heq
    simp only [World.newMemOnly, Prod.mk.injEq] at heq
    obtain ⟨⟨calls, htr, hcalls⟩, hok⟩ := indexDocs_spec L E s.cfg h docs [] [] w1
    have hcallsW : ∀ c ∈ calls, CallWithin L s.cfg docs c := by
      intro c hc
      obtain ⟨d, hd, rfl⟩ := hcalls c hc
      exact ⟨d, hd, rfl, rfl⟩
    split
    · rename_i err w2 heq2
      rw [heq2] at htr
      simp only at htr
      refine ⟨⟨EngineCall.newMemOnly :: (calls ++ [EngineCall.close h]), ?_, ?_⟩,
        Or.inl rfl, by simp⟩
      · rw [closeAfter_trace, htr, ← heq.2]
        simp
      · intro c hc
        simp only [List.mem_cons, List.mem_append, List.not_mem_nil, or_false] at hc
        rcases hc with rfl | hc | rfl
        · trivial
        · exact hcallsW c hc
        · trivial
    · rename_i idToSummary batch w2 heq2
      rw [heq2] at htr hok
      simp only at htr
      obtain ⟨hm, hb⟩ := hok idToSummary batch rfl
      simp only [List.append_nil, List.nil_append] at hm hb
      subst hm hb
      split
      · rename_i err w3 heq3
        simp only [World.batch, Prod.mk.injEq] at heq3
        refine ⟨⟨EngineCall.newMemOnly :: (calls ++
          [EngineCall.batch h (docs.map (batchEntry L s.cfg)), EngineCall.close h]), ?_, ?_⟩,
          Or.inl rfl, by simp⟩
        · rw [closeAfter_trace, ← heq3.2, htr, ← heq.2]
          simp
        · intro c hc
          simp only [List.mem_cons, List.mem_append, List.mem_singleton, List.not_mem_nil,
            or_false] at hc
          rcases hc with rfl | hc | rfl | rfl
          · trivial
          · exact hcallsW c hc
          · rfl
          · trivial
      · rename_i w3 heq3
        simp only [World.batch, Prod.mk.injEq] at heq3
        obtain ⟨⟨calls2, htr2, hcalls2⟩, hs, hfp⟩ :=
          installIndex_spec L E s w3 h docs fingerprint
        refine ⟨⟨EngineCall.newMemOnly :: (calls ++
          EngineCall.batch h (docs.map (batchEntry L s.cfg)) :: calls2), ?_, ?_⟩, ?_, hfp⟩
        · rw [htr2, ← heq3.2, htr, ← heq.2]
          simp
        · intro c hc
          simp only [List.mem_cons, List.mem_append] at hc
          rcases hc with rfl | hc | rfl | hc
          · trivial
          · exact hcallsW c hc
          · rfl
          · obtain ⟨h2, rfl⟩ := hcalls2 c hc
            trivial
        · rcases hs with hs | hs
          · exact Or.inl hs
          · exact Or.inr ⟨h, hs⟩


/-- The engine calls and the state change of one `Search`, for every input: each call
made hands the engine documents of the canonical pool only; the searcher is left as it
was or gets the index, map and fingerprint of the pool; and after a successful ranked
search the cached fingerprint is the one of the pool. -/
theorem Search_spec {ε σ : Type} [LinearOrder σ] (L : GoLib) (E : Engine ε σ)
    (s : BM25Searcher) (w : World ε) (query : GoString) (limit : Int) (docs : List SearchDoc) :
    (∃ calls, (Search L E s w query limit docs).world.trace = w.trace ++ calls ∧
      ∀ c ∈ calls, CallWithin L s.cfg (sortedDocs L s.cfg docs) c) ∧
    ((Search L E s w query limit docs).searcher = s ∨
      ∃ h, (Search L E s w query limit docs).searcher =
        installed L s h (sortedDocs L s.cfg docs)
          (computeFingerprint L (sortedDocs L s.cfg docs))) ∧
    (∀ results, (Search L E s w query limit docs).result = SearchResult.ok results →
      L.trimSpace query ≠ [] → sortedDocs L s.cfg docs ≠ [] →
      (Search L E s w query limit docs).searcher.lastFingerprint =
        computeFingerprint L (sortedDocs L s.cfg docs)) := by
  by_cases hq : L.trimSpace query = []
  · rw [Search_empty L E s w query limit docs hq]
    exact ⟨⟨[], by simp, by simp⟩, Or.inl rfl, fun _ _ h => absurd hq h⟩
  by_cases hd : sortedDocs L s.cfg docs = []
  · have hS : Search L E s w query limit docs = ⟨SearchResult.ok [], s, w⟩ := by
      unfold Search
      simp [hq, hd]
    rw [hS]
    exact ⟨⟨[], by simp, by simp⟩, Or.inl rfl, fun _ _ _ h => absurd hd h⟩
  have hlen : ¬ (sortedDocs L s.cfg docs).length = 0 := by
    simpa [List.length_eq_zero] using hd
  have key : ∀ (r : Option GoError × BM25Searcher × World ε),
      ((∃ calls, r.2.2.trace = w.trace ++ calls ∧
        ∀ c ∈ calls, CallWithin L s.cfg (sortedDocs L s.cfg docs) c) ∧
      (r.2.1 = s ∨ ∃ h, r.2.1 = installed L s h (sortedDocs L s.cfg docs)
          (computeFingerprint L (sortedDocs L s.cfg docs))) ∧
      (r.1 = none → r.2.1.lastFingerprint = computeFingerprint L (sortedDocs L s.cfg docs))) →
      (if (s.index.isNone ||
            decide (s.lastFingerprint ≠ computeFingerprint L (sortedDocs L s.cfg docs))) = true
        then rebuildIndex L E s w (sortedDocs L s.cfg docs)
          (computeFingerprint L (sortedDocs L s.cfg docs))
        else (none, s, w)) = r →
      (∃ calls, (Search L E s w query limit docs).world.trace = w.trace ++ calls ∧
        ∀ c ∈ calls, CallWithin L s.cfg (sortedDocs L s.cfg docs) c) ∧
      ((Search L E s w query limit docs).searcher = s ∨
        ∃ h, (Search L E s w query limit docs).searcher =
          installed L s h (sortedDocs L s.cfg docs)
            (computeFingerprint L (sortedDocs L s.cfg docs))) ∧
      (∀ results, (Search L E s w query limit docs).result = SearchResult.ok results →
        L.trimSpace query ≠ [] → sortedDocs L s.cfg docs ≠ [] →
        (Search L E s w query limit docs).searcher.lastFingerprint =
          computeFingerprint L (sortedDocs L s.cfg docs)) := by
    intro r hr hreq
    obtain ⟨err, s1, w1⟩ := r
    obtain ⟨⟨calls, htr, hcalls⟩, hs, hfp⟩ := hr
    simp only at htr hs hfp
    unfold Search
    simp only [hq, hlen, if_false, hreq]
    cases err with
    | some e =>
      exact ⟨⟨calls, htr, hcalls⟩, hs, fun _ h => by simp at h⟩
    | none =>
      simp only
      cases hidx : s1.index with
      | none => exact ⟨⟨calls, htr, hcalls⟩, hs, fun _ h => by simp at h⟩
      | some index =>
        simp only
        have htr2 : (World.search E w1 index (L.toLower (L.trimSpace query))
            (sortedDocs L s.cfg docs).length).2.trace =
            w.trace ++ (calls ++ [EngineCall.search index.handle
              (L.toLower (L.trimSpace query)) (sortedDocs L s.cfg docs).length]) := by
          simp [World.search, htr]
        have hcalls2 : ∀ c ∈ calls ++ [EngineCall.search index.handle
              (L.toLower (L.trimSpace query)) (sortedDocs L s.cfg docs).length],
            CallWithin L s.cfg (sortedDocs L s.cfg docs) c := by
          intro c hc
          simp only [List.mem_append, List.mem_cons, List.not_mem_nil, or_false] at hc
          rcases hc with hc | rfl
          · exact hcalls c hc
          · rfl
        split <;> rename_i heq <;> rw [heq] at htr2
        · exact ⟨⟨_, htr2, hcalls2⟩, hs, fun _ h => by simp at h⟩
        · exact ⟨⟨_, htr2, hcalls2⟩, hs, fun _ _ _ _ => hfp rfl⟩
  by_cases hnr : (s.index.isNone ||
      decide (s.lastFingerprint ≠ computeFingerprint L (sortedDocs L s.cfg docs))) = true
  · apply key _ (rebuildIndex_spec L E s w (sortedDocs L s.cfg docs)
      (computeFingerprint L (sortedDocs L s.cfg docs)))
    rw [if_pos hnr]
  · apply key (none, s, w) ⟨⟨[], by simp, by simp⟩, Or.inl rfl, ?_⟩
    · rw [if_neg hnr]
    · intro _
      simp only [Bool.or_eq_true, decide_eq_true_eq, not_or, not_not] at hnr
      exact hnr.2


/-! ## Where the results come from -/

theorem lookup_some_mem {α β : Type} [BEq α] [LawfulBEq α] (k : α) (v : β) :
    ∀ (l : List (α × β)), l.lookup k = some v → (k, v) ∈ l := by
  intro l
  induction l with
  | nil => intro h; simp at h
  | cons p t ih =>
    intro h
    obtain ⟨k2, v2⟩ := p
    by_cases hk : k = k2
    · subst hk
      simp only [List.lookup_cons, beq_self_eq_true, Option.some.injEq] at h
      rw [h]
      exact List.mem_cons_self _ _
    · have hne : (k == k2) = false := by simpa using hk
      simp only [List.lookup_cons, hne] at h
      exact List.mem_cons_of_mem _ (ih h)

theorem summaryMap_lookup (pool : List SearchDoc) (id : GoString) (sm : Summary)
    (h : mapLookup (some (summaryMap pool)) id = some sm) : ∃ d ∈ pool, sm = d.Summary := by
  have hmem := lookup_some_mem id sm (summaryMap pool) h
  unfold summaryMap at hmem
  rw [List.mem_reverse] at hmem
  obtain ⟨d, hd, heq⟩ := List.mem_map.mp hmem
  simp only [Prod.mk.injEq] at heq
  exact ⟨d, hd, heq.2.symm⟩

theorem emptyQueryResult_ok (limit : Int) (ds : List SearchDoc) (results : List Summary)
    (h : emptyQueryResult limit ds = SearchResult.ok results) :
    ∃ n : Nat, (n : Int) ≤ limit ∧ results = (ds.take n).map fun d => d.Summary := by
  by_cases hlimit : 0 ≤ limit
  · rw [emptyQueryResult_eq limit ds hlimit] at h
    exact ⟨limit.toNat, by omega, (SearchResult.ok.inj h).symm⟩
  · exfalso
    unfold emptyQueryResult at h
    have h1 : ¬ limit > (ds.length : Int) := by omega
    have h2 : limit < 0 := by omega
    simp [h1, h2] at h

theorem finishSearch_ok {σ : Type} [LinearOrder σ] (L : GoLib)
    (m : Option (List (GoString × Summary))) (limit : Int) (raw : List (Hit σ))
    (results : List Summary) (h : finishSearch L m limit raw = SearchResult.ok results) :
    ∃ n : Nat, (n : Int) ≤ limit ∧
      results = ((rankHits L m raw).take n).map fun hit => summaryOf m hit := by
  by_cases hlimit : 0 ≤ limit
  · rw [finishSearch_eq L m limit raw hlimit] at h
    exact ⟨limit.toNat, by omega, (SearchResult.ok.inj h).symm⟩
  · exfalso
    unfold finishSearch at h
    have h1 : ((rankHits L m raw).length : Int) > limit := by omega
    have h2 : limit < 0 := by omega
    simp [h1, h2] at h


/-- Every summary that a successful `Search` returns is the summary of a document of the
canonical pool, provided the cache is coherent for that pool. -/
theorem Search_results_from_pool {ε σ : Type} [LinearOrder σ] (L : GoLib) (E : Engine ε σ)
    (s : BM25Searcher) (w : World ε) (query : GoString) (limit : Int) (docs : List SearchDoc)
    (hcache : s.lastFingerprint = computeFingerprint L (sortedDocs L s.cfg docs) →
      s.idToSummary = some (summaryMap (sortedDocs L s.cfg docs)))
    (results : List Summary)
    (hres : (Search L E s w query limit docs).result = SearchResult.ok results) :
    ∀ r ∈ results, ∃ d ∈ sortedDocs L s.cfg docs, r = d.Summary := by
  intro r hr
  rcases Search_ok_cases L E s w query limit docs results hres with h | h | h
  · obtain ⟨n, _, hn⟩ := emptyQueryResult_ok _ _ _ h.2
    rw [hn] at hr
    obtain ⟨d, hd, rfl⟩ := List.mem_map.mp hr
    exact ⟨d, List.mem_of_mem_take hd, rfl⟩
  · rw [h.2.2] at hr
    simp at hr
  · obtain ⟨hq, hd, e, idx, raw, _, hfin⟩ := h
    obtain ⟨_, hs, hfp⟩ := Search_spec L E s w query limit docs
    have hmap : (Search L E s w query limit docs).searcher.idToSummary =
        some (summaryMap (sortedDocs L s.cfg docs)) := by
      rcases hs with hs | ⟨h, hs⟩
      · have := hfp results hres hq hd
        rw [hs] at this ⊢
        exact hcache this
      · rw [hs]
        rfl
    rw [hmap] at hfin
    obtain ⟨n, _, hn⟩ := finishSearch_ok L _ limit raw results hfin
    rw [hn] at hr
    obtain ⟨hit, hhit, rfl⟩ := List.mem_map.mp hr
    have h2 := (rankHits_perm L _ raw).subset (List.mem_of_mem_take hhit)
    have h3 := (mem_collectHits _ raw hit h2).2
    obtain ⟨sm, hsm⟩ := Option.isSome_iff_exists.mp h3
    obtain ⟨d, hd, hdsm⟩ := summaryMap_lookup _ _ _ hsm
    refine ⟨d, hd, ?_⟩
    unfold summaryOf
    rw [hsm, ← hdsm]
    rfl

/-! ## The cut to MaxDocs -/

/-- C9. With `MaxDocs = k > 0`, for every query, limit `0 ≤ limit` and document list, a
successful `Search` returns at most `k` summaries, provided the engine never returns more
hits than the `Size` it is asked for. -/
theorem search_at_most_maxDocs {ε σ : Type} [LinearOrder σ] (L : GoLib) (E : Engine ε σ)
    (s : BM25Searcher) (w : World ε) (query : GoString) (limit : Int) (docs : List SearchDoc)
    (k : Int) (results : List Summary) (hk : 0 < k) (hcfg : s.cfg.MaxDocs = k)
    (hlimit : 0 ≤ limit)
    (hsize : ∀ (e : ε) (idx : Index) (q : GoString) (n : Nat) (raw : List (Hit σ)),
      (E.search e idx q n).1 = Except.ok raw → raw.length ≤ n)
    (hres : (Search L E s w query limit docs).result = SearchResult.ok results) :
    (results.length : Int) ≤ k := by
  have hpool : ((sortedDocs L s.cfg docs).length : Int) ≤ k := by
    rw [← hcfg]
    exact sortedDocs_length_le_maxDocs L s.cfg docs (by rw [hcfg]; exact hk)
  rcases Search_ok_cases L E s w query limit docs results hres with h | h | h
  · rw [emptyQueryResult_eq _ _ hlimit] at h
    have := SearchResult.ok.inj h.2
    rw [← this, List.length_map, List.length_take]
    omega
  · rw [h.2.2]
    simp only [List.length_nil, Nat.cast_zero]
    omega
  · obtain ⟨_, _, e, idx, raw, hraw, hfin⟩ := h
    rw [finishSearch_eq L _ limit raw hlimit] at hfin
    have := SearchResult.ok.inj hfin
    have h1 := rankHits_length_le L (Search L E s w query limit docs).searcher.idToSummary raw
    have h2 := hsize e idx _ _ raw hraw
    rw [← this, List.length_map, List.length_take]
    omega

/-- C10. For every query, document list, engine and limit `0 ≤ limit`, a successful
`Search` returns at most `limit` summaries, and none when `limit = 0`, on the empty-query
path and on the ranked path. -/
theorem search_at_most_limit {ε σ : Type} [LinearOrder σ] (L : GoLib) (E : Engine ε σ)
    (s : BM25Searcher) (w : World ε) (query : GoString) (limit : Int) (docs : List SearchDoc)
    (results : List Summary) (hlimit : 0 ≤ limit)
    (hres : (Search L E s w query limit docs).result = SearchResult.ok results) :
    (results.length : Int) ≤ limit ∧ (limit = 0 → results = []) := by
  have hlen : (results.length : Int) ≤ limit := by
    rcases Search_ok_cases L E s w query limit docs results hres with h | h | h
    · obtain ⟨n, hn, hr⟩ := emptyQueryResult_ok _ _ _ h.2
      rw [hr, List.length_map, List.length_take]
      omega
    · rw [h.2.2]
      simpa using hlimit
    · obtain ⟨_, _, e, idx, raw, _, hfin⟩ := h
      obtain ⟨n, hn, hr⟩ := finishSearch_ok L _ limit raw results hfin
      rw [hr, List.length_map, List.length_take]
      omega
  refine ⟨hlen, ?_⟩
  intro h0
  rw [h0] at hlen
  apply List.eq_nil_of_length_eq_zero
  omega


/-- C9, at a concrete input: `MaxDocs = 2`, three matching documents, limit 10. -/
theorem search_at_most_maxDocs_witness :
    (0 : Int) < 2 ∧ (NewBM25Searcher (maxDocsConfig 2)).cfg.MaxDocs = 2 ∧ (0 : Int) ≤ 10 ∧
    (∀ (e : Nat) (idx : Index) (q : GoString) (n : Nat) (raw : List (Hit Nat)),
      (countEngine.search e idx q n).1 = Except.ok raw → raw.length ≤ n) ∧
    (Search refLib countEngine (NewBM25Searcher (maxDocsConfig 2)) world0 [103] 10
        [docC, mkDoc [98] [103], docA]).result =
      SearchResult.ok [docA.Summary, (mkDoc [98] [103]).Summary] ∧
    (([docA.Summary, (mkDoc [98] [103]).Summary] : List Summary).length : Int) ≤ 2 :=
  have hsize : ∀ (e : Nat) (idx : Index) (q : GoString) (n : Nat) (raw : List (Hit Nat)),
      (countEngine.search e idx q n).1 = Except.ok raw → raw.length ≤ n := by
    intro e idx q n raw h
    simp only [countEngine, Except.ok.injEq] at h
    rw [← h, List.length_take]
    exact Nat.min_le_left _ _
  ⟨by decide, by decide, by decide, hsize, by decide,
    search_at_most_maxDocs refLib countEngine (NewBM25Searcher (maxDocsConfig 2)) world0 [103] 10
      [docC, mkDoc [98] [103], docA] 2 _ (by decide) (by decide) (by decide) hsize (by decide)⟩

/-- C10, at a concrete input: two matching documents, limit 1. -/
theorem search_at_most_limit_witness :
    (0 : Int) ≤ 1 ∧
    (Search refLib countEngine (NewBM25Searcher zeroConfig) world0 [103] 1
        [docC, docB, docA]).result = SearchResult.ok [docB.Summary] ∧
    ((([docB.Summary] : List Summary).length : Int) ≤ 1 ∧
      ((1 : Int) = 0 → [docB.Summary] = [])) :=
  ⟨by decide, by decide,
    search_at_most_limit refLib countEngine (NewBM25Searcher zeroConfig) world0 [103] 1
      [docC, docB, docA] [docB.Summary] (by decide) (by decide)⟩

/-! ## The empty-query law -/

/-- C6 as stated fails: with `MaxDocs = 1`, two documents and limit 2, `Search` with the
empty query returns one summary, not `min(2, 2) = 2`. -/
theorem search_empty_query_law_counterexample :
    (Search refLib countEngine (NewBM25Searcher (maxDocsConfig 1)) world0 [] 2
        [docB, docA]).result = SearchResult.ok [docA.Summary] ∧
    ¬ ∃ results : List Summary,
      (Search refLib countEngine (NewBM25Searcher (maxDocsConfig 1)) world0 [] 2
        [docB, docA]).result = SearchResult.ok results ∧
      results.length = min (2 : Int).toNat ([docB, docA] : List SearchDoc).length ∧
      results = ((sortDocsByID refLib [docB, docA]).take (2 : Int).toNat).map
        (fun d => d.Summary) := by
  have h : (Search refLib countEngine (NewBM25Searcher (maxDocsConfig 1)) world0 [] 2
      [docB, docA]).result = SearchResult.ok [docA.Summary] := by decide
  refine ⟨h, ?_⟩
  rintro ⟨results, h1, h2, _⟩
  rw [h] at h1
  rw [← SearchResult.ok.inj h1] at h2
  exact absurd h2 (by decide)

/-- C6 (amended). For every configuration, document list and limit `0 ≤ limit`,
`Search("", limit, docs)` returns exactly `min(cap, len(docs))` entries, equal to the first
`cap` entries of `docs` sorted by id ascending, where `cap` is `min(limit, MaxDocs)` when
`MaxDocs > 0` and `limit` otherwise. -/
theorem search_empty_query_law {ε σ : Type} [LinearOrder σ] (L : GoLib) (E : Engine ε σ)
    (s : BM25Searcher) (w : World ε) (limit : Int) (docs : List SearchDoc)
    (hlimit : 0 ≤ limit) :
    ∃ (cap : Nat) (results : List Summary),
      cap = (if 0 < s.cfg.MaxDocs then min limit.toNat s.cfg.MaxDocs.toNat else limit.toNat) ∧
      (Search L E s w [] limit docs).result = SearchResult.ok results ∧
      results.length = min cap docs.length ∧
      results = ((sortDocsByID L docs).take cap).map (fun d => d.Summary) ∧
      (sortDocsByID L docs).Perm docs ∧
      (sortDocsByID L docs).Pairwise (fun a b => a.ID ≤ b.ID) := by
  have hres : (Search L E s w [] limit docs).result =
      SearchResult.ok (((sortDocsByID L docs).take
        (if 0 < s.cfg.MaxDocs then min limit.toNat s.cfg.MaxDocs.toNat else limit.toNat)).map
          (fun d => d.Summary)) := by
    rw [Search_empty L E s w [] limit docs L.trimSpace_nil, emptyQueryResult_eq _ _ hlimit,
      sortedDocs_eq]
    by_cases hk : 0 < s.cfg.MaxDocs
    · simp only [hk, if_true, List.take_take]
    · simp only [hk, if_false]
  refine ⟨_, _, rfl, hres, ?_, rfl, sortDocsByID_perm L docs, sortDocsByID_sorted L docs⟩
  rw [List.length_map, List.length_take, sortDocsByID_length]

/-- C6 (amended), at a concrete input: `MaxDocs = 1`, two documents, limit 2. -/
theorem search_empty_query_law_witness :
    (0 : Int) ≤ 2 ∧
    ∃ (cap : Nat) (results : List Summary),
      cap = (if 0 < (NewBM25Searcher (maxDocsConfig 1)).cfg.MaxDocs then
          min (2 : Int).toNat (NewBM25Searcher (maxDocsConfig 1)).cfg.MaxDocs.toNat
        else (2 : Int).toNat) ∧
      (Search refLib countEngine (NewBM25Searcher (maxDocsConfig 1)) world0 [] 2
        [docB, docA]).result = SearchResult.ok results ∧
      results.length = min cap ([docB, docA] : List SearchDoc).length ∧
      results = ((sortDocsByID refLib [docB, docA]).take cap).map (fun d => d.Summary) ∧
      (sortDocsByID refLib [docB, docA]).Perm [docB, docA] ∧
      (sortDocsByID refLib [docB, docA]).Pairwise (fun a b => a.ID ≤ b.ID) :=
  ⟨by decide,
    search_empty_query_law refLib countEngine (NewBM25Searcher (maxDocsConfig 1)) world0 2
      [docB, docA] (by decide)⟩

/-- C7 as stated fails, in two ways. With the documents supplied as `b, a` and `N = 1`,
`Search` with the empty query returns the summary of `a`, which is not the first document
as supplied. With `MaxDocs = 1`, the documents `a, b` and `N = 2`, it returns one summary,
not two. -/
theorem search_empty_query_first_n_counterexample :
    ((Search refLib countEngine (NewBM25Searcher zeroConfig) world0 [] 1
        [docB, docA]).result = SearchResult.ok [docA.Summary] ∧
      ¬ ∃ results : List Summary,
        (Search refLib countEngine (NewBM25Searcher zeroConfig) world0 [] 1
          [docB, docA]).result = SearchResult.ok results ∧
        results.length = (1 : Int).toNat ∧
        ∀ i : Nat, i < (1 : Int).toNat →
          results[i]? = (([docB, docA] : List SearchDoc)[i]?).map (fun d => d.Summary)) ∧
    ((Search refLib countEngine (NewBM25Searcher (maxDocsConfig 1)) world0 [] 2
        [docA, docB]).result = SearchResult.ok [docA.Summary] ∧
      ¬ ∃ results : List Summary,
        (Search refLib countEngine (NewBM25Searcher (maxDocsConfig 1)) world0 [] 2
          [docA, docB]).result = SearchResult.ok results ∧
        results.length = (2 : Int).toNat ∧
        ∀ i : Nat, i < (2 : Int).toNat →
          results[i]? = (([docA, docB] : List SearchDoc)[i]?).map (fun d => d.Summary)) := by
  have h1 : (Search refLib countEngine (NewBM25Searcher zeroConfig) world0 [] 1
      [docB, docA]).result = SearchResult.ok [docA.Summary] := by decide
  have h2 : (Search refLib countEngine (NewBM25Searcher (maxDocsConfig 1)) world0 [] 2
      [docA, docB]).result = SearchResult.ok [docA.Summary] := by decide
  refine ⟨⟨h1, ?_⟩, ⟨h2, ?_⟩⟩
  · rintro ⟨results, hr, _, hi⟩
    rw [h1] at hr
    have h0 := hi 0 (by decide)
    rw [← SearchResult.ok.inj hr] at h0
    exact absurd h0 (by decide)
  · rintro ⟨results, hr, hl, _⟩
    rw [h2] at hr
    rw [← SearchResult.ok.inj hr] at hl
    exact absurd hl (by decide)

/-- C7 (amended). Empty queries return the first `N` documents when the caller supplies
them in canonical order: for every document list `docs` whose ids are strictly ascending
as supplied, every `N` with `0 ≤ N ≤ len(docs)`, and `MaxDocs ≤ 0` or `N ≤ MaxDocs`,
`Search("", N, docs)` returns `N` summaries whose `i`-th entry is the `Summary` of
`docs[i]`. -/
theorem search_empty_query_first_n {ε σ : Type} [LinearOrder σ] (L : GoLib)
    (E : Engine ε σ) (s : BM25Searcher) (w : World ε) (N : Int) (docs : List SearchDoc)
    (hN : 0 ≤ N) (hlen : N ≤ (docs.length : Int))
    (hsorted : docs.Pairwise (fun a b => a.ID < b.ID))
    (hmax : s.cfg.MaxDocs ≤ 0 ∨ N ≤ s.cfg.MaxDocs) :
    ∃ results : List Summary,
      (Search L E s w [] N docs).result = SearchResult.ok results ∧
      results.length = N.toNat ∧
      ∀ i : Nat, i < N.toNat → results[i]? = (docs[i]?).map (fun d => d.Summary) := by
  have hres : (Search L E s w [] N docs).result =
      SearchResult.ok ((docs.take N.toNat).map (fun d => d.Summary)) := by
    rw [Search_empty L E s w [] N docs L.trimSpace_nil, emptyQueryResult_eq _ _ hN,
      sortedDocs_eq, sortDocsByID_of_sorted L docs hsorted]
    by_cases hk : 0 < s.cfg.MaxDocs
    · have hle : N.toNat ≤ s.cfg.MaxDocs.toNat := by omega
      simp only [hk, if_true, List.take_take, Nat.min_eq_left hle]
    · simp only [hk, if_false]
  refine ⟨_, hres, ?_, ?_⟩
  · rw [List.length_map, List.length_take]
    omega
  · intro i hi
    rw [List.getElem?_map, List.getElem?_take_of_lt hi]

/-- C7 (amended), at a concrete input: the documents `a, b, c` in that order, `N = 2`. -/
theorem search_empty_query_first_n_witness :
    (0 : Int) ≤ 2 ∧ (2 : Int) ≤ (([docA, docB, docC] : List SearchDoc).length : Int) ∧
    ([docA, docB, docC] : List SearchDoc).Pairwise (fun a b => a.ID < b.ID) ∧
    ((NewBM25Searcher zeroConfig).cfg.MaxDocs ≤ 0 ∨
      (2 : Int) ≤ (NewBM25Searcher zeroConfig).cfg.MaxDocs) ∧
    ∃ results : List Summary,
      (Search refLib countEngine (NewBM25Searcher zeroConfig) world0 [] 2
        [docA, docB, docC]).result = SearchResult.ok results ∧
      results.length = (2 : Int).toNat ∧
      ∀ i : Nat, i < (2 : Int).toNat →
        results[i]? = (([docA, docB, docC] : List SearchDoc)[i]?).map (fun d => d.Summary) :=
  ⟨by decide, by decide, by decide, by decide,
    search_empty_query_first_n refLib countEngine (NewBM25Searcher zeroConfig) world0 2
      [docA, docB, docC] (by decide) (by decide) (by decide) (by decide)⟩


/-! ## Queries: no documents, white space, letter case -/

theorem sortDocsByID_nil (L : GoLib) : sortDocsByID L [] = [] :=
  (sortDocsByID_perm L []).eq_nil

theorem sortedDocs_nil (L : GoLib) (cfg : BM25Config) : sortedDocs L cfg [] = [] := by
  unfold sortedDocs
  simp [sortDocsByID_nil]

/-- The no-documents path: a non-empty query over an empty canonical sequence. -/
theorem Search_no_docs {ε σ : Type} [LinearOrder σ] (L : GoLib) (E : Engine ε σ)
    (s : BM25Searcher) (w : World ε) (query : GoString) (limit : Int) (docs : List SearchDoc)
    (hq : L.trimSpace query ≠ []) (hd : sortedDocs L s.cfg docs = []) :
    Search L E s w query limit docs = ⟨SearchResult.ok [], s, w⟩ := by
  unfold Search
  simp [hq, hd]

/-- C12. For every query that is non-empty after trimming and every limit (negative ones
included), `Search` over an empty document list returns the empty result sequence and no
error, leaves the searcher (index, mapping, fingerprint, build count) unchanged and makes
no call to the engine: the engine state and the log of engine calls are unchanged. -/
theorem search_no_documents {ε σ : Type} [LinearOrder σ] (L : GoLib) (E : Engine ε σ)
    (s : BM25Searcher) (w : World ε) (query : GoString) (limit : Int)
    (hq : L.trimSpace query ≠ []) :
    (Search L E s w query limit []).result = SearchResult.ok [] ∧
    (Search L E s w query limit []).searcher = s ∧
    (Search L E s w query limit []).world.trace = w.trace ∧
    (Search L E s w query limit []).world.eng = w.eng := by
  rw [Search_no_docs L E s w query limit [] hq (sortedDocs_nil L s.cfg)]
  exact ⟨rfl, rfl, rfl, rfl⟩

/-- C12, at a concrete input: the query `g`, a negative limit, an engine on which every
operation would fail, and a searcher that holds an index. -/
theorem search_no_documents_witness :
    refLib.trimSpace [103] ≠ [] ∧
    (Search refLib failingEngine
        (Search refLib countEngine (NewBM25Searcher zeroConfig) world0 [103] 10
          [docC, docB, docA]).searcher world0 [103] (-1) []).result = SearchResult.ok [] ∧
    (Search refLib failingEngine
        (Search refLib countEngine (NewBM25Searcher zeroConfig) world0 [103] 10
          [docC, docB, docA]).searcher world0 [103] (-1) []).searcher =
      (Search refLib countEngine (NewBM25Searcher zeroConfig) world0 [103] 10
          [docC, docB, docA]).searcher ∧
    (Search refLib failingEngine
        (Search refLib countEngine (NewBM25Searcher zeroConfig) world0 [103] 10
          [docC, docB, docA]).searcher world0 [103] (-1) []).world.trace = world0.trace ∧
    (Search refLib failingEngine
        (Search refLib countEngine (NewBM25Searcher zeroConfig) world0 [103] 10
          [docC, docB, docA]).searcher world0 [103] (-1) []).world.eng = world0.eng :=
  ⟨by decide,
    search_no_documents refLib failingEngine _ world0 [103] (-1) (by decide)⟩

/-- C13. For every query that consists only of white-space characters (spaces, tabs,
newlines, and the other ASCII white space), every document list and every limit, `Search`
returns exactly what `Search("", limit, docs)` returns: the same result, searcher and
engine state. -/
theorem search_whitespace_query {ε σ : Type} [LinearOrder σ] (L : GoLib) (E : Engine ε σ)
    (s : BM25Searcher) (w : World ε) (query : GoString) (limit : Int) (docs : List SearchDoc)
    (hws : ∀ b ∈ query, isAsciiSpace b = true) :
    Search L E s w query limit docs = Search L E s w [] limit docs := by
  rw [Search_empty L E s w query limit docs (L.trimSpace_space query hws),
    Search_empty L E s w [] limit docs L.trimSpace_nil]

/-- C13, at a concrete input: the query of two spaces, a tab and a newline. -/
theorem search_whitespace_query_witness :
    (∀ b ∈ ([32, 32, 9, 10] : GoString), isAsciiSpace b = true) ∧
    Search refLib countEngine (NewBM25Searcher zeroConfig) world0 [32, 32, 9, 10] 2
        [docC, docB, docA] =
      Search refLib countEngine (NewBM25Searcher zeroConfig) world0 [] 2 [docC, docB, docA] :=
  ⟨by simp [isAsciiSpace]; decide,
    search_whitespace_query refLib countEngine (NewBM25Searcher zeroConfig) world0
      [32, 32, 9, 10] 2 [docC, docB, docA] (by simp [isAsciiSpace]; decide)⟩


/-- The calls that `rebuildIndex` makes are appended to the log, and none of them is a
search. -/
theorem rebuildIndex_no_search {ε σ : Type} (L : GoLib) (E : Engine ε σ) (s : BM25Searcher)
    (w : World ε) (docs : List SearchDoc) (fingerprint : GoString) :
    ∃ calls, (rebuildIndex L E s w docs fingerprint).2.2.trace = w.trace ++ calls ∧
      ∀ c ∈ calls, ∀ (h : Nat) (q : GoString) (n : Nat), c ≠ EngineCall.search h q n := by
  unfold rebuildIndex
  split
  · rename_i err w1 heq
    simp only [World.newMemOnly, Prod.mk.injEq] at heq
    rw [← heq.2]
    exact ⟨[EngineCall.newMemOnly], rfl, by simp⟩
  · rename_i h w1 heq
    simp only [World.newMemOnly, Prod.mk.injEq] at heq
    obtain ⟨⟨calls, htr, hcalls⟩, hok⟩ := indexDocs_spec L E s.cfg h docs [] [] w1
    have hcallsW : ∀ c ∈ calls, ∀ (h2 : Nat) (q : GoString) (n : Nat),
        c ≠ EngineCall.search h2 q n := by
      intro c hc
      obtain ⟨d, _, rfl⟩ := hcalls c hc
      simp
    split
    · rename_i err w2 heq2
      rw [heq2] at htr
      simp only at htr
      refine ⟨EngineCall.newMemOnly :: (calls ++ [EngineCall.close h]), ?_, ?_⟩
      · rw [closeAfter_trace, htr, ← heq.2]
        simp
      · intro c hc
        simp only [List.mem_cons, List.mem_append, List.not_mem_nil, or_false] at hc
        rcases hc with rfl | hc | rfl
        · simp
        · exact hcallsW c hc
        · simp
    · rename_i idToSummary batch w2 heq2
      rw [heq2] at htr hok
      simp only at htr
      obtain ⟨hm, hb⟩ := hok idToSummary batch rfl
      simp only [List.append_nil, List.nil_append] at hm hb
      subst hm hb
      split
      · rename_i err w3 heq3
        simp only [World.batch, Prod.mk.injEq] at heq3
        refine ⟨EngineCall.newMemOnly :: (calls ++
          [EngineCall.batch h (docs.map (batchEntry L s.cfg)), EngineCall.close h]), ?_, ?_⟩
        · rw [closeAfter_trace, ← heq3.2, htr, ← heq.2]
          simp
        · intro c hc
          simp only [List.mem_cons, List.mem_append, List.not_mem_nil, or_false] at hc
          rcases hc with rfl | hc | rfl | rfl
          · simp
          · exact hcallsW c hc
          · simp
          · simp
      · rename_i w3 heq3
        simp only [World.batch, Prod.mk.injEq] at heq3
        obtain ⟨⟨calls2, htr2, hcalls2⟩, _, _⟩ :=
          installIndex_spec L E s w3 h docs fingerprint
        refine ⟨EngineCall.newMemOnly :: (calls ++
          EngineCall.batch h (docs.map (batchEntry L s.cfg)) :: calls2), ?_, ?_⟩
        · rw [htr2, ← heq3.2, htr, ← heq.2]
          simp
        · intro c hc
          simp only [List.mem_cons, List.mem_append] at hc
          rcases hc with rfl | hc | rfl | hc
          · simp
          · exact hcallsW c hc
          · simp
          · obtain ⟨h2, rfl⟩ := hcalls2 c hc
            simp

/-- Every search that `Search` submits to the engine carries the query
`lower(trim(query))`. -/
theorem Search_trace_queries {ε σ : Type} [LinearOrder σ] (L : GoLib) (E : Engine ε σ)
    (s : BM25Searcher) (w : World ε) (query : GoString) (limit : Int) (docs : List SearchDoc) :
    ∃ calls, (Search L E s w query limit docs).world.trace = w.trace ++ calls ∧
      ∀ (h : Nat) (q : GoString) (n : Nat), EngineCall.search h q n ∈ calls →
        q = L.toLower (L.trimSpace query) := by
  by_cases hq : L.trimSpace query = []
  · rw [Search_empty L E s w query limit docs hq]
    exact ⟨[], by simp, by simp⟩
  by_cases hd : sortedDocs L s.cfg docs = []
  · rw [Search_no_docs L E s w query limit docs hq hd]
    exact ⟨[], by simp, by simp⟩
  have hlen : ¬ (sortedDocs L s.cfg docs).length = 0 := by
    simpa [List.length_eq_zero] using hd
  have key : ∀ (r : Option GoError × BM25Searcher × World ε),
      (∃ calls, r.2.2.trace = w.trace ++ calls ∧
        ∀ c ∈ calls, ∀ (h : Nat) (q : GoString) (n : Nat), c ≠ EngineCall.search h q n) →
      (if (s.index.isNone ||
            decide (s.lastFingerprint ≠ computeFingerprint L (sortedDocs L s.cfg docs))) = true
        then rebuildIndex L E s w (sortedDocs L s.cfg docs)
          (computeFingerprint L (sortedDocs L s.cfg docs))
        else (none, s, w)) = r →
      ∃ calls, (Search L E s w query limit docs).world.trace = w.trace ++ calls ∧
        ∀ (h : Nat) (q : GoString) (n : Nat), EngineCall.search h q n ∈ calls →
          q = L.toLower (L.trimSpace query) := by
    intro r hr hreq
    obtain ⟨err, s1, w1⟩ := r
    obtain ⟨calls, htr, hcalls⟩ := hr
    simp only at htr
    have hnone : ∀ (h : Nat) (q : GoString) (n : Nat), EngineCall.search h q n ∈ calls →
        q = L.toLower (L.trimSpace query) :=
      fun h q n hmem => absurd rfl (hcalls _ hmem h q n)
    unfold Search
    simp only [hq, hlen, if_false, hreq]
    cases err with
    | some e => exact ⟨calls, htr, hnone⟩
    | none =>
      simp only
      cases hidx : s1.index with
      | none => exact ⟨calls, htr, hnone⟩
      | some index =>
        simp only
        have htr2 : (World.search E w1 index (L.toLower (L.trimSpace query))
            (sortedDocs L s.cfg docs).length).2.trace =
            w.trace ++ (calls ++ [EngineCall.search index.handle
              (L.toLower (L.trimSpace query)) (sortedDocs L s.cfg docs).length]) := by
          simp [World.search, htr]
        have hcalls2 : ∀ (h : Nat) (q : GoString) (n : Nat),
            EngineCall.search h q n ∈ calls ++ [EngineCall.search index.handle
              (L.toLower (L.trimSpace query)) (sortedDocs L s.cfg docs).length] →
            q = L.toLower (L.trimSpace query) := by
          intro h q n hc
          simp only [List.mem_append, List.mem_cons, List.not_mem_nil, or_false] at hc
          rcases hc with hc | hc
          · exact hnone h q n hc
          · simp only [EngineCall.search.injEq] at hc
            exact hc.2.1
        split <;> rename_i heq <;> rw [heq] at htr2
        · exact ⟨_, htr2, hcalls2⟩
        · exact ⟨_, htr2, hcalls2⟩
  by_cases hnr : (s.index.isNone ||
      decide (s.lastFingerprint ≠ computeFingerprint L (sortedDocs L s.cfg docs))) = true
  · apply key _ (rebuildIndex_no_search L E s w (sortedDocs L s.cfg docs)
      (computeFingerprint L (sortedDocs L s.cfg docs)))
    rw [if_pos hnr]
  · apply key (none, s, w) ⟨[], by simp, by simp⟩
    rw [if_neg hnr]

/-- C14. `Search` is insensitive to the letter case and the surrounding white space of
the query: for every two queries `q1`, `q2` with `lower(trim(q1)) = lower(trim(q2))` and
the same searcher, engine state, documents and limit, `Search` has the same outcome
(result, searcher afterwards, engine state and calls), and every search submitted to the
engine carries exactly the query `lower(trim(q1))`. -/
theorem search_query_normalised {ε σ : Type} [LinearOrder σ] (L : GoLib) (E : Engine ε σ)
    (s : BM25Searcher) (w : World ε) (q1 q2 : GoString) (limit : Int) (docs : List SearchDoc)
    (h : L.toLower (L.trimSpace q1) = L.toLower (L.trimSpace q2)) :
    Search L E s w q1 limit docs = Search L E s w q2 limit docs ∧
    ∃ calls, (Search L E s w q1 limit docs).world.trace = w.trace ++ calls ∧
      ∀ (hd : Nat) (q : GoString) (n : Nat), EngineCall.search hd q n ∈ calls →
        q = L.toLower (L.trimSpace q1) := by
  refine ⟨?_, Search_trace_queries L E s w q1 limit docs⟩
  by_cases h1 : L.trimSpace q1 = []
  · have h2 : L.trimSpace q2 = [] := by
      rw [h1, (L.toLower_eq_nil_iff []).mpr rfl] at h
      exact (L.toLower_eq_nil_iff _).mp h.symm
    rw [Search_empty L E s w q1 limit docs h1, Search_empty L E s w q2 limit docs h2]
  · have h2 : L.trimSpace q2 ≠ [] := by
      intro h2
      rw [h2, (L.toLower_eq_nil_iff []).mpr rfl] at h
      exact h1 ((L.toLower_eq_nil_iff _).mp h)
    unfold Search
    simp only [h1, h2, if_false, h]

/-- C14, at a concrete input: the queries ` G ` and `g`. -/
theorem search_query_normalised_witness :
    refLib.toLower (refLib.trimSpace [32, 71, 32]) = refLib.toLower (refLib.trimSpace [103]) ∧
    Search refLib countEngine (NewBM25Searcher zeroConfig) world0 [32, 71, 32] 10
        [docC, docB, docA] =
      Search refLib countEngine (NewBM25Searcher zeroConfig) world0 [103] 10
        [docC, docB, docA] ∧
    ∃ calls, (Search refLib countEngine (NewBM25Searcher zeroConfig) world0 [32, 71, 32] 10
        [docC, docB, docA]).world.trace = world0.trace ++ calls ∧
      ∀ (hd : Nat) (q : GoString) (n : Nat), EngineCall.search hd q n ∈ calls →
        q = refLib.toLower (refLib.trimSpace [32, 71, 32]) :=
  ⟨by decide,
    search_query_normalised refLib countEngine (NewBM25Searcher zeroConfig) world0
      [32, 71, 32] [103] 10 [docC, docB, docA] (by decide)⟩


/-! ## When the index is rebuilt -/

/-- After a successful ranked search the searcher holds an index. -/
theorem Search_ok_index {ε σ : Type} [LinearOrder σ] (L : GoLib) (E : Engine ε σ)
    (s : BM25Searcher) (w : World ε) (query : GoString) (limit : Int) (docs : List SearchDoc)
    (results : List Summary) (hq : L.trimSpace query ≠ [])
    (hd : sortedDocs L s.cfg docs ≠ [])
    (hres : (Search L E s w query limit docs).result = SearchResult.ok results) :
    (Search L E s w query limit docs).searcher.index ≠ none := by
  have hlen : ¬ (sortedDocs L s.cfg docs).length = 0 := by
    simpa [List.length_eq_zero] using hd
  unfold Search at hres ⊢
  simp only [hq, hlen, if_false] at hres ⊢
  split at hres
  · simp at hres
  · split at hres
    · simp at hres
    · rename_i r s1 w1 heq x index hidx
      split at hres
      · simp at hres
      · simp [hidx]

/-- A cache hit: with an index for the fingerprint of the canonical pool, a ranked search
leaves the searcher as it is and makes exactly one call to the engine, the search. -/
theorem Search_cache_hit {ε σ : Type} [LinearOrder σ] (L : GoLib) (E : Engine ε σ)
    (s : BM25Searcher) (w : World ε) (query : GoString) (limit : Int) (docs : List SearchDoc)
    (index : Index) (hq : L.trimSpace query ≠ []) (hd : sortedDocs L s.cfg docs ≠ [])
    (hidx : s.index = some index)
    (hfp : s.lastFingerprint = computeFingerprint L (sortedDocs L s.cfg docs)) :
    (Search L E s w query limit docs).searcher = s ∧
    (Search L E s w query limit docs).world.trace =
      w.trace ++ [EngineCall.search index.handle (L.toLower (L.trimSpace query))
        (sortedDocs L s.cfg docs).length] := by
  have hlen : ¬ (sortedDocs L s.cfg docs).length = 0 := by
    simpa [List.length_eq_zero] using hd
  unfold Search
  simp only [hq, hlen, if_false, hidx, hfp, Option.isNone_some, ne_eq, not_true_eq_false,
    decide_False, Bool.or_self, Bool.false_eq_true]
  split <;> rename_i heq <;> simp only [World.search, Prod.mk.injEq] at heq <;>
    rw [← heq.2] <;> exact ⟨rfl, rfl⟩

/-- A cache miss: a successful ranked search on a searcher without an index, or with
another fingerprint, installs an index built from the canonical pool. -/
theorem Search_cache_miss {ε σ : Type} [LinearOrder σ] (L : GoLib) (E : Engine ε σ)
    (s : BM25Searcher) (w : World ε) (query : GoString) (limit : Int) (docs : List SearchDoc)
    (results : List Summary) (hq : L.trimSpace query ≠ [])
    (hd : sortedDocs L s.cfg docs ≠ [])
    (hmiss : s.index = none ∨
      s.lastFingerprint ≠ computeFingerprint L (sortedDocs L s.cfg docs))
    (hres : (Search L E s w query limit docs).result = SearchResult.ok results) :
    ∃ h, (Search L E s w query limit docs).searcher =
      installed L s h (sortedDocs L s.cfg docs)
        (computeFingerprint L (sortedDocs L s.cfg docs)) := by
  obtain ⟨_, hs, hfp⟩ := Search_spec L E s w query limit docs
  have hfp2 := hfp results hres hq hd
  have hidx := Search_ok_index L E s w query limit docs results hq hd hres
  rcases hs with hs | hs
  · exfalso
    rw [hs] at hfp2 hidx
    rcases hmiss with hm | hm
    · exact hidx hm
    · exact hm hfp2
  · exact hs

/-- C15 as stated fails for a first query that is non-empty but consists of white space:
on a new searcher the query of one space over `a, b` succeeds on the empty-query path
without building an index (build count 0, empty fingerprint), and the query `g` over the
permuted list `b, a` then builds one: the build count becomes 1 and the fingerprint
changes. -/
theorem search_permuted_docs_no_rebuild_counterexample :
    ([docA, docB].map fun d => d.ID).Nodup ∧ [docA, docB].Perm [docB, docA] ∧
    ([32] : GoString) ≠ [] ∧ ([103] : GoString) ≠ [] ∧
    (Search refLib countEngine (NewBM25Searcher zeroConfig) world0 [32] 10
        [docA, docB]).result = SearchResult.ok [docA.Summary, docB.Summary] ∧
    (Search refLib countEngine (NewBM25Searcher zeroConfig) world0 [32] 10
        [docA, docB]).searcher.indexBuildCount = 0 ∧
    (Search refLib countEngine (NewBM25Searcher zeroConfig) world0 [32] 10
        [docA, docB]).searcher.lastFingerprint = [] ∧
    (Search refLib countEngine
        (Search refLib countEngine (NewBM25Searcher zeroConfig) world0 [32] 10
          [docA, docB]).searcher
        (Search refLib countEngine (NewBM25Searcher zeroConfig) world0 [32] 10
          [docA, docB]).world [103] 10 [docB, docA]).searcher.indexBuildCount = 1 ∧
    ¬ ((Search refLib countEngine
          (Search refLib countEngine (NewBM25Searcher zeroConfig) world0 [32] 10
            [docA, docB]).searcher
          (Search refLib countEngine (NewBM25Searcher zeroConfig) world0 [32] 10
            [docA, docB]).world [103] 10 [docB, docA]).searcher.indexBuildCount =
        (Search refLib countEngine (NewBM25Searcher zeroConfig) world0 [32] 10
          [docA, docB]).searcher.indexBuildCount ∧
      (Search refLib countEngine
          (Search refLib countEngine (NewBM25Searcher zeroConfig) world0 [32] 10
            [docA, docB]).searcher
          (Search refLib countEngine (NewBM25Searcher zeroConfig) world0 [32] 10
            [docA, docB]).world [103] 10 [docB, docA]).searcher.lastFingerprint =
        (Search refLib countEngine (NewBM25Searcher zeroConfig) world0 [32] 10
          [docA, docB]).searcher.lastFingerprint) := by
  refine ⟨by decide, by decide, by decide, by decide, by decide, by decide, by decide,
    by decide, by decide⟩

/-- C15 (amended). For every two document lists with pairwise distinct ids that are
permutations of each other, every query `q1` that is non-empty after trimming and every
query `q2`: if `Search(q1, limit, docsA)` succeeds on a searcher and
`Search(q2, limit2, docsB)` is then called on it, the second call does not rebuild the
index: it leaves the searcher as the first call left it, so the build count and the cached
fingerprint are the same after the second call as after the first. -/
theorem search_permuted_docs_no_rebuild {ε σ : Type} [LinearOrder σ] (L : GoLib)
    (E : Engine ε σ) (s : BM25Searcher) (w : World ε) (q1 q2 : GoString) (limit limit2 : Int)
    (docsA docsB : List SearchDoc) (results : List Summary)
    (hnd : (docsA.map fun d => d.ID).Nodup) (hp : docsA.Perm docsB)
    (hq1 : L.trimSpace q1 ≠ [])
    (hres : (Search L E s w q1 limit docsA).result = SearchResult.ok results) :
    (Search L E (Search L E s w q1 limit docsA).searcher (Search L E s w q1 limit docsA).world
        q2 limit2 docsB).searcher = (Search L E s w q1 limit docsA).searcher ∧
    (Search L E (Search L E s w q1 limit docsA).searcher (Search L E s w q1 limit docsA).world
        q2 limit2 docsB).searcher.indexBuildCount =
      (Search L E s w q1 limit docsA).searcher.indexBuildCount ∧
    (Search L E (Search L E s w q1 limit docsA).searcher (Search L E s w q1 limit docsA).world
        q2 limit2 docsB).searcher.lastFingerprint =
      (Search L E s w q1 limit docsA).searcher.lastFingerprint := by
  have hcfg : (Search L E s w q1 limit docsA).searcher.cfg = s.cfg := by
    obtain ⟨_, hs, _⟩ := Search_spec L E s w q1 limit docsA
    rcases hs with hs | ⟨h, hs⟩ <;> rw [hs]
    rfl
  have hpool : sortedDocs L (Search L E s w q1 limit docsA).searcher.cfg docsB =
      sortedDocs L s.cfg docsA := by
    rw [hcfg, sortedDocs_congr L s.cfg docsA docsB hnd hp]
  have hsame : (Search L E (Search L E s w q1 limit docsA).searcher
      (Search L E s w q1 limit docsA).world q2 limit2 docsB).searcher =
      (Search L E s w q1 limit docsA).searcher := by
    by_cases hq2 : L.trimSpace q2 = []
    · rw [Search_empty L E _ _ q2 limit2 docsB hq2]
    by_cases hd : sortedDocs L s.cfg docsA = []
    · rw [Search_no_docs L E _ _ q2 limit2 docsB hq2 (by rw [hpool]; exact hd)]
    · obtain ⟨_, _, hfp⟩ := Search_spec L E s w q1 limit docsA
      have hfp2 := hfp results hres hq1 hd
      have hidx := Search_ok_index L E s w q1 limit docsA results hq1 hd hres
      obtain ⟨index, hindex⟩ := Option.ne_none_iff_exists'.mp hidx
      exact (Search_cache_hit L E _ _ q2 limit2 docsB index hq2 (by rw [hpool]; exact hd)
        hindex (by rw [hpool]; exact hfp2)).1
  exact ⟨hsame, by rw [hsame], by rw [hsame]⟩

/-- C15 (amended), at a concrete input: three documents in two orders, the queries `g`
and `x`. -/
theorem search_permuted_docs_no_rebuild_witness :
    ([docC, docB, docA].map fun d => d.ID).Nodup ∧ [docC, docB, docA].Perm [docA, docC, docB] ∧
    refLib.trimSpace [103] ≠ [] ∧
    (Search refLib countEngine (NewBM25Searcher zeroConfig) world0 [103] 10
        [docC, docB, docA]).result = SearchResult.ok [docB.Summary, docA.Summary] ∧
    (Search refLib countEngine (NewBM25Searcher zeroConfig) world0 [103] 10
        [docC, docB, docA]).searcher.indexBuildCount = 1 ∧
    (Search refLib countEngine
        (Search refLib countEngine (NewBM25Searcher zeroConfig) world0 [103] 10
          [docC, docB, docA]).searcher
        (Search refLib countEngine (NewBM25Searcher zeroConfig) world0 [103] 10
          [docC, docB, docA]).world [120] 5 [docA, docC, docB]).searcher.indexBuildCount =
      (Search refLib countEngine (NewBM25Searcher zeroConfig) world0 [103] 10
        [docC, docB, docA]).searcher.indexBuildCount :=
  ⟨by decide, by decide, by decide, by decide, by decide,
    (search_permuted_docs_no_rebuild refLib countEngine (NewBM25Searcher zeroConfig) world0
      [103] [120] 10 5 [docC, docB, docA] [docA, docC, docB] [docB.Summary, docA.Summary]
      (by decide) (by decide) (by decide) (by decide)).2.1⟩

/-- C16. For every successful `Search` with a query that is non-empty after trimming and
a non-empty canonical pool: when the searcher holds no index or its cached fingerprint
differs from the fingerprint of the canonical pool, the build count increases by exactly 1
and the searcher then holds an index with the fingerprint of the pool; otherwise the
searcher, and so the build count, is unchanged. -/
theorem search_build_count {ε σ : Type} [LinearOrder σ] (L : GoLib) (E : Engine ε σ)
    (s : BM25Searcher) (w : World ε) (query : GoString) (limit : Int) (docs : List SearchDoc)
    (results : List Summary) (hq : L.trimSpace query ≠ [])
    (hd : sortedDocs L s.cfg docs ≠ [])
    (hres : (Search L E s w query limit docs).result = SearchResult.ok results) :
    ((s.index = none ∨ s.lastFingerprint ≠ computeFingerprint L (sortedDocs L s.cfg docs)) →
      (Search L E s w query limit docs).searcher.indexBuildCount = s.indexBuildCount + 1 ∧
      (Search L E s w query limit docs).searcher.lastFingerprint =
        computeFingerprint L (sortedDocs L s.cfg docs) ∧
      (Search L E s w query limit docs).searcher.index ≠ none) ∧
    (¬ (s.index = none ∨
        s.lastFingerprint ≠ computeFingerprint L (sortedDocs L s.cfg docs)) →
      (Search L E s w query limit docs).searcher = s ∧
      (Search L E s w query limit docs).searcher.indexBuildCount = s.indexBuildCount) := by
  constructor
  · intro hmiss
    obtain ⟨h, hs⟩ := Search_cache_miss L E s w query limit docs results hq hd hmiss hres
    rw [hs]
    exact ⟨rfl, rfl, by simp [installed]⟩
  · intro hhit
    simp only [not_or, not_not] at hhit
    obtain ⟨index, hindex⟩ := Option.ne_none_iff_exists'.mp hhit.1
    have := (Search_cache_hit L E s w query limit docs index hq hd hindex hhit.2).1
    exact ⟨this, by rw [this]⟩


/-- C16, at concrete inputs: the first search on a new searcher builds the index; a second
search over the same documents with another query reuses it; a search over other
documents rebuilds it. -/
theorem search_build_count_witness :
    refLib.trimSpace [103] ≠ [] ∧
    sortedDocs refLib (NewBM25Searcher zeroConfig).cfg [docC, docB, docA] ≠ [] ∧
    (Search refLib countEngine (NewBM25Searcher zeroConfig) world0 [103] 10
        [docC, docB, docA]).result = SearchResult.ok [docB.Summary, docA.Summary] ∧
    (Search refLib countEngine (NewBM25Searcher zeroConfig) world0 [103] 10
        [docC, docB, docA]).searcher.indexBuildCount = 0 + 1 ∧
    (Search refLib countEngine searcherABC worldABC [120] 10
        [docC, docB, docA]).searcher.indexBuildCount = 1 ∧
    (Search refLib countEngine searcherABC worldABC [103] 10
        [docB, docA]).searcher.indexBuildCount = 1 + 1 :=
  ⟨by decide, by decide, by decide,
    ((search_build_count refLib countEngine (NewBM25Searcher zeroConfig) world0 [103] 10
      [docC, docB, docA] [docB.Summary, docA.Summary] (by decide) (by decide) (by decide)).1
      (Or.inl rfl)).1,
    ((search_build_count refLib countEngine searcherABC worldABC [120] 10
      [docC, docB, docA] [docC.Summary] (by decide) (by decide) (by decide)).2
      (by decide)).2,
    ((search_build_count refLib countEngine searcherABC worldABC [103] 10
      [docB, docA] [docB.Summary, docA.Summary] (by decide) (by decide) (by decide)).1
      (by decide)).1⟩


/-! ## The fingerprint -/

theorem stringsJoin_nil (sep : GoString) : stringsJoin [] sep = [] := rfl

theorem stringsJoin_single (x sep : GoString) : stringsJoin [x] sep = x := by
  simp [stringsJoin, List.intercalate]

theorem stringsJoin_cons_cons (x y : GoString) (t : List GoString) (sep : GoString) :
    stringsJoin (x :: y :: t) sep = x ++ sep ++ stringsJoin (y :: t) sep := by
  simp [stringsJoin, List.intercalate]

theorem slicesSort_perm (xs : List GoString) : (slicesSort xs).Perm xs :=
  List.perm_insertionSort _ xs

theorem slicesSort_congr (xs ys : List GoString) (hp : xs.Perm ys) :
    slicesSort xs = slicesSort ys := by
  unfold slicesSort
  exact List.eq_of_perm_of_sorted
    ((List.perm_insertionSort _ xs).trans (hp.trans (List.perm_insertionSort _ ys).symm))
    (List.sorted_insertionSort (fun a b : GoString => a ≤ b) xs)
    (List.sorted_insertionSort (fun a b : GoString => a ≤ b) ys)

theorem docStream_congr (a b : SearchDoc) (h : SameUpToTagOrder a b) :
    docStream a = docStream b := by
  obtain ⟨h1, h2, h3, h4, h5, h6, h7⟩ := h
  unfold docStream
  rw [h1, h2, h3, h4, h5, h6, slicesSort_congr _ _ h7]

theorem fingerprintStream_cons (d : SearchDoc) (ds : List SearchDoc) :
    fingerprintStream (d :: ds) = docStream d ++ fingerprintStream ds := by
  simp [fingerprintStream]

theorem fingerprintStream_congr (docs1 docs2 : List SearchDoc)
    (h : List.Forall₂ SameUpToTagOrder docs1 docs2) :
    fingerprintStream docs1 = fingerprintStream docs2 := by
  induction h with
  | nil => rfl
  | cons hd _ ih => rw [fingerprintStream_cons, fingerprintStream_cons, docStream_congr _ _ hd, ih]

/-- C17. For every two document lists that agree document by document on every field,
the tag lists up to a permutation (so: replacing the tag list of any of the documents by
a permutation of it), `computeFingerprint` returns the same fingerprint. -/
theorem fingerprint_tag_order_irrelevant (L : GoLib) (docs1 docs2 : List SearchDoc)
    (h : List.Forall₂ SameUpToTagOrder docs1 docs2) :
    computeFingerprint L docs1 = computeFingerprint L docs2 := by
  unfold computeFingerprint
  rw [fingerprintStream_congr docs1 docs2 h]

/-- C17, at a concrete input: the tags `x, y` of the first document in both orders. -/
theorem fingerprint_tag_order_irrelevant_witness :
    List.Forall₂ SameUpToTagOrder [docT1, docA] [docT2, docA] ∧
    docT1 ≠ docT2 ∧
    computeFingerprint refLib [docT1, docA] = computeFingerprint refLib [docT2, docA] :=
  ⟨List.Forall₂.cons (by decide) (List.Forall₂.cons (by decide) List.Forall₂.nil),
    by decide,
    fingerprint_tag_order_irrelevant refLib [docT1, docA] [docT2, docA]
      (List.Forall₂.cons (by decide) (List.Forall₂.cons (by decide) List.Forall₂.nil))⟩

theorem hexEncodeToString_length (bs : List (Fin 256)) :
    (hexEncodeToString bs).length = 2 * bs.length := by
  unfold hexEncodeToString
  induction bs with
  | nil => rfl
  | cons b t ih =>
    simp only [List.map_cons, List.flatten_cons, List.length_append, List.length_cons,
      List.length_nil, ih]
    omega

theorem hexDigit_range : ∀ n : Nat, n < 16 →
    (48 ≤ (hexDigit n).val ∧ (hexDigit n).val ≤ 57) ∨
      (97 ≤ (hexDigit n).val ∧ (hexDigit n).val ≤ 102) := by
  decide

theorem hexEncodeToString_digits (bs : List (Fin 256)) :
    ∀ c ∈ hexEncodeToString bs,
      (48 ≤ c.val ∧ c.val ≤ 57) ∨ (97 ≤ c.val ∧ c.val ≤ 102) := by
  intro c hc
  unfold hexEncodeToString at hc
  rw [List.mem_flatten] at hc
  obtain ⟨l, hl, hcl⟩ := hc
  obtain ⟨b, _, rfl⟩ := List.mem_map.mp hl
  simp only [List.mem_cons, List.mem_singleton, List.not_mem_nil, or_false] at hcl
  rcases hcl with rfl | rfl
  · exact hexDigit_range _ (Nat.div_lt_of_lt_mul (by have := b.isLt; omega))
  · exact hexDigit_range _ (Nat.mod_lt _ (by decide))

/-- C19. For every document sequence, the empty one included, `computeFingerprint`
returns a string of exactly 64 bytes, each a lowercase hexadecimal digit (`0` to `9` or
`a` to `f`); in particular the fingerprint is never the empty string. -/
theorem fingerprint_is_64_hex_digits (L : GoLib) (docs : List SearchDoc) :
    (computeFingerprint L docs).length = 64 ∧
    (∀ c ∈ computeFingerprint L docs,
      (48 ≤ c.val ∧ c.val ≤ 57) ∨ (97 ≤ c.val ∧ c.val ≤ 102)) ∧
    computeFingerprint L docs ≠ [] := by
  have hlen : (computeFingerprint L docs).length = 64 := by
    unfold computeFingerprint
    rw [hexEncodeToString_length, L.sha256_length]
  refine ⟨hlen, hexEncodeToString_digits _, ?_⟩
  intro h
  rw [h] at hlen
  simp at hlen

/-- C20. For every configuration and document, `buildWeightedDoc` returns the
single-space join of the fragment list of the specification (`specFragments`), in its
order: the copies of the lower-cased name, of the lower-cased namespace, of each
lower-cased tag in the given order, and the lower-cased, possibly cut, body if it is
non-empty. -/
theorem buildWeightedDoc_eq_spec (L : GoLib) (cfg : BM25Config) (doc : SearchDoc) :
    buildWeightedDoc L cfg doc = stringsJoin (specFragments L cfg doc) [32] := by
  unfold buildWeightedDoc specFragments specBody
  by_cases h1 : cfg.NameBoost > 0 <;> by_cases h2 : cfg.NamespaceBoost > 0 <;>
    by_cases h3 : cfg.TagsBoost > 0 <;>
    by_cases h4 : cfg.MaxDocTextLen > 0 ∧
      ((L.toLower doc.DocText).length : Int) > cfg.MaxDocTextLen <;>
    by_cases h5 : (L.toLower doc.DocText).take cfg.MaxDocTextLen.toNat = [] <;>
    by_cases h6 : L.toLower doc.DocText = [] <;>
    simp [h1, h2, h3, h4, h5, h6]


/-! ## Decoding the fingerprint stream -/

/-- Two byte strings free of the separator `z`, each followed by `z`, can be read back
from the front of a stream. -/
theorem split_at_separator (z : Fin 256) :
    ∀ (a a2 r r2 : List (Fin 256)), z ∉ a → z ∉ a2 → a ++ z :: r = a2 ++ z :: r2 →
      a = a2 ∧ r = r2 := by
  intro a
  induction a with
  | nil =>
    intro a2 r r2 _ h2 h
    cases a2 with
    | nil =>
      simp only [List.nil_append, List.cons.injEq, true_and] at h
      exact ⟨rfl, h⟩
    | cons y u =>
      exfalso
      simp only [List.nil_append, List.cons_append, List.cons.injEq] at h
      exact h2 (by rw [h.1]; exact List.mem_cons_self _ _)
  | cons x t ih =>
    intro a2 r r2 h1 h2 h
    cases a2 with
    | nil =>
      exfalso
      simp only [List.nil_append, List.cons_append, List.cons.injEq] at h
      exact h1 (by rw [h.1]; exact List.mem_cons_self _ _)
    | cons y u =>
      simp only [List.cons_append, List.cons.injEq] at h
      obtain ⟨hxy, hrest⟩ := h
      have := ih u r r2 (fun hm => h1 (List.mem_cons_of_mem _ hm))
        (fun hm => h2 (List.mem_cons_of_mem _ hm)) hrest
      exact ⟨by rw [hxy, this.1], this.2⟩

theorem not_mem_stringsJoin (z : Fin 256) (sep : GoString) (hsep : z ∉ sep) :
    ∀ (xs : List GoString), (∀ x ∈ xs, z ∉ x) → z ∉ stringsJoin xs sep := by
  intro xs
  induction xs with
  | nil => intro _; simp [stringsJoin_nil]
  | cons x t ih =>
    intro h
    cases t with
    | nil =>
      rw [stringsJoin_single]
      exact h x (List.mem_cons_self _ _)
    | cons y u =>
      rw [stringsJoin_cons_cons]
      simp only [List.mem_append, not_or]
      exact ⟨⟨h x (List.mem_cons_self _ _), hsep⟩,
        ih (fun x2 hx2 => h x2 (List.mem_cons_of_mem _ hx2))⟩

/-- Joining with the separator `0x01` loses nothing on lists of non-empty strings free
of that byte. -/
theorem stringsJoin_injective :
    ∀ (xs ys : List GoString), (∀ x ∈ xs, (1 : Fin 256) ∉ x ∧ x ≠ []) →
      (∀ y ∈ ys, (1 : Fin 256) ∉ y ∧ y ≠ []) →
      stringsJoin xs [1] = stringsJoin ys [1] → xs = ys := by
  intro xs
  induction xs with
  | nil =>
    intro ys _ hy h
    cases ys with
    | nil => rfl
    | cons y u =>
      exfalso
      cases u with
      | nil =>
        rw [stringsJoin_nil, stringsJoin_single] at h
        exact (hy y (List.mem_cons_self _ _)).2 h.symm
      | cons y2 u2 =>
        rw [stringsJoin_nil, stringsJoin_cons_cons] at h
        simp at h
  | cons x t ih =>
    intro ys hx hy h
    have hx1 := hx x (List.mem_cons_self _ _)
    cases ys with
    | nil =>
      exfalso
      cases t with
      | nil =>
        rw [stringsJoin_nil, stringsJoin_single] at h
        exact hx1.2 h
      | cons x2 t2 =>
        rw [stringsJoin_nil, stringsJoin_cons_cons] at h
        simp at h
    | cons y u =>
      have hy1 := hy y (List.mem_cons_self _ _)
      cases t with
      | nil =>
        cases u with
        | nil =>
          rw [stringsJoin_single, stringsJoin_single] at h
          rw [h]
        | cons y2 u2 =>
          exfalso
          rw [stringsJoin_single, stringsJoin_cons_cons] at h
          apply hx1.1
          rw [h]
          simp
      | cons x2 t2 =>
        cases u with
        | nil =>
          exfalso
          rw [stringsJoin_single, stringsJoin_cons_cons] at h
          apply hy1.1
          rw [← h]
          simp
        | cons y2 u2 =>
          rw [stringsJoin_cons_cons, stringsJoin_cons_cons] at h
          simp only [List.append_assoc, List.singleton_append] at h
          obtain ⟨hxy, hrest⟩ := split_at_separator 1 x y _ _ hx1.1 hy1.1 h
          have := ih (y2 :: u2) (fun x3 hx3 => hx x3 (List.mem_cons_of_mem _ hx3))
            (fun y3 hy3 => hy y3 (List.mem_cons_of_mem _ hy3)) hrest
          rw [hxy, this]

theorem docStream_ne_nil (d : SearchDoc) : docStream d ≠ [] := by
  simp [docStream]

/-- The fields of a separator-free document can be read back from the front of the
stream. -/
theorem docStream_split (a b : SearchDoc) (ha : CleanDoc a) (hb : CleanDoc b)
    (r r2 : List (Fin 256)) (h : docStream a ++ r = docStream b ++ r2) :
    SameUpToTagOrder a b ∧ r = r2 := by
  obtain ⟨a1, a2, a3, a4, a5, a6, a7⟩ := ha
  obtain ⟨b1, b2, b3, b4, b5, b6, b7⟩ := hb
  have hta : ∀ t ∈ slicesSort a.Summary.Tags, (0 : Fin 256) ∉ t ∧ (1 : Fin 256) ∉ t ∧ t ≠ [] :=
    fun t ht => a7 t ((slicesSort_perm _).subset ht)
  have htb : ∀ t ∈ slicesSort b.Summary.Tags, (0 : Fin 256) ∉ t ∧ (1 : Fin 256) ∉ t ∧ t ≠ [] :=
    fun t ht => b7 t ((slicesSort_perm _).subset ht)
  have hja : (0 : Fin 256) ∉ stringsJoin (slicesSort a.Summary.Tags) [1] :=
    not_mem_stringsJoin 0 [1] (by decide) _ (fun t ht => (hta t ht).1)
  have hjb : (0 : Fin 256) ∉ stringsJoin (slicesSort b.Summary.Tags) [1] :=
    not_mem_stringsJoin 0 [1] (by decide) _ (fun t ht => (htb t ht).1)
  unfold docStream at h
  simp only [List.append_assoc, List.singleton_append, List.cons_append, List.nil_append] at h
  obtain ⟨e1, h⟩ := split_at_separator 0 _ _ _ _ a1 b1 h
  obtain ⟨e2, h⟩ := split_at_separator 0 _ _ _ _ a2 b2 h
  obtain ⟨e3, h⟩ := split_at_separator 0 _ _ _ _ a3 b3 h
  obtain ⟨e4, h⟩ := split_at_separator 0 _ _ _ _ a4 b4 h
  obtain ⟨e5, h⟩ := split_at_separator 0 _ _ _ _ a5 b5 h
  obtain ⟨e6, h⟩ := split_at_separator 0 _ _ _ _ a6 b6 h
  obtain ⟨e7, h⟩ := split_at_separator 0 _ _ _ _ hja hjb h
  have hsorted : slicesSort a.Summary.Tags = slicesSort b.Summary.Tags :=
    stringsJoin_injective _ _ (fun t ht => (hta t ht).2) (fun t ht => (htb t ht).2) e7
  have hperm : a.Summary.Tags.Perm b.Summary.Tags :=
    (slicesSort_perm _).symm.trans (hsorted ▸ slicesSort_perm _)
  exact ⟨⟨e1, e2, e3, e4, e5, e6, hperm⟩, h⟩

/-- On separator-free documents the fingerprint stream determines the documents, in
order, up to the order of their tags. -/
theorem fingerprintStream_injective :
    ∀ (docs1 docs2 : List SearchDoc), (∀ d ∈ docs1, CleanDoc d) → (∀ d ∈ docs2, CleanDoc d) →
      fingerprintStream docs1 = fingerprintStream docs2 →
      List.Forall₂ SameUpToTagOrder docs1 docs2 := by
  intro docs1
  induction docs1 with
  | nil =>
    intro docs2 _ _ h
    cases docs2 with
    | nil => exact List.Forall₂.nil
    | cons d ds =>
      exfalso
      rw [fingerprintStream_cons] at h
      have : docStream d = [] := (List.append_eq_nil.mp h.symm).1
      exact docStream_ne_nil d this
  | cons d ds ih =>
    intro docs2 h1 h2 h
    cases docs2 with
    | nil =>
      exfalso
      rw [fingerprintStream_cons] at h
      have : docStream d = [] := (List.append_eq_nil.mp h).1
      exact docStream_ne_nil d this
    | cons d2 ds2 =>
      rw [fingerprintStream_cons, fingerprintStream_cons] at h
      obtain ⟨hd, hrest⟩ := docStream_split d d2 (h1 d (List.mem_cons_self _ _))
        (h2 d2 (List.mem_cons_self _ _)) _ _ h
      exact List.Forall₂.cons hd
        (ih ds2 (fun x hx => h1 x (List.mem_cons_of_mem _ hx))
          (fun x hx => h2 x (List.mem_cons_of_mem _ hx)) hrest)


theorem hexDigit_injective : ∀ n : Nat, n < 16 → ∀ m : Nat, m < 16 →
    hexDigit n = hexDigit m → n = m := by
  decide

theorem hexEncodeToString_injective :
    ∀ (a b : List (Fin 256)), hexEncodeToString a = hexEncodeToString b → a = b := by
  intro a
  induction a with
  | nil =>
    intro b h
    cases b with
    | nil => rfl
    | cons y u => simp [hexEncodeToString] at h
  | cons x t ih =>
    intro b h
    cases b with
    | nil => simp [hexEncodeToString] at h
    | cons y u =>
      simp only [hexEncodeToString, List.map_cons, List.flatten_cons, List.cons_append,
        List.nil_append, List.cons.injEq] at h
      obtain ⟨hhi, hlo, hrest⟩ := h
      have hx := x.isLt
      have hy := y.isLt
      have e1 := hexDigit_injective _ (Nat.div_lt_of_lt_mul (by omega)) _
        (Nat.div_lt_of_lt_mul (by omega)) hhi
      have e2 := hexDigit_injective _ (Nat.mod_lt _ (by decide)) _
        (Nat.mod_lt _ (by decide)) hlo
      have hxy : x = y := by
        apply Fin.ext
        omega
      rw [hxy, ih u hrest]

/-- C18 as stated fails: equal streams do not force the documents to agree. A tag
`x\x01y` and the two tags `x`, `y` give the same stream; so do no tag and one empty tag;
so do the id `a\x00` with an empty body and the id `a` with the body `\x00`. -/
theorem fingerprint_stream_iff_counterexample :
    (fingerprintStream [docJoinedTag] = fingerprintStream [docT1] ∧
      ¬ List.Forall₂ SameUpToTagOrder [docJoinedTag] [docT1]) ∧
    (fingerprintStream [docNoTag] = fingerprintStream [docEmptyTag] ∧
      ¬ List.Forall₂ SameUpToTagOrder [docNoTag] [docEmptyTag]) ∧
    (fingerprintStream [docZeroInID] = fingerprintStream [docZeroInText] ∧
      ¬ List.Forall₂ SameUpToTagOrder [docZeroInID] [docZeroInText]) := by
  refine ⟨⟨by decide, ?_⟩, ⟨by decide, ?_⟩, ⟨by decide, ?_⟩⟩
  · intro h
    cases h with
    | cons h _ => exact absurd h (by decide)
  · intro h
    cases h with
    | cons h _ => exact absurd h (by decide)
  · intro h
    cases h with
    | cons h _ => exact absurd h (by decide)

/-- C18 (amended). For every two document sequences in which no id, body text, summary
id, name, namespace, short description or tag contains the byte `0x00`, no tag contains
the byte `0x01` and no tag is the empty string: the byte streams that `computeFingerprint`
feeds to the hash are equal if and only if the sequences have the same length and agree
document by document, in order, on id, body text, summary id, name, namespace and short
description, and on the tags up to their order; and when the digest does not collide on
these two streams, the same holds for the fingerprints. -/
theorem fingerprint_stream_iff (L : GoLib) (docs1 docs2 : List SearchDoc)
    (h1 : ∀ d ∈ docs1, CleanDoc d) (h2 : ∀ d ∈ docs2, CleanDoc d) :
    (fingerprintStream docs1 = fingerprintStream docs2 ↔
      List.Forall₂ SameUpToTagOrder docs1 docs2) ∧
    (List.Forall₂ SameUpToTagOrder docs1 docs2 → docs1.length = docs2.length) ∧
    ((L.sha256 (fingerprintStream docs1) = L.sha256 (fingerprintStream docs2) →
        fingerprintStream docs1 = fingerprintStream docs2) →
      (computeFingerprint L docs1 = computeFingerprint L docs2 ↔
        List.Forall₂ SameUpToTagOrder docs1 docs2)) := by
  refine ⟨⟨fingerprintStream_injective docs1 docs2 h1 h2, fingerprintStream_congr docs1 docs2⟩,
    fun h => h.length_eq, ?_⟩
  intro hnc
  constructor
  · intro h
    apply fingerprintStream_injective docs1 docs2 h1 h2
    exact hnc (hexEncodeToString_injective _ _ h)
  · exact fingerprint_tag_order_irrelevant L docs1 docs2

/-- C18 (amended), at a concrete input: two sequences that differ in the tag order of the
first document have the same stream; swapping two documents changes the stream. -/
theorem fingerprint_stream_iff_witness :
    (∀ d ∈ [docT1, docA], CleanDoc d) ∧ (∀ d ∈ [docT2, docA], CleanDoc d) ∧
    fingerprintStream [docT1, docA] = fingerprintStream [docT2, docA] ∧
    fingerprintStream [docT1, docA] ≠ fingerprintStream [docA, docT1] ∧
    (fingerprintStream [docT1, docA] = fingerprintStream [docT2, docA] ↔
      List.Forall₂ SameUpToTagOrder [docT1, docA] [docT2, docA]) :=
  ⟨by decide, by decide, by decide, by decide,
    (fingerprint_stream_iff refLib [docT1, docA] [docT2, docA] (by decide) (by decide)).1⟩


/-! ## The cache along a sequence of calls -/

theorem runCalls_append {ε σ : Type} [LinearOrder σ] (L : GoLib) (E : Engine ε σ)
    (sw : BM25Searcher × World ε) (calls : List Call) (c : Call) :
    runCalls L E sw (calls ++ [c]) = stepCall L E (runCalls L E sw calls) c := by
  simp [runCalls, List.foldl_append]

theorem Search_cfg {ε σ : Type} [LinearOrder σ] (L : GoLib) (E : Engine ε σ)
    (s : BM25Searcher) (w : World ε) (query : GoString) (limit : Int) (docs : List SearchDoc) :
    (Search L E s w query limit docs).searcher.cfg = s.cfg := by
  obtain ⟨_, hs, _⟩ := Search_spec L E s w query limit docs
  rcases hs with hs | ⟨h, hs⟩ <;> rw [hs]
  rfl

theorem CachedFrom_mono (L : GoLib) (P Q : List SearchDoc → Prop) (s : BM25Searcher)
    (hPQ : ∀ pool, P pool → Q pool) (h : CachedFrom L P s) : CachedFrom L Q s := by
  rcases h with h | ⟨hd, pool, hP, h⟩
  · exact Or.inl h
  · exact Or.inr ⟨hd, pool, hPQ pool hP, h⟩

/-- A `Search` keeps the cache coherent: afterwards it is as before, or it is built from
the canonical pool of this call. -/
theorem Search_cachedFrom {ε σ : Type} [LinearOrder σ] (L : GoLib) (E : Engine ε σ)
    (P : List SearchDoc → Prop) (s : BM25Searcher) (w : World ε) (query : GoString)
    (limit : Int) (docs : List SearchDoc) (h : CachedFrom L P s)
    (hP : P (sortedDocs L s.cfg docs)) :
    CachedFrom L P (Search L E s w query limit docs).searcher := by
  obtain ⟨_, hs, _⟩ := Search_spec L E s w query limit docs
  rcases hs with hs | ⟨hd, hs⟩
  · rw [hs]
    exact h
  · rw [hs]
    exact Or.inr ⟨hd, sortedDocs L s.cfg docs, hP, rfl, rfl, rfl⟩

theorem Close_cachedFrom {ε σ : Type} (L : GoLib) (E : Engine ε σ)
    (P : List SearchDoc → Prop) (s : BM25Searcher) (w : World ε) (h : CachedFrom L P s) :
    CachedFrom L P (Close E s w).2.1 ∧ (Close E s w).2.1.cfg = s.cfg := by
  unfold Close
  split
  · exact ⟨Or.inl ⟨rfl, rfl, rfl⟩, rfl⟩
  · exact ⟨h, rfl⟩

/-- In every state reached from a new searcher by a sequence of calls, the configuration
is the initial one and the cache is empty or built from the canonical pool of one of the
calls. -/
theorem runCalls_cachedFrom {ε σ : Type} [LinearOrder σ] (L : GoLib) (E : Engine ε σ)
    (cfg : BM25Config) (w0 : World ε) (calls : List Call) :
    (runCalls L E (NewBM25Searcher cfg, w0) calls).1.cfg = (NewBM25Searcher cfg).cfg ∧
    CachedFrom L (fun pool => ∃ c ∈ calls, pool = sortedDocs L (NewBM25Searcher cfg).cfg c.docs)
      (runCalls L E (NewBM25Searcher cfg, w0) calls).1 := by
  induction calls using List.reverseRecOn with
  | nil => exact ⟨rfl, Or.inl ⟨rfl, rfl, rfl⟩⟩
  | append_singleton calls c ih =>
    obtain ⟨hcfg, hc⟩ := ih
    rw [runCalls_append]
    have hmono := CachedFrom_mono L _
      (fun pool => ∃ c2 ∈ calls ++ [c], pool = sortedDocs L (NewBM25Searcher cfg).cfg c2.docs) _
      (fun pool hp => by
        obtain ⟨c2, hc2, hpool⟩ := hp
        exact ⟨c2, List.mem_append_left _ hc2, hpool⟩) hc
    cases c with
    | search query limit docs =>
      simp only [stepCall]
      refine ⟨by rw [Search_cfg, hcfg], ?_⟩
      apply Search_cachedFrom L E _ _ _ query limit docs hmono
      exact ⟨Call.search query limit docs, by simp, by rw [hcfg]; rfl⟩
    | close =>
      simp only [stepCall]
      obtain ⟨h1, h2⟩ := Close_cachedFrom L E _ _ (runCalls L E (NewBM25Searcher cfg, w0) calls).2
        hmono
      exact ⟨by rw [h2, hcfg], h1⟩

theorem summaryMap_lookup_id (pool : List SearchDoc) (id : GoString) (sm : Summary)
    (h : mapLookup (some (summaryMap pool)) id = some sm) :
    ∃ d ∈ pool, d.ID = id ∧ sm = d.Summary := by
  have hmem := lookup_some_mem id sm (summaryMap pool) h
  unfold summaryMap at hmem
  rw [List.mem_reverse] at hmem
  obtain ⟨d, hd, heq⟩ := List.mem_map.mp hmem
  simp only [Prod.mk.injEq] at heq
  exact ⟨d, hd, heq.1, heq.2.symm⟩

theorem sortedDocs_subset (L : GoLib) (cfg : BM25Config) (docs : List SearchDoc) :
    ∀ d ∈ sortedDocs L cfg docs, d ∈ docs := by
  intro d hd
  rw [sortedDocs_eq] at hd
  split at hd
  · exact (sortDocsByID_perm L docs).subset (List.mem_of_mem_take hd)
  · exact (sortDocsByID_perm L docs).subset hd

theorem forall₂_mem_left {α β : Type} (R : α → β → Prop) :
    ∀ (l1 : List α) (l2 : List β), List.Forall₂ R l1 l2 → ∀ a ∈ l1, ∃ b ∈ l2, R a b := by
  intro l1 l2 h
  induction h with
  | nil => intro a ha; simp at ha
  | cons hab _ ih =>
    intro a ha
    rcases List.mem_cons.mp ha with rfl | ha
    · exact ⟨_, List.mem_cons_self _ _, hab⟩
    · obtain ⟨b, hb, hr⟩ := ih a ha
      exact ⟨b, List.mem_cons_of_mem _ hb, hr⟩

/-- After any sequence of calls, the summaries of a successful ranked `Search` are those
of the hits, each taken from a document with the id of the hit in the pool from which the
cached index was built: the canonical pool of this call, or that of an earlier call with
the same fingerprint. -/
theorem Search_results_from_cached_pool {ε σ : Type} [LinearOrder σ] (L : GoLib)
    (E : Engine ε σ) (cfg : BM25Config) (w0 : World ε) (calls : List Call) (query : GoString)
    (limit : Int) (docs : List SearchDoc) (results : List Summary)
    (hq : L.trimSpace query ≠ [])
    (hres : (Search L E (runCalls L E (NewBM25Searcher cfg, w0) calls).1
      (runCalls L E (NewBM25Searcher cfg, w0) calls).2 query limit docs).result =
        SearchResult.ok results) :
    ∃ (hits : List (scoredHit σ)) (pool0 : List SearchDoc),
      results = hits.map (fun hit => summaryOf
        (Search L E (runCalls L E (NewBM25Searcher cfg, w0) calls).1
          (runCalls L E (NewBM25Searcher cfg, w0) calls).2 query limit docs).searcher.idToSummary
        hit) ∧
      (pool0 = sortedDocs L (NewBM25Searcher cfg).cfg docs ∨
        ∃ c ∈ calls, pool0 = sortedDocs L (NewBM25Searcher cfg).cfg c.docs) ∧
      computeFingerprint L pool0 =
        computeFingerprint L (sortedDocs L (NewBM25Searcher cfg).cfg docs) ∧
      ∀ hit ∈ hits, ∃ d ∈ pool0, d.ID = hit.id ∧
        summaryOf (Search L E (runCalls L E (NewBM25Searcher cfg, w0) calls).1
          (runCalls L E (NewBM25Searcher cfg, w0) calls).2 query limit docs).searcher.idToSummary
          hit = d.Summary := by
  obtain ⟨hcfg, hcached⟩ := runCalls_cachedFrom L E cfg w0 calls
  generalize runCalls L E (NewBM25Searcher cfg, w0) calls = sw at hcfg hcached hres ⊢
  obtain ⟨s, w⟩ := sw
  simp only at hcfg hcached hres ⊢
  rw [← hcfg]
  rcases Search_ok_cases L E s w query limit docs results hres with h | h | h
  · exact absurd h.1 hq
  · exact ⟨[], sortedDocs L s.cfg docs, by simp [h.2.2], Or.inl rfl, rfl, by simp⟩
  · obtain ⟨_, hd, e, idx, raw, _, hfin⟩ := h
    obtain ⟨_, hs, hfp⟩ := Search_spec L E s w query limit docs
    have hfp2 := hfp results hres hq hd
    have hidx := Search_ok_index L E s w query limit docs results hq hd hres
    have hmap : ∃ pool0, (pool0 = sortedDocs L s.cfg docs ∨
          ∃ c ∈ calls, pool0 = sortedDocs L s.cfg c.docs) ∧
        computeFingerprint L pool0 = computeFingerprint L (sortedDocs L s.cfg docs) ∧
        (Search L E s w query limit docs).searcher.idToSummary = some (summaryMap pool0) := by
      rcases hs with hs | ⟨h, hs⟩
      · rw [hs] at hfp2 hidx ⊢
        rcases hcached with hc | ⟨h0, pool0, hP, hi, hm, hf⟩
        · exact absurd hc.1 hidx
        · refine ⟨pool0, Or.inr ?_, ?_, hm⟩
          · obtain ⟨c, hc, hpool⟩ := hP
            exact ⟨c, hc, by rw [hcfg]; exact hpool⟩
          · rw [← hf, hfp2]
      · rw [hs]
        exact ⟨sortedDocs L s.cfg docs, Or.inl rfl, rfl, rfl⟩
    obtain ⟨pool0, hpool0, hfp0, hm⟩ := hmap
    rw [hm] at hfin ⊢
    obtain ⟨n, _, hn⟩ := finishSearch_ok L _ limit raw results hfin
    refine ⟨(rankHits L (some (summaryMap pool0)) raw).take n, pool0, hn, hpool0, hfp0, ?_⟩
    intro hit hhit
    have h2 := (rankHits_perm L _ raw).subset (List.mem_of_mem_take hhit)
    have h3 := (mem_collectHits _ raw hit h2).2
    obtain ⟨sm, hsm⟩ := Option.isSome_iff_exists.mp h3
    obtain ⟨d, hd, hid, hdsm⟩ := summaryMap_lookup_id _ _ _ hsm
    refine ⟨d, hd, hid, ?_⟩
    unfold summaryOf
    rw [hsm, ← hdsm]
    rfl


/-! ## The summaries returned and the documents supplied -/

/-- C11 as stated fails. A first `Search` indexes the document `t` with the tags `x, y`;
a second `Search` is given the same document with the tags `y, x`. The fingerprint is the
same, the index is reused, and the second call returns the summary cached by the first,
which is not the `Summary` of the document supplied to the second call. -/
theorem search_results_from_supplied_docs_counterexample :
    (Search refLib countEngine
        (runCalls refLib countEngine (NewBM25Searcher zeroConfig, world0)
          [Call.search [103] 10 [docT1]]).1
        (runCalls refLib countEngine (NewBM25Searcher zeroConfig, world0)
          [Call.search [103] 10 [docT1]]).2 [103] 10 [docT2]).result =
      SearchResult.ok [docT1.Summary] ∧
    ¬ ∀ r ∈ [docT1.Summary], ∃ d ∈ [docT2], r = d.Summary := by
  refine ⟨by decide, by decide⟩

/-- C11 (amended). For every sequence of sequential `Search` and `Close` calls on a
searcher made by `NewBM25Searcher` and every engine behaviour, consider a following
`Search` call with a query that is non-empty after trimming. Assume that no document
supplied to any of the calls contains the byte `0x00` in a field or tag, the byte `0x01`
in a tag, or an empty tag, and that the digest does not collide between the stream of an
earlier pool and the stream of the pool of this call. Then the summaries returned are
those of a list of hits, in order, and the summary of each hit is, up to the order of its
tags, the `Summary` of a document supplied to this call that belongs to its canonical
pool and has the id of the hit; so no hit whose id is not the id of a pool document
appears in the result. -/
theorem search_results_from_supplied_docs {ε σ : Type} [LinearOrder σ] (L : GoLib)
    (E : Engine ε σ) (cfg : BM25Config) (w0 : World ε) (calls : List Call) (query : GoString)
    (limit : Int) (docs : List SearchDoc) (results : List Summary)
    (hq : L.trimSpace query ≠ [])
    (hclean : ∀ c ∈ calls, ∀ d ∈ c.docs, CleanDoc d)
    (hcleanDocs : ∀ d ∈ docs, CleanDoc d)
    (hdigest : ∀ c ∈ calls,
      L.sha256 (fingerprintStream (sortedDocs L (NewBM25Searcher cfg).cfg c.docs)) =
        L.sha256 (fingerprintStream (sortedDocs L (NewBM25Searcher cfg).cfg docs)) →
      fingerprintStream (sortedDocs L (NewBM25Searcher cfg).cfg c.docs) =
        fingerprintStream (sortedDocs L (NewBM25Searcher cfg).cfg docs))
    (hres : (Search L E (runCalls L E (NewBM25Searcher cfg, w0) calls).1
      (runCalls L E (NewBM25Searcher cfg, w0) calls).2 query limit docs).result =
        SearchResult.ok results) :
    ∃ hits : List (scoredHit σ),
      results = hits.map (fun hit => summaryOf
        (Search L E (runCalls L E (NewBM25Searcher cfg, w0) calls).1
          (runCalls L E (NewBM25Searcher cfg, w0) calls).2 query limit docs).searcher.idToSummary
        hit) ∧
      ∀ hit ∈ hits, ∃ d ∈ docs, d ∈ sortedDocs L (NewBM25Searcher cfg).cfg docs ∧
        d.ID = hit.id ∧
        SummaryUpToTagOrder
          (summaryOf (Search L E (runCalls L E (NewBM25Searcher cfg, w0) calls).1
            (runCalls L E (NewBM25Searcher cfg, w0) calls).2 query limit
            docs).searcher.idToSummary hit)
          d.Summary := by
  obtain ⟨hits, pool0, hmap, hpool0, hfp, hhits⟩ :=
    Search_results_from_cached_pool L E cfg w0 calls query limit docs results hq hres
  refine ⟨hits, hmap, ?_⟩
  intro hit hhit
  obtain ⟨d0, hd0, hid, hsum⟩ := hhits hit hhit
  rcases hpool0 with hp | ⟨c, hc, hp⟩
  · rw [hp] at hd0
    refine ⟨d0, sortedDocs_subset L _ docs d0 hd0, hd0, hid, ?_⟩
    rw [hsum]
    exact ⟨rfl, rfl, rfl, rfl, List.Perm.refl _⟩
  · have hstream : fingerprintStream pool0 =
        fingerprintStream (sortedDocs L (NewBM25Searcher cfg).cfg docs) := by
      rw [hp]
      apply hdigest c hc
      rw [← hp]
      exact hexEncodeToString_injective _ _ hfp
    have hc0 : ∀ d ∈ pool0, CleanDoc d := by
      intro d hd
      rw [hp] at hd
      exact hclean c hc d (sortedDocs_subset L _ _ d hd)
    have hc1 : ∀ d ∈ sortedDocs L (NewBM25Searcher cfg).cfg docs, CleanDoc d :=
      fun d hd => hcleanDocs d (sortedDocs_subset L _ _ d hd)
    have hall := fingerprintStream_injective pool0 _ hc0 hc1 hstream
    obtain ⟨d, hd, hsame⟩ := forall₂_mem_left _ _ _ hall d0 hd0
    refine ⟨d, sortedDocs_subset L _ docs d hd, hd, ?_, ?_⟩
    · rw [← hsame.1, hid]
    · rw [hsum]
      exact hsame.2.2

/-- C11 (amended), at a concrete input: the two calls of the counterexample. The summary
returned by the second call is the summary of the supplied document up to the order of
its tags. -/
theorem search_results_from_supplied_docs_witness :
    refLib.trimSpace [103] ≠ [] ∧
    (∀ c ∈ [Call.search [103] 10 [docT1]], ∀ d ∈ c.docs, CleanDoc d) ∧
    (∀ d ∈ [docT2], CleanDoc d) ∧
    (Search refLib countEngine
        (runCalls refLib countEngine (NewBM25Searcher zeroConfig, world0)
          [Call.search [103] 10 [docT1]]).1
        (runCalls refLib countEngine (NewBM25Searcher zeroConfig, world0)
          [Call.search [103] 10 [docT1]]).2 [103] 10 [docT2]).result =
      SearchResult.ok [docT1.Summary] ∧
    SummaryUpToTagOrder docT1.Summary docT2.Summary ∧
    ∃ hits : List (scoredHit Nat),
      [docT1.Summary] = hits.map (fun hit => summaryOf
        (Search refLib countEngine
          (runCalls refLib countEngine (NewBM25Searcher zeroConfig, world0)
            [Call.search [103] 10 [docT1]]).1
          (runCalls refLib countEngine (NewBM25Searcher zeroConfig, world0)
            [Call.search [103] 10 [docT1]]).2 [103] 10 [docT2]).searcher.idToSummary hit) ∧
      ∀ hit ∈ hits, ∃ d ∈ [docT2], d ∈ sortedDocs refLib (NewBM25Searcher zeroConfig).cfg [docT2] ∧
        d.ID = hit.id ∧
        SummaryUpToTagOrder
          (summaryOf (Search refLib countEngine
            (runCalls refLib countEngine (NewBM25Searcher zeroConfig, world0)
              [Call.search [103] 10 [docT1]]).1
            (runCalls refLib countEngine (NewBM25Searcher zeroConfig, world0)
              [Call.search [103] 10 [docT1]]).2 [103] 10 [docT2]).searcher.idToSummary hit)
          d.Summary :=
  ⟨by decide, by decide, by decide, by decide, by decide,
    search_results_from_supplied_docs refLib countEngine zeroConfig world0
      [Call.search [103] 10 [docT1]] [103] 10 [docT2] [docT1.Summary]
      (by decide) (by decide) (by decide)
      (fun c hc _ => by
        rw [List.mem_singleton.mp hc]
        decide)
      (by decide)⟩


/-! ## The weighted text -/

/-- C22. For every document, when `NameBoost`, `NamespaceBoost` and `TagsBoost` are all
zero and `MaxDocTextLen` is zero, `buildWeightedDoc` returns exactly the lower-cased body
text, whatever the name, namespace and tags are; in particular it returns the empty
string when the body is empty. -/
theorem buildWeightedDoc_zero_boosts (L : GoLib) (cfg : BM25Config) (doc : SearchDoc)
    (h1 : cfg.NameBoost = 0) (h2 : cfg.NamespaceBoost = 0) (h3 : cfg.TagsBoost = 0)
    (h4 : cfg.MaxDocTextLen = 0) :
    buildWeightedDoc L cfg doc = L.toLower doc.DocText ∧
    (doc.DocText = [] → buildWeightedDoc L cfg doc = []) := by
  have h : buildWeightedDoc L cfg doc = L.toLower doc.DocText := by
    unfold buildWeightedDoc
    by_cases h5 : L.toLower doc.DocText = []
    · simp [h1, h2, h3, h4, h5, stringsJoin, List.intercalate]
    · simp [h1, h2, h3, h4, h5, stringsJoin, List.intercalate]
  refine ⟨h, ?_⟩
  intro hbody
  rw [h, hbody]
  exact (L.toLower_eq_nil_iff []).mpr rfl

/-- C22, at a concrete input: a document with a name, a namespace, a tag and the body
`Git`. -/
theorem buildWeightedDoc_zero_boosts_witness :
    zeroConfig.NameBoost = 0 ∧ zeroConfig.NamespaceBoost = 0 ∧ zeroConfig.TagsBoost = 0 ∧
    zeroConfig.MaxDocTextLen = 0 ∧
    buildWeightedDoc refLib zeroConfig
        { ID := [97], DocText := [71, 105, 116],
          Summary := { ID := [97], Name := [78], Namespace := [110, 115],
                       ShortDescription := [], Tags := [[116]] } } = [103, 105, 116] ∧
    (buildWeightedDoc refLib zeroConfig
        { ID := [97], DocText := [71, 105, 116],
          Summary := { ID := [97], Name := [78], Namespace := [110, 115],
                       ShortDescription := [], Tags := [[116]] } } =
      refLib.toLower [71, 105, 116] ∧
      (([71, 105, 116] : GoString) = [] →
        buildWeightedDoc refLib zeroConfig
          { ID := [97], DocText := [71, 105, 116],
            Summary := { ID := [97], Name := [78], Namespace := [110, 115],
                         ShortDescription := [], Tags := [[116]] } } = [])) :=
  ⟨rfl, rfl, rfl, rfl, by decide,
    buildWeightedDoc_zero_boosts refLib zeroConfig _ rfl rfl rfl rfl⟩

/-- C25. For every configuration `cfg`, `NewBM25Searcher(cfg)` holds a configuration whose
`NameBoost` is 3 if `cfg.NameBoost = 0` and `cfg.NameBoost` otherwise, whose
`NamespaceBoost` is 2 if `cfg.NamespaceBoost = 0` and `cfg.NamespaceBoost` otherwise,
whose `TagsBoost` is 2 if `cfg.TagsBoost = 0` and `cfg.TagsBoost` otherwise, and whose
`MaxDocs` and `MaxDocTextLen` are those of `cfg`; the new searcher has no index, no
mapping, an empty fingerprint and build count 0. -/
theorem newBM25Searcher_defaults (cfg : BM25Config) :
    (NewBM25Searcher cfg).cfg.NameBoost = (if cfg.NameBoost = 0 then 3 else cfg.NameBoost) ∧
    (NewBM25Searcher cfg).cfg.NamespaceBoost =
      (if cfg.NamespaceBoost = 0 then 2 else cfg.NamespaceBoost) ∧
    (NewBM25Searcher cfg).cfg.TagsBoost = (if cfg.TagsBoost = 0 then 2 else cfg.TagsBoost) ∧
    (NewBM25Searcher cfg).cfg.MaxDocs = cfg.MaxDocs ∧
    (NewBM25Searcher cfg).cfg.MaxDocTextLen = cfg.MaxDocTextLen ∧
    (NewBM25Searcher cfg).index = none ∧
    (NewBM25Searcher cfg).idToSummary = none ∧
    (NewBM25Searcher cfg).lastFingerprint = [] ∧
    (NewBM25Searcher cfg).indexBuildCount = 0 ∧
    IndexBuildCount (NewBM25Searcher cfg) = 0 := by
  unfold NewBM25Searcher IndexBuildCount
  by_cases h1 : cfg.NameBoost = 0 <;> by_cases h2 : cfg.NamespaceBoost = 0 <;>
    by_cases h3 : cfg.TagsBoost = 0 <;> simp [h1, h2, h3]


/-- The weighted text is the single-space join of the fragments of `specFragments`. -/
theorem buildWeightedDoc_unfold (L : GoLib) (cfg : BM25Config) (doc : SearchDoc) :
    buildWeightedDoc L cfg doc = stringsJoin (specFragments L cfg doc) [32] := by
  unfold buildWeightedDoc specFragments specBody
  by_cases h1 : cfg.NameBoost > 0 <;> by_cases h2 : cfg.NamespaceBoost > 0 <;>
    by_cases h3 : cfg.TagsBoost > 0 <;>
    by_cases h4 : cfg.MaxDocTextLen > 0 ∧
      ((L.toLower doc.DocText).length : Int) > cfg.MaxDocTextLen <;>
    by_cases h5 : (L.toLower doc.DocText).take cfg.MaxDocTextLen.toNat = [] <;>
    by_cases h6 : L.toLower doc.DocText = [] <;>
    simp [h1, h2, h3, h4, h5, h6]

theorem specBody_eq_take (L : GoLib) (cfg : BM25Config) (doc : SearchDoc)
    (hk : 0 < cfg.MaxDocTextLen) :
    specBody L cfg doc = (L.toLower doc.DocText).take cfg.MaxDocTextLen.toNat := by
  unfold specBody
  by_cases h : ((L.toLower doc.DocText).length : Int) > cfg.MaxDocTextLen
  · simp [hk, h]
  · have hle : (L.toLower doc.DocText).length ≤ cfg.MaxDocTextLen.toNat := by omega
    simp [h, List.take_of_length_le hle]

/-- With every boost disabled the weighted text is the body fragment. -/
theorem buildWeightedDoc_body_only (L : GoLib) (cfg : BM25Config) (doc : SearchDoc)
    (h1 : cfg.NameBoost ≤ 0) (h2 : cfg.NamespaceBoost ≤ 0) (h3 : cfg.TagsBoost ≤ 0) :
    buildWeightedDoc L cfg doc = specBody L cfg doc := by
  rw [buildWeightedDoc_unfold]
  unfold specFragments
  have n1 : ¬ cfg.NameBoost > 0 := not_lt.mpr h1
  have n2 : ¬ cfg.NamespaceBoost > 0 := not_lt.mpr h2
  have n3 : ¬ cfg.TagsBoost > 0 := not_lt.mpr h3
  by_cases hb : specBody L cfg doc = []
  · simp [n1, n2, n3, hb, stringsJoin, List.intercalate]
  · simp [n1, n2, n3, hb, stringsJoin, List.intercalate]

/-- C24. For every document and every configuration with all boosts disabled and
`MaxDocTextLen = k > 0`, `buildWeightedDoc` returns the first `min(k, len(L))` bytes of
`L`, the lower-cased body: the result is a prefix of `L`, its byte length never exceeds
`k`, and it is exactly `k` whenever `L` is longer than `k`; the result has no byte at an
index from `k` on, and every term that occurs in it occurs within the first `k` bytes of
`L`, so a term that lies wholly past byte `k` of `L` is absent from it. -/
theorem buildWeightedDoc_truncates (L : GoLib) (cfg : BM25Config) (doc : SearchDoc) (k : Int)
    (h1 : cfg.NameBoost ≤ 0) (h2 : cfg.NamespaceBoost ≤ 0) (h3 : cfg.TagsBoost ≤ 0)
    (hk : 0 < k) (hcfg : cfg.MaxDocTextLen = k) :
    buildWeightedDoc L cfg doc = (L.toLower doc.DocText).take k.toNat ∧
    (buildWeightedDoc L cfg doc).length = min k.toNat (L.toLower doc.DocText).length ∧
    (∃ t, L.toLower doc.DocText = buildWeightedDoc L cfg doc ++ t) ∧
    ((buildWeightedDoc L cfg doc).length : Int) ≤ k ∧
    (((L.toLower doc.DocText).length : Int) > k →
      ((buildWeightedDoc L cfg doc).length : Int) = k) ∧
    (∀ i : Nat, k.toNat ≤ i → (buildWeightedDoc L cfg doc)[i]? = none) ∧
    (∀ w : GoString, Occurs w (buildWeightedDoc L cfg doc) →
      Occurs w ((L.toLower doc.DocText).take k.toNat)) := by
  have h : buildWeightedDoc L cfg doc = (L.toLower doc.DocText).take k.toNat := by
    rw [buildWeightedDoc_body_only L cfg doc h1 h2 h3,
      specBody_eq_take L cfg doc (by rw [hcfg]; exact hk), hcfg]
  rw [h]
  refine ⟨rfl, List.length_take _ _, ⟨(L.toLower doc.DocText).drop k.toNat,
    (List.take_append_drop _ _).symm⟩, ?_, ?_, ?_, fun w hw => hw⟩
  · rw [List.length_take]
    omega
  · intro hlen
    rw [List.length_take]
    omega
  · intro i hi
    apply List.getElem?_eq_none
    rw [List.length_take]
    omega

/-- C24, at a concrete input: the body `GIT PUSH` cut to 3 bytes. -/
theorem buildWeightedDoc_truncates_witness :
    (maxTextConfig 3).NameBoost ≤ 0 ∧ (maxTextConfig 3).NamespaceBoost ≤ 0 ∧
    (maxTextConfig 3).TagsBoost ≤ 0 ∧ (0 : Int) < 3 ∧ (maxTextConfig 3).MaxDocTextLen = 3 ∧
    buildWeightedDoc refLib (maxTextConfig 3) (mkDoc [97] [71, 73, 84, 32, 80, 85, 83, 72]) =
      [103, 105, 116] ∧
    buildWeightedDoc refLib (maxTextConfig 3) (mkDoc [97] [71, 73, 84, 32, 80, 85, 83, 72]) =
      (refLib.toLower [71, 73, 84, 32, 80, 85, 83, 72]).take (3 : Int).toNat :=
  ⟨by decide, by decide, by decide, by decide, rfl, by decide,
    (buildWeightedDoc_truncates refLib (maxTextConfig 3)
      (mkDoc [97] [71, 73, 84, 32, 80, 85, 83, 72]) 3 (by decide) (by decide) (by decide)
      (by decide) rfl).1⟩

theorem mem_stringsJoin (b : Fin 256) (sep : GoString) :
    ∀ (xs : List GoString), b ∈ stringsJoin xs sep → b ∈ sep ∨ ∃ x ∈ xs, b ∈ x := by
  intro xs
  induction xs with
  | nil => intro h; simp [stringsJoin_nil] at h
  | cons x t ih =>
    intro h
    cases t with
    | nil =>
      rw [stringsJoin_single] at h
      exact Or.inr ⟨x, List.mem_cons_self _ _, h⟩
    | cons y u =>
      rw [stringsJoin_cons_cons] at h
      simp only [List.mem_append] at h
      rcases h with (h | h) | h
      · exact Or.inr ⟨x, List.mem_cons_self _ _, h⟩
      · exact Or.inl h
      · rcases ih h with h2 | ⟨x2, hx2, hb⟩
        · exact Or.inl h2
        · exact Or.inr ⟨x2, List.mem_cons_of_mem _ hx2, hb⟩

/-- Every fragment of the weighted text is a lower-cased string or a prefix of one. -/
theorem specFragments_lower (L : GoLib) (cfg : BM25Config) (doc : SearchDoc) :
    ∀ p ∈ specFragments L cfg doc, ∃ (s : GoString) (n : Nat), p = (L.toLower s).take n := by
  intro p hp
  unfold specFragments at hp
  simp only [List.mem_append] at hp
  rcases hp with ((hp | hp) | hp) | hp
  · split at hp
    · exact ⟨doc.Summary.Name, (L.toLower doc.Summary.Name).length, by
        rw [List.eq_of_mem_replicate hp, List.take_length]⟩
    · simp at hp
  · split at hp
    · exact ⟨doc.Summary.Namespace, (L.toLower doc.Summary.Namespace).length, by
        rw [List.eq_of_mem_replicate hp, List.take_length]⟩
    · simp at hp
  · split at hp
    · rw [List.mem_flatten] at hp
      obtain ⟨l, hl, hpl⟩ := hp
      obtain ⟨tag, _, rfl⟩ := List.mem_map.mp hl
      exact ⟨tag, (L.toLower tag).length, by
        rw [List.eq_of_mem_replicate hpl, List.take_length]⟩
    · simp at hp
  · split at hp
    · simp at hp
    · rw [List.mem_singleton] at hp
      rw [hp]
      unfold specBody
      split
      · exact ⟨doc.DocText, cfg.MaxDocTextLen.toNat, rfl⟩
      · exact ⟨doc.DocText, (L.toLower doc.DocText).length, by rw [List.take_length]⟩

/-- C23. For every configuration and every document, the string returned by
`buildWeightedDoc` contains no ASCII upper-case letter, no byte from `A` to `Z`; the body
is cut byte-wise after lower-casing, so this also holds when the cut falls inside a
multi-byte character. -/
theorem buildWeightedDoc_no_upper (L : GoLib) (cfg : BM25Config) (doc : SearchDoc) :
    ∀ b ∈ buildWeightedDoc L cfg doc, ¬ (65 ≤ b.val ∧ b.val ≤ 90) := by
  intro b hb
  rw [buildWeightedDoc_unfold] at hb
  rcases mem_stringsJoin b [32] _ hb with h | ⟨p, hp, hbp⟩
  · rw [List.mem_singleton] at h
    rw [h]
    decide
  · obtain ⟨s, n, rfl⟩ := specFragments_lower L cfg doc p hp
    exact L.toLower_no_upper s b (List.mem_of_mem_take hbp)

/-- C23, at a body cut inside a multi-byte character: with `MaxDocTextLen = 2` the body
`Gé` becomes `g` followed by the first byte of `é`, and the byte `g` of the result is no
upper-case letter. -/
theorem buildWeightedDoc_no_upper_witness :
    buildWeightedDoc refLib (maxTextConfig 2) docCut = [103, 195] ∧
    (103 : Fin 256) ∈ buildWeightedDoc refLib (maxTextConfig 2) docCut ∧
    ¬ (65 ≤ (103 : Fin 256).val ∧ (103 : Fin 256).val ≤ 90) :=
  ⟨by decide, by decide,
    buildWeightedDoc_no_upper refLib (maxTextConfig 2) docCut 103 (by decide)⟩


/-- The weighted text depends on the name, the namespace and the tags only through the
fields whose boost is positive. -/
theorem buildWeightedDoc_congr (L : GoLib) (cfg : BM25Config) (d1 d2 : SearchDoc)
    (hname : 0 < cfg.NameBoost → d1.Summary.Name = d2.Summary.Name)
    (hns : 0 < cfg.NamespaceBoost → d1.Summary.Namespace = d2.Summary.Namespace)
    (htags : 0 < cfg.TagsBoost → d1.Summary.Tags = d2.Summary.Tags)
    (hbody : d1.DocText = d2.DocText) :
    buildWeightedDoc L cfg d1 = buildWeightedDoc L cfg d2 := by
  rw [buildWeightedDoc_unfold, buildWeightedDoc_unfold]
  have hb : specBody L cfg d1 = specBody L cfg d2 := by
    unfold specBody
    rw [hbody]
  unfold specFragments
  rw [hb]
  by_cases h1 : cfg.NameBoost > 0 <;> by_cases h2 : cfg.NamespaceBoost > 0 <;>
    by_cases h3 : cfg.TagsBoost > 0 <;>
    simp only [h1, h2, h3, if_true, if_false] <;>
    first
      | rfl
      | (try rw [hname h1]) <;> (try rw [hns h2]) <;> (try rw [htags h3])

/-- C26 as stated fails: a searcher made by `NewBM25Searcher` from a configuration with
all three boosts zero holds the default boosts 3, 2 and 2, and the weighted texts it
builds for two documents with the same body and different names differ: each starts with
three copies of the name. -/
theorem boost_zero_disables_counterexample :
    zeroConfig.NameBoost = 0 ∧ zeroConfig.NamespaceBoost = 0 ∧ zeroConfig.TagsBoost = 0 ∧
    (NewBM25Searcher zeroConfig).cfg.NameBoost = 3 ∧
    docNamed1.DocText = docNamed2.DocText ∧
    buildWeightedDoc refLib (NewBM25Searcher zeroConfig).cfg docNamed1 =
      [110, 32, 110, 32, 110, 32, 32, 32, 103] ∧
    buildWeightedDoc refLib (NewBM25Searcher zeroConfig).cfg docNamed2 =
      [109, 32, 109, 32, 109, 32, 32, 32, 103] ∧
    ¬ (buildWeightedDoc refLib (NewBM25Searcher zeroConfig).cfg docNamed1 =
      buildWeightedDoc refLib (NewBM25Searcher zeroConfig).cfg docNamed2) := by
  refine ⟨rfl, rfl, rfl, by decide, rfl, by decide, by decide, by decide⟩

/-- C26 (amended). Setting a boost to a negative value disables the corresponding field,
and setting it to zero selects the default. For a searcher made by `NewBM25Searcher` from
a configuration with `NameBoost < 0` (respectively `NamespaceBoost < 0`, `TagsBoost < 0`),
the weighted text that the searcher builds for a document does not depend on the name
(respectively the namespace, the tags): two documents that differ only there get the same
text; with all three boosts negative, documents with identical bodies get identical
weighted texts, the body fragment alone. A boost of zero becomes 3, 2 and 2 in the
searcher. `buildWeightedDoc` itself treats every boost that is zero or negative in the
configuration it receives as disabled. -/
theorem boost_disabled (L : GoLib) (cfg : BM25Config) (d1 d2 : SearchDoc)
    (hbody : d1.DocText = d2.DocText) :
    (cfg.NameBoost < 0 → d1.Summary.Namespace = d2.Summary.Namespace →
      d1.Summary.Tags = d2.Summary.Tags →
      buildWeightedDoc L (NewBM25Searcher cfg).cfg d1 =
        buildWeightedDoc L (NewBM25Searcher cfg).cfg d2) ∧
    (cfg.NamespaceBoost < 0 → d1.Summary.Name = d2.Summary.Name →
      d1.Summary.Tags = d2.Summary.Tags →
      buildWeightedDoc L (NewBM25Searcher cfg).cfg d1 =
        buildWeightedDoc L (NewBM25Searcher cfg).cfg d2) ∧
    (cfg.TagsBoost < 0 → d1.Summary.Name = d2.Summary.Name →
      d1.Summary.Namespace = d2.Summary.Namespace →
      buildWeightedDoc L (NewBM25Searcher cfg).cfg d1 =
        buildWeightedDoc L (NewBM25Searcher cfg).cfg d2) ∧
    (cfg.NameBoost < 0 → cfg.NamespaceBoost < 0 → cfg.TagsBoost < 0 →
      buildWeightedDoc L (NewBM25Searcher cfg).cfg d1 =
        buildWeightedDoc L (NewBM25Searcher cfg).cfg d2 ∧
      buildWeightedDoc L (NewBM25Searcher cfg).cfg d1 =
        specBody L (NewBM25Searcher cfg).cfg d1) ∧
    (cfg.NameBoost = 0 → (NewBM25Searcher cfg).cfg.NameBoost = 3) ∧
    (cfg.NamespaceBoost = 0 → (NewBM25Searcher cfg).cfg.NamespaceBoost = 2) ∧
    (cfg.TagsBoost = 0 → (NewBM25Searcher cfg).cfg.TagsBoost = 2) ∧
    (cfg.NameBoost ≤ 0 → cfg.NamespaceBoost ≤ 0 → cfg.TagsBoost ≤ 0 →
      buildWeightedDoc L cfg d1 = buildWeightedDoc L cfg d2) := by
  have hcfg : (NewBM25Searcher cfg).cfg.NameBoost =
        (if cfg.NameBoost = 0 then 3 else cfg.NameBoost) ∧
      (NewBM25Searcher cfg).cfg.NamespaceBoost =
        (if cfg.NamespaceBoost = 0 then 2 else cfg.NamespaceBoost) ∧
      (NewBM25Searcher cfg).cfg.TagsBoost =
        (if cfg.TagsBoost = 0 then 2 else cfg.TagsBoost) := by
    unfold NewBM25Searcher
    by_cases h1 : cfg.NameBoost = 0 <;> by_cases h2 : cfg.NamespaceBoost = 0 <;>
      by_cases h3 : cfg.TagsBoost = 0 <;> simp [h1, h2, h3]
  obtain ⟨c1, c2, c3⟩ := hcfg
  have k1 : cfg.NameBoost < 0 → ¬ 0 < (NewBM25Searcher cfg).cfg.NameBoost := by
    intro h
    rw [c1, if_neg (ne_of_lt h)]
    omega
  have k2 : cfg.NamespaceBoost < 0 → ¬ 0 < (NewBM25Searcher cfg).cfg.NamespaceBoost := by
    intro h
    rw [c2, if_neg (ne_of_lt h)]
    omega
  have k3 : cfg.TagsBoost < 0 → ¬ 0 < (NewBM25Searcher cfg).cfg.TagsBoost := by
    intro h
    rw [c3, if_neg (ne_of_lt h)]
    omega
  refine ⟨?_, ?_, ?_, ?_, ?_, ?_, ?_, ?_⟩
  · intro h hns htags
    exact buildWeightedDoc_congr L _ d1 d2 (fun hp => absurd hp (k1 h)) (fun _ => hns)
      (fun _ => htags) hbody
  · intro h hname htags
    exact buildWeightedDoc_congr L _ d1 d2 (fun _ => hname) (fun hp => absurd hp (k2 h))
      (fun _ => htags) hbody
  · intro h hname hns
    exact buildWeightedDoc_congr L _ d1 d2 (fun _ => hname) (fun _ => hns)
      (fun hp => absurd hp (k3 h)) hbody
  · intro h1 h2 h3
    exact ⟨buildWeightedDoc_congr L _ d1 d2 (fun hp => absurd hp (k1 h1))
        (fun hp => absurd hp (k2 h2)) (fun hp => absurd hp (k3 h3)) hbody,
      buildWeightedDoc_body_only L _ d1 (not_lt.mp (k1 h1)) (not_lt.mp (k2 h2))
        (not_lt.mp (k3 h3))⟩
  · intro h
    rw [c1, if_pos h]
  · intro h
    rw [c2, if_pos h]
  · intro h
    rw [c3, if_pos h]
  · intro h1 h2 h3
    exact buildWeightedDoc_congr L cfg d1 d2 (fun hp => absurd hp (not_lt.mpr h1))
      (fun hp => absurd hp (not_lt.mpr h2)) (fun hp => absurd hp (not_lt.mpr h3)) hbody

/-- C26 (amended), at a concrete input: with every boost `-1` the two documents of the
counterexample get the same weighted text, the body `g`. -/
theorem boost_disabled_witness :
    docNamed1.DocText = docNamed2.DocText ∧
    negativeBoostConfig.NameBoost < 0 ∧ negativeBoostConfig.NamespaceBoost < 0 ∧
    negativeBoostConfig.TagsBoost < 0 ∧
    buildWeightedDoc refLib (NewBM25Searcher negativeBoostConfig).cfg docNamed1 = [103] ∧
    (buildWeightedDoc refLib (NewBM25Searcher negativeBoostConfig).cfg docNamed1 =
        buildWeightedDoc refLib (NewBM25Searcher negativeBoostConfig).cfg docNamed2 ∧
      buildWeightedDoc refLib (NewBM25Searcher negativeBoostConfig).cfg docNamed1 =
        specBody refLib (NewBM25Searcher negativeBoostConfig).cfg docNamed1) :=
  ⟨rfl, by decide, by decide, by decide, by decide,
    (boost_disabled refLib negativeBoostConfig docNamed1 docNamed2 rfl).2.2.2.1
      (by decide) (by decide) (by decide)⟩


/-! ## Counting a word in the weighted text -/

theorem countScan_nil (w : GoString) (k : Nat) : countScan w k [] = 0 := by
  cases k <;> rfl

theorem countScan_skip (w : GoString) (k : Nat) (c : Fin 256) (t : GoString) :
    countScan w (k + 1) (c :: t) = countScan w k t := rfl

theorem countScan_zero (w : GoString) (c : Fin 256) (t : GoString) :
    countScan w 0 (c :: t) =
      if (c :: t).take w.length = w then 1 + countScan w (w.length - 1) t
      else countScan w 0 t := rfl

theorem countScan_skip_all (w : GoString) :
    ∀ (t : GoString) (k : Nat), t.length ≤ k → countScan w k t = 0 := by
  intro t
  induction t with
  | nil => intro k _; exact countScan_nil w k
  | cons c t ih =>
    intro k hk
    cases k with
    | zero => simp at hk
    | succ k =>
      rw [countScan_skip]
      exact ih k (by simpa using hk)

theorem occurs_cons (w p : GoString) (c : Fin 256) (h : Occurs w p) : Occurs w (c :: p) := by
  obtain ⟨a, b, rfl⟩ := h
  exact ⟨c :: a, b, by simp⟩

theorem countScan_not_occurs (w : GoString) :
    ∀ (p : GoString) (k : Nat), ¬ Occurs w p → countScan w k p = 0 := by
  intro p
  induction p with
  | nil => intro k _; exact countScan_nil w k
  | cons c t ih =>
    intro k hno
    have hnot : ¬ Occurs w t := fun h => hno (occurs_cons w t c h)
    cases k with
    | succ k =>
      rw [countScan_skip]
      exact ih k hnot
    | zero =>
      rw [countScan_zero]
      split
      · rename_i htake
        exfalso
        apply hno
        refine ⟨[], (c :: t).drop w.length, ?_⟩
        rw [List.nil_append]
        nth_rewrite 1 [← htake]
        exact (List.take_append_drop _ _).symm
      · exact ih 0 hnot

theorem countScan_self (w : GoString) (hw : w ≠ []) : countScan w 0 w = 1 := by
  cases w with
  | nil => exact absurd rfl hw
  | cons c t =>
    rw [countScan_zero, if_pos (List.take_length _)]
    rw [countScan_skip_all (c :: t) t _ (by simp)]

/-- A word without a space cannot lie across a space: counting it in `q`, a space and
`rest` is counting it in `q` and in `rest`. -/
theorem countScan_append_space (w : GoString) (hw : w ≠ []) (hsp : (32 : Fin 256) ∉ w)
    (rest : GoString) :
    ∀ (q : GoString) (k : Nat), k ≤ q.length →
      countScan w k (q ++ 32 :: rest) = countScan w k q + countScan w 0 rest := by
  intro q
  induction q with
  | nil =>
    intro k hk
    have hk0 : k = 0 := by simpa using hk
    subst hk0
    rw [List.nil_append, countScan_zero, countScan_nil, Nat.zero_add]
    have hne : ¬ ((32 : Fin 256) :: rest).take w.length = w := by
      intro h
      cases w with
      | nil => exact hw rfl
      | cons c t =>
        simp only [List.length_cons, List.take_succ_cons, List.cons.injEq] at h
        exact hsp (by rw [← h.1]; exact List.mem_cons_self _ _)
    rw [if_neg hne]
  | cons c t ih =>
    intro k hk
    cases k with
    | succ k =>
      rw [List.cons_append, countScan_skip, countScan_skip]
      exact ih k (by simpa using hk)
    | zero =>
      rw [List.cons_append, countScan_zero, countScan_zero]
      by_cases hlen : w.length ≤ (c :: t).length
      · have htake : (c :: (t ++ 32 :: rest)).take w.length = (c :: t).take w.length := by
          rw [← List.cons_append, List.take_append_of_le_length hlen]
        rw [htake]
        by_cases hB : (c :: t).take w.length = w
        · rw [if_pos hB, if_pos hB, ih (w.length - 1) (by simp at hlen; omega)]
          omega
        · rw [if_neg hB, if_neg hB, ih 0 (Nat.zero_le _)]
      · have hA : ¬ (c :: (t ++ 32 :: rest)).take w.length = w := by
          intro h
          apply hsp
          rw [← h, ← List.cons_append, List.take_append_eq_append_take]
          apply List.mem_append_right
          have : w.length - (c :: t).length = (w.length - (c :: t).length - 1) + 1 := by omega
          rw [this, List.take_succ_cons]
          exact List.mem_cons_self _ _
        have hB : ¬ (c :: t).take w.length = w := by
          intro h
          apply hlen
          have := congrArg List.length h
          rw [List.length_take] at this
          omega
        rw [if_neg hA, if_neg hB, ih 0 (Nat.zero_le _)]

/-- The count of a non-empty word without a space in a single-space join is the sum of
its counts in the parts. -/
theorem stringsCount_join (w : GoString) (hw : w ≠ []) (hsp : (32 : Fin 256) ∉ w) :
    ∀ (ps : List GoString),
      stringsCount (stringsJoin ps [32]) w = (ps.map fun p => stringsCount p w).sum := by
  intro ps
  induction ps with
  | nil => simp [stringsJoin_nil, stringsCount, countScan_nil]
  | cons p t ih =>
    cases t with
    | nil => simp [stringsJoin_single]
    | cons q u =>
      rw [stringsJoin_cons_cons]
      unfold stringsCount at ih ⊢
      rw [List.append_assoc, List.singleton_append,
        countScan_append_space w hw hsp _ p 0 (Nat.zero_le _), ih]
      simp

theorem sum_count_replicate (w x : GoString) (n : Nat) :
    ((List.replicate n x).map fun p => stringsCount p w).sum = n * stringsCount x w := by
  induction n with
  | zero => simp
  | succ n ih =>
    rw [List.replicate_succ, List.map_cons, List.sum_cons, ih]
    ring

theorem sum_count_tags (L : GoLib) (w : GoString) (n : Nat) :
    ∀ (tags : List GoString), (∀ u ∈ tags, ¬ Occurs w (L.toLower u)) →
      (((tags.map fun tag => List.replicate n (L.toLower tag)).flatten).map
        fun p => stringsCount p w).sum = 0 := by
  intro tags
  induction tags with
  | nil => intro _; simp
  | cons t rest ih =>
    intro h
    rw [List.map_cons, List.flatten_cons, List.map_append, List.sum_append,
      sum_count_replicate, ih (fun u hu => h u (List.mem_cons_of_mem _ hu))]
    unfold stringsCount
    rw [countScan_not_occurs w _ 0 (h t (List.mem_cons_self _ _))]
    simp


theorem specBody_of_empty_body (L : GoLib) (cfg : BM25Config) (doc : SearchDoc)
    (hbody : doc.DocText = []) : specBody L cfg doc = [] := by
  unfold specBody
  rw [hbody, (L.toLower_eq_nil_iff []).mpr rfl]
  simp

/-- C21 as stated fails for tags: with the distinct space-free tags `a` and `ab` and
`TagsBoost = 2` the weighted text is `a a ab ab`, in which the tag `a` occurs 4 times,
not 2. -/
theorem weighted_text_counts_counterexample :
    docTagsAB.DocText = [] ∧ docTagsAB.Summary.Tags = [[97], [97, 98]] ∧
    buildWeightedDoc refLib (tagsOnlyConfig 2) docTagsAB =
      [97, 32, 97, 32, 97, 98, 32, 97, 98] ∧
    stringsCount (buildWeightedDoc refLib (tagsOnlyConfig 2) docTagsAB) (refLib.toLower [97]) = 4 ∧
    ¬ ∀ t ∈ docTagsAB.Summary.Tags,
      stringsCount (buildWeightedDoc refLib (tagsOnlyConfig 2) docTagsAB) (refLib.toLower t) =
        (2 : Int).toNat := by
  refine ⟨rfl, rfl, by decide, by decide, by decide⟩

/-- C21 (amended). For a document with an empty body: with `NameBoost = n > 0`, the other
boosts disabled and a non-empty name without a space, `buildWeightedDoc` returns exactly
`n` copies of the lower-cased name separated by single spaces, and the lower-cased name
occurs exactly `n` times (non-overlapping count) in the result; the same holds for the
namespace with `NamespaceBoost`; and with `TagsBoost = n > 0` and the other boosts
disabled the result is the single-space join of `n` copies of each lower-cased tag in
order, in which the lower-cased form of a non-empty tag without a space occurs exactly
`n` times provided it does not occur in the lower-cased form of any other tag of the
document. -/
theorem weighted_text_counts (L : GoLib) (cfg : BM25Config) (doc : SearchDoc)
    (hbody : doc.DocText = []) :
    (∀ n : Int, cfg.NameBoost = n → 0 < n → cfg.NamespaceBoost ≤ 0 → cfg.TagsBoost ≤ 0 →
      doc.Summary.Name ≠ [] → (32 : Fin 256) ∉ doc.Summary.Name →
      buildWeightedDoc L cfg doc =
        stringsJoin (List.replicate n.toNat (L.toLower doc.Summary.Name)) [32] ∧
      stringsCount (buildWeightedDoc L cfg doc) (L.toLower doc.Summary.Name) = n.toNat) ∧
    (∀ n : Int, cfg.NamespaceBoost = n → 0 < n → cfg.NameBoost ≤ 0 → cfg.TagsBoost ≤ 0 →
      doc.Summary.Namespace ≠ [] → (32 : Fin 256) ∉ doc.Summary.Namespace →
      buildWeightedDoc L cfg doc =
        stringsJoin (List.replicate n.toNat (L.toLower doc.Summary.Namespace)) [32] ∧
      stringsCount (buildWeightedDoc L cfg doc) (L.toLower doc.Summary.Namespace) = n.toNat) ∧
    (∀ n : Int, cfg.TagsBoost = n → 0 < n → cfg.NameBoost ≤ 0 → cfg.NamespaceBoost ≤ 0 →
      buildWeightedDoc L cfg doc =
        stringsJoin ((doc.Summary.Tags.map fun tag =>
          List.replicate n.toNat (L.toLower tag)).flatten) [32] ∧
      ∀ (pre : List GoString) (t : GoString) (post : List GoString),
        doc.Summary.Tags = pre ++ t :: post → t ≠ [] → (32 : Fin 256) ∉ t →
        (∀ u ∈ pre ++ post, ¬ Occurs (L.toLower t) (L.toLower u)) →
        stringsCount (buildWeightedDoc L cfg doc) (L.toLower t) = n.toNat) := by
  have hb := specBody_of_empty_body L cfg doc hbody
  refine ⟨?_, ?_, ?_⟩
  · intro n hn hpos hns htags hne hsp
    have heq : buildWeightedDoc L cfg doc =
        stringsJoin (List.replicate n.toNat (L.toLower doc.Summary.Name)) [32] := by
      rw [buildWeightedDoc_unfold]
      unfold specFragments
      simp [not_lt.mpr hns, not_lt.mpr htags, hb, hn, hpos]
    refine ⟨heq, ?_⟩
    have hw : L.toLower doc.Summary.Name ≠ [] :=
      fun h => hne ((L.toLower_eq_nil_iff _).mp h)
    rw [heq, stringsCount_join _ hw (L.toLower_no_space _ hsp), sum_count_replicate]
    unfold stringsCount
    rw [countScan_self _ hw, Nat.mul_one]
  · intro n hn hpos hname htags hne hsp
    have heq : buildWeightedDoc L cfg doc =
        stringsJoin (List.replicate n.toNat (L.toLower doc.Summary.Namespace)) [32] := by
      rw [buildWeightedDoc_unfold]
      unfold specFragments
      simp [not_lt.mpr hname, not_lt.mpr htags, hb, hn, hpos]
    refine ⟨heq, ?_⟩
    have hw : L.toLower doc.Summary.Namespace ≠ [] :=
      fun h => hne ((L.toLower_eq_nil_iff _).mp h)
    rw [heq, stringsCount_join _ hw (L.toLower_no_space _ hsp), sum_count_replicate]
    unfold stringsCount
    rw [countScan_self _ hw, Nat.mul_one]
  · intro n hn hpos hname hns
    have heq : buildWeightedDoc L cfg doc =
        stringsJoin ((doc.Summary.Tags.map fun tag =>
          List.replicate n.toNat (L.toLower tag)).flatten) [32] := by
      rw [buildWeightedDoc_unfold]
      unfold specFragments
      simp [not_lt.mpr hname, not_lt.mpr hns, hb, hn, hpos]
    refine ⟨heq, ?_⟩
    intro pre t post htags hne hsp hothers
    have hw : L.toLower t ≠ [] := fun h => hne ((L.toLower_eq_nil_iff _).mp h)
    rw [heq, stringsCount_join _ hw (L.toLower_no_space _ hsp), htags]
    rw [List.map_append, List.map_cons, List.flatten_append, List.flatten_cons,
      List.map_append, List.map_append, List.sum_append, List.sum_append,
      sum_count_tags L _ _ pre (fun u hu => hothers u (List.mem_append_left _ hu)),
      sum_count_tags L _ _ post (fun u hu => hothers u (List.mem_append_right _ hu)),
      sum_count_replicate]
    unfold stringsCount
    rw [countScan_self _ hw]
    omega

/-- C21 (amended), at a concrete input: the name `Git` with `NameBoost = 3` gives
`git git git`, in which `git` occurs 3 times. -/
theorem weighted_text_counts_witness :
    docGit.DocText = [] ∧ (nameOnlyConfig 3).NameBoost = 3 ∧ (0 : Int) < 3 ∧
    (nameOnlyConfig 3).NamespaceBoost ≤ 0 ∧ (nameOnlyConfig 3).TagsBoost ≤ 0 ∧
    docGit.Summary.Name ≠ [] ∧ (32 : Fin 256) ∉ docGit.Summary.Name ∧
    buildWeightedDoc refLib (nameOnlyConfig 3) docGit =
      [103, 105, 116, 32, 103, 105, 116, 32, 103, 105, 116] ∧
    (buildWeightedDoc refLib (nameOnlyConfig 3) docGit =
        stringsJoin (List.replicate (3 : Int).toNat (refLib.toLower docGit.Summary.Name)) [32] ∧
      stringsCount (buildWeightedDoc refLib (nameOnlyConfig 3) docGit)
        (refLib.toLower docGit.Summary.Name) = (3 : Int).toNat) :=
  ⟨rfl, rfl, by decide, by decide, by decide, by decide, by decide, by decide,
    (weighted_text_counts refLib (nameOnlyConfig 3) docGit rfl).1 3 rfl (by decide)
      (by decide) (by decide) (by decide) (by decide)⟩


/-! ## The phases of a rebuild -/

/-- `rebuildIndex` is the build phase followed, when it succeeds, by the install phase. -/
theorem rebuildIndex_eq_build {ε σ : Type} (L : GoLib) (E : Engine ε σ) (s : BM25Searcher)
    (w : World ε) (docs : List SearchDoc) (fingerprint : GoString) :
    rebuildIndex L E s w docs fingerprint =
      match buildNewIndex L E s.cfg w docs with
      | (Except.error err, w1) => (some err, s, w1)
      | (Except.ok (h, idToSummary, batch), w1) =>
        installIndex E s w1 ⟨h, batch⟩ idToSummary fingerprint := by
  unfold rebuildIndex buildNewIndex
  split
  · rfl
  · split
    · rfl
    · split <;> rename_i heq <;> simp only [heq]

/-- The install phase leaves the searcher as it is, or reports no error. -/
theorem installIndex_cases {ε σ : Type} (E : Engine ε σ) (s : BM25Searcher)
    (w : World ε) (index : Index) (m : List (GoString × Summary)) (fingerprint : GoString) :
    (installIndex E s w index m fingerprint).2.1 = s ∨
      (installIndex E s w index m fingerprint).1 = none := by
  unfold installIndex
  split
  · split
    · exact Or.inl rfl
    · exact Or.inl rfl
  · split
    · split
      · split
        · exact Or.inl rfl
        · exact Or.inl rfl
      · exact Or.inr rfl
    · exact Or.inr rfl

/-- The install phase leaves the searcher as it is whenever it reports an error. -/
theorem installIndex_error_state {ε σ : Type} (E : Engine ε σ) (s : BM25Searcher)
    (w : World ε) (index : Index) (m : List (GoString × Summary)) (fingerprint : GoString)
    (e : GoError) (h : (installIndex E s w index m fingerprint).1 = some e) :
    (installIndex E s w index m fingerprint).2.1 = s := by
  rcases installIndex_cases E s w index m fingerprint with h1 | h1
  · exact h1
  · rw [h1] at h
    simp at h

/-- `rebuildIndex` leaves the searcher as it is whenever it reports an error. -/
theorem rebuildIndex_error_state {ε σ : Type} (L : GoLib) (E : Engine ε σ) (s : BM25Searcher)
    (w : World ε) (docs : List SearchDoc) (fingerprint : GoString) (e : GoError)
    (h : (rebuildIndex L E s w docs fingerprint).1 = some e) :
    (rebuildIndex L E s w docs fingerprint).2.1 = s := by
  rw [rebuildIndex_eq_build] at h ⊢
  split
  · rfl
  · rename_i hd m b w1 heq
    rw [heq] at h
    exact installIndex_error_state E s w1 _ _ fingerprint e h

/-- A ranked search is `ensureIndex` followed by the query on the current index. -/
theorem Search_eq_ensure {ε σ : Type} [LinearOrder σ] (L : GoLib) (E : Engine ε σ)
    (s : BM25Searcher) (w : World ε) (query : GoString) (limit : Int) (docs : List SearchDoc)
    (hq : L.trimSpace query ≠ []) (hd : sortedDocs L s.cfg docs ≠ []) :
    Search L E s w query limit docs =
      match ensureIndex L E s w (sortedDocs L s.cfg docs) with
      | (some err, s1, w1) => ⟨SearchResult.error err, s1, w1⟩
      | (none, s1, w1) =>
        match s1.index with
        | none => ⟨SearchResult.panic, s1, w1⟩
        | some index =>
          match World.search E w1 index (L.toLower (L.trimSpace query))
              (sortedDocs L s.cfg docs).length with
          | (Except.error err, w2) => ⟨SearchResult.error err, s1, w2⟩
          | (Except.ok raw, w2) => ⟨finishSearch L s1.idToSummary limit raw, s1, w2⟩ := by
  have hlen : ¬ (sortedDocs L s.cfg docs).length = 0 := by
    simpa [List.length_eq_zero] using hd
  unfold Search ensureIndex
  simp only [hq, hlen, if_false]

/-- A successful build phase returns the map and the batch of the documents, and makes
no call that closes an index. -/
theorem buildNewIndex_ok {ε σ : Type} (L : GoLib) (E : Engine ε σ) (cfg : BM25Config)
    (w : World ε) (docs : List SearchDoc) (h : Nat) (m : List (GoString × Summary))
    (b : List (GoString × GoString))
    (hok : (buildNewIndex L E cfg w docs).1 = Except.ok (h, m, b)) :
    m = summaryMap docs ∧ b = docs.map (batchEntry L cfg) ∧
    (E.newMemOnly w.eng).1 = Except.ok h ∧
    ∃ calls, (buildNewIndex L E cfg w docs).2.trace =
        w.trace ++ EngineCall.newMemOnly :: (calls ++ [EngineCall.batch h b]) ∧
      ∀ c ∈ calls, ∃ d ∈ docs, c = EngineCall.batchIndex h d.ID (buildWeightedDoc L cfg d) := by
  unfold buildNewIndex at hok ⊢
  split at hok
  · simp at hok
  · rename_i h0 w1 heq
    simp only [World.newMemOnly, Prod.mk.injEq] at heq
    obtain ⟨⟨calls, htr, hcalls⟩, hspec⟩ := indexDocs_spec L E cfg h0 docs [] [] w1
    simp only [World.newMemOnly] 
    split at hok
    · simp at hok
    · rename_i m0 b0 w2 heq2
      have heq2' := heq2
      simp only [World.newMemOnly, heq.2] at heq2'
      rw [heq2] at htr hspec
      obtain ⟨hm, hb⟩ := hspec m0 b0 rfl
      simp only [List.append_nil, List.nil_append] at hm hb
      split at hok
      · simp at hok
      · rename_i w3 heq3
        simp only [Except.ok.injEq, Prod.mk.injEq] at hok
        obtain ⟨rfl, rfl, rfl⟩ := hok
        simp only [World.batch, Prod.mk.injEq] at heq3
        refine ⟨hm, hb, heq.1, calls, ?_, ?_⟩
        · rw [← heq3.2]
          simp only at htr ⊢
          rw [htr, ← heq.2]
          simp
        · intro c hc
          exact hcalls c hc


/-! ## Failures during a rebuild -/

theorem closeAfter_spec {ε σ : Type} (E : Engine ε σ) (w : World ε) (h : Nat) (err : GoError) :
    (closeAfter E w h err).2 = ⟨(E.close w.eng h).2, w.trace ++ [EngineCall.close h]⟩ ∧
    (((E.close w.eng h).1 = none ∧ (closeAfter E w h err).1 = err) ∨
      ∃ cerr, (E.close w.eng h).1 = some cerr ∧
        (closeAfter E w h err).1 = GoError.wrapClose err cerr) := by
  unfold closeAfter World.close
  cases hc : (E.close w.eng h).1 with
  | none => simp [hc]
  | some cerr => simp [hc]

/-- When `rebuildIndex` fails, the `Search` that triggered it returns its error, leaves
the searcher as it is and makes no further call to the engine. -/
theorem Search_rebuild_error {ε σ : Type} [LinearOrder σ] (L : GoLib) (E : Engine ε σ)
    (s : BM25Searcher) (w : World ε) (query : GoString) (limit : Int) (docs : List SearchDoc)
    (e : GoError) (hq : L.trimSpace query ≠ []) (hd : sortedDocs L s.cfg docs ≠ [])
    (hmiss : s.index = none ∨
      s.lastFingerprint ≠ computeFingerprint L (sortedDocs L s.cfg docs))
    (herr : (rebuildIndex L E s w (sortedDocs L s.cfg docs)
      (computeFingerprint L (sortedDocs L s.cfg docs))).1 = some e) :
    Search L E s w query limit docs =
      ⟨SearchResult.error e, s,
        (rebuildIndex L E s w (sortedDocs L s.cfg docs)
          (computeFingerprint L (sortedDocs L s.cfg docs))).2.2⟩ := by
  have hstate := rebuildIndex_error_state L E s w _ _ e herr
  have hnr : (s.index.isNone ||
      decide (s.lastFingerprint ≠ computeFingerprint L (sortedDocs L s.cfg docs))) = true := by
    rcases hmiss with h | h
    · simp [h]
    · simp [h]
  rw [Search_eq_ensure L E s w query limit docs hq hd]
  unfold ensureIndex
  rw [if_pos hnr]
  generalize rebuildIndex L E s w (sortedDocs L s.cfg docs)
    (computeFingerprint L (sortedDocs L s.cfg docs)) = r at herr hstate
  obtain ⟨r1, r2, r3⟩ := r
  simp only at herr hstate
  subst herr hstate
  rfl

/-- C27. If, during a rebuild, the engine fails to construct the new index, or to ingest
a document, or to execute the batch, then `rebuildIndex` returns an error and leaves the
searcher exactly as it was: the same index, mapping, fingerprint and build count. When
the construction fails no index exists and the error is the engine's. When an ingestion
or the batch fails the new index is closed as the last call, the error is the engine's
or wraps it together with the error of that close, and the calls made are the
construction, the ingestions on the new index, the batch if it was reached, and the close
of the new index: the prior index is not closed. The `Search` that triggered a failed
rebuild returns the same error, no results, and the searcher unchanged. -/
theorem rebuild_failure_keeps_state {ε σ : Type} [LinearOrder σ] (L : GoLib)
    (E : Engine ε σ) (s : BM25Searcher) (w : World ε) (docs : List SearchDoc)
    (fingerprint : GoString) :
    (∀ err, (E.newMemOnly w.eng).1 = Except.error err →
      rebuildIndex L E s w docs fingerprint =
        (some err, s, ⟨(E.newMemOnly w.eng).2, w.trace ++ [EngineCall.newMemOnly]⟩)) ∧
    (∀ (h : Nat) (err : GoError) (w2 : World ε), (E.newMemOnly w.eng).1 = Except.ok h →
      indexDocs L E s.cfg h docs [] []
        ⟨(E.newMemOnly w.eng).2, w.trace ++ [EngineCall.newMemOnly]⟩ = (Except.error err, w2) →
      (rebuildIndex L E s w docs fingerprint).2.1 = s ∧
      (rebuildIndex L E s w docs fingerprint).2.2 =
        ⟨(E.close w2.eng h).2, w2.trace ++ [EngineCall.close h]⟩ ∧
      (((E.close w2.eng h).1 = none ∧
          (rebuildIndex L E s w docs fingerprint).1 = some err) ∨
        ∃ cerr, (E.close w2.eng h).1 = some cerr ∧
          (rebuildIndex L E s w docs fingerprint).1 = some (GoError.wrapClose err cerr)) ∧
      ∃ calls, w2.trace = w.trace ++ EngineCall.newMemOnly :: calls ∧
        ∀ c ∈ calls, ∃ d ∈ docs,
          c = EngineCall.batchIndex h d.ID (buildWeightedDoc L s.cfg d)) ∧
    (∀ (h : Nat) (m : List (GoString × Summary)) (b : List (GoString × GoString))
        (err : GoError) (w2 : World ε), (E.newMemOnly w.eng).1 = Except.ok h →
      indexDocs L E s.cfg h docs [] []
        ⟨(E.newMemOnly w.eng).2, w.trace ++ [EngineCall.newMemOnly]⟩ = (Except.ok (m, b), w2) →
      (E.batch w2.eng h b).1 = some err →
      (rebuildIndex L E s w docs fingerprint).2.1 = s ∧
      (rebuildIndex L E s w docs fingerprint).2.2 =
        ⟨(E.close (E.batch w2.eng h b).2 h).2,
          w2.trace ++ [EngineCall.batch h b, EngineCall.close h]⟩ ∧
      (((E.close (E.batch w2.eng h b).2 h).1 = none ∧
          (rebuildIndex L E s w docs fingerprint).1 = some err) ∨
        ∃ cerr, (E.close (E.batch w2.eng h b).2 h).1 = some cerr ∧
          (rebuildIndex L E s w docs fingerprint).1 = some (GoError.wrapClose err cerr)) ∧
      ∃ calls, w2.trace = w.trace ++ EngineCall.newMemOnly :: calls ∧
        ∀ c ∈ calls, ∃ d ∈ docs,
          c = EngineCall.batchIndex h d.ID (buildWeightedDoc L s.cfg d)) ∧
    (∀ e, (rebuildIndex L E s w docs fingerprint).1 = some e →
      (rebuildIndex L E s w docs fingerprint).2.1 = s ∧
      ∀ (query : GoString) (limit : Int) (docs0 : List SearchDoc),
        L.trimSpace query ≠ [] → sortedDocs L s.cfg docs0 = docs → docs ≠ [] →
        fingerprint = computeFingerprint L docs →
        (s.index = none ∨ s.lastFingerprint ≠ fingerprint) →
        Search L E s w query limit docs0 =
          ⟨SearchResult.error e, s, (rebuildIndex L E s w docs fingerprint).2.2⟩) := by
  refine ⟨?_, ?_, ?_, ?_⟩
  · intro err hnew
    unfold rebuildIndex
    simp only [World.newMemOnly, hnew]
  · intro h err w2 hnew hidx
    obtain ⟨⟨calls, htr, hcalls⟩, _⟩ := indexDocs_spec L E s.cfg h docs [] []
      ⟨(E.newMemOnly w.eng).2, w.trace ++ [EngineCall.newMemOnly]⟩
    rw [hidx] at htr
    have hreb : rebuildIndex L E s w docs fingerprint =
        (some (closeAfter E w2 h err).1, s, (closeAfter E w2 h err).2) := by
      unfold rebuildIndex
      simp only [World.newMemOnly, hnew, hidx]
    obtain ⟨hc2, hc1⟩ := closeAfter_spec E w2 h err
    rw [hreb]
    refine ⟨rfl, hc2, ?_, calls, by simpa using htr, hcalls⟩
    rcases hc1 with ⟨h1, h2⟩ | ⟨cerr, h1, h2⟩
    · exact Or.inl ⟨h1, by simp only [h2]⟩
    · exact Or.inr ⟨cerr, h1, by simp only [h2]⟩
  · intro h m b err w2 hnew hidx hbatch
    obtain ⟨⟨calls, htr, hcalls⟩, _⟩ := indexDocs_spec L E s.cfg h docs [] []
      ⟨(E.newMemOnly w.eng).2, w.trace ++ [EngineCall.newMemOnly]⟩
    rw [hidx] at htr
    have hreb : rebuildIndex L E s w docs fingerprint =
        (some (closeAfter E ⟨(E.batch w2.eng h b).2, w2.trace ++ [EngineCall.batch h b]⟩
            h err).1, s,
          (closeAfter E ⟨(E.batch w2.eng h b).2, w2.trace ++ [EngineCall.batch h b]⟩
            h err).2) := by
      unfold rebuildIndex
      simp only [World.newMemOnly, hnew, hidx, World.batch, hbatch]
    obtain ⟨hc2, hc1⟩ := closeAfter_spec E
      ⟨(E.batch w2.eng h b).2, w2.trace ++ [EngineCall.batch h b]⟩ h err
    rw [hreb]
    refine ⟨rfl, ?_, ?_, calls, by simpa using htr, hcalls⟩
    · rw [hc2]
      simp
    · rcases hc1 with ⟨h1, h2⟩ | ⟨cerr, h1, h2⟩
      · exact Or.inl ⟨h1, by simp only [h2]⟩
      · exact Or.inr ⟨cerr, h1, by simp only [h2]⟩
  · intro e herr
    refine ⟨rebuildIndex_error_state L E s w docs fingerprint e herr, ?_⟩
    intro query limit docs0 hq hpool hne hfp hmiss
    subst hpool hfp
    exact Search_rebuild_error L E s w query limit docs0 e hq hne hmiss herr


/-- C27, at a concrete input: a searcher that holds an index, and an engine on which the
ingestion of the document `b` fails. The search returns the engine's error, the searcher
is unchanged, and the calls made are the construction, two ingestions on the new index
and the close of the new index. -/
theorem rebuild_failure_keeps_state_witness :
    (rebuildIndex refLib ingestFailEngine searcherABC worldABC [docA, docB]
        (computeFingerprint refLib [docA, docB])).1 = some (GoError.engine 7) ∧
    searcherABC.index ≠ none ∧
    (Search refLib ingestFailEngine searcherABC worldABC [103] 10 [docB, docA]).world.trace =
      worldABC.trace ++
        [EngineCall.newMemOnly,
          EngineCall.batchIndex 1 [97] (buildWeightedDoc refLib searcherABC.cfg docA),
          EngineCall.batchIndex 1 [98] (buildWeightedDoc refLib searcherABC.cfg docB),
          EngineCall.close 1] ∧
    Search refLib ingestFailEngine searcherABC worldABC [103] 10 [docB, docA] =
      ⟨SearchResult.error (GoError.engine 7), searcherABC,
        (rebuildIndex refLib ingestFailEngine searcherABC worldABC [docA, docB]
          (computeFingerprint refLib [docA, docB])).2.2⟩ :=
  ⟨by decide, by decide, by decide,
    ((rebuild_failure_keeps_state refLib ingestFailEngine searcherABC worldABC [docA, docB]
      (computeFingerprint refLib [docA, docB])).2.2.2 (GoError.engine 7) (by decide)).2
      [103] 10 [docB, docA] (by decide) (by decide) (by decide) rfl (by decide)⟩

/-! ## Failures while installing -/

/-- C28 as stated fails. The searcher holds the index with handle 0; `rebuildIndex` builds
a new index (handle 1) for another fingerprint and the close of the old index fails. The
call reports the error, closes the new index as well, and the searcher still holds the old
index, mapping and fingerprint: the new index has not become current. -/
theorem close_failure_counterexample :
    searcherABC.lastFingerprint ≠ computeFingerprint refLib [docA] ∧
    (buildNewIndex refLib closeFailEngine searcherABC.cfg worldABC [docA]).1 =
      Except.ok (1, summaryMap [docA], [docA].map (batchEntry refLib searcherABC.cfg)) ∧
    (rebuildIndex refLib closeFailEngine searcherABC worldABC [docA]
        (computeFingerprint refLib [docA])).1 = some (GoError.closeOld (GoError.engine 9)) ∧
    (rebuildIndex refLib closeFailEngine searcherABC worldABC [docA]
        (computeFingerprint refLib [docA])).2.1 = searcherABC ∧
    ¬ ((rebuildIndex refLib closeFailEngine searcherABC worldABC [docA]
        (computeFingerprint refLib [docA])).2.1.index =
          some ⟨1, [docA].map (batchEntry refLib searcherABC.cfg)⟩ ∧
      (rebuildIndex refLib closeFailEngine searcherABC worldABC [docA]
        (computeFingerprint refLib [docA])).2.1.idToSummary = some (summaryMap [docA]) ∧
      (rebuildIndex refLib closeFailEngine searcherABC worldABC [docA]
        (computeFingerprint refLib [docA])).2.1.lastFingerprint =
          computeFingerprint refLib [docA]) := by
  refine ⟨by decide, rfl, by decide, by decide, by decide⟩

/-- C28 (amended). A resource-release failure on index replacement is reported and keeps
the new index from becoming current: whenever `rebuildIndex` has built a new index for a
fingerprint different from the cached one and closing the old index fails with `cerr`, the
call closes the new index as well, as its last two calls, and reports an error. When the
close of the new index succeeds, the error is `close old index: cerr`, which unwraps to
`cerr`. When it fails too, with `nerr`, the error is
`close old index: cerr; close new index: nerr`: its message contains the messages of both
close errors and it unwraps to neither. Afterwards the searcher is as before: its index,
mapping, fingerprint and build count are those of the old index. -/
theorem close_failure_keeps_old_index {ε σ : Type} (L : GoLib) (E : Engine ε σ)
    (s : BM25Searcher) (w : World ε) (docs : List SearchDoc) (fingerprint : GoString)
    (engMsg : Nat → GoString)
    (h : Nat) (m : List (GoString × Summary)) (b : List (GoString × GoString))
    (old : Index) (cerr : GoError)
    (hbuild : (buildNewIndex L E s.cfg w docs).1 = Except.ok (h, m, b))
    (hfp : s.lastFingerprint ≠ fingerprint) (hold : s.index = some old)
    (hclose : (E.close (buildNewIndex L E s.cfg w docs).2.eng old.handle).1 = some cerr) :
    (rebuildIndex L E s w docs fingerprint).2.1 = s ∧
    (rebuildIndex L E s w docs fingerprint).2.2.trace =
      (buildNewIndex L E s.cfg w docs).2.trace ++
        [EngineCall.close old.handle, EngineCall.close h] ∧
    (((E.close (E.close (buildNewIndex L E s.cfg w docs).2.eng old.handle).2 h).1 = none ∧
        (rebuildIndex L E s w docs fingerprint).1 = some (GoError.closeOld cerr)) ∨
      ∃ nerr, (E.close (E.close (buildNewIndex L E s.cfg w docs).2.eng old.handle).2 h).1 =
          some nerr ∧
        (rebuildIndex L E s w docs fingerprint).1 = some (GoError.closeOldNew cerr nerr)) ∧
    ∃ r, (rebuildIndex L E s w docs fingerprint).1 = some r ∧
      ((E.close (E.close (buildNewIndex L E s.cfg w docs).2.eng old.handle).2 h).1 = none →
        r.Unwrap = some cerr ∧
        r.Error engMsg =
          [99, 108, 111, 115, 101, 32, 111, 108, 100, 32, 105, 110, 100, 101, 120, 58, 32] ++
            cerr.Error engMsg) ∧
      (∀ nerr, (E.close (E.close (buildNewIndex L E s.cfg w docs).2.eng old.handle).2 h).1 =
          some nerr →
        r.Unwrap = none ∧
        r.Error engMsg =
          [99, 108, 111, 115, 101, 32, 111, 108, 100, 32, 105, 110, 100, 101, 120, 58, 32] ++
            cerr.Error engMsg ++
            [59, 32, 99, 108, 111, 115, 101, 32, 110, 101, 119, 32, 105, 110, 100, 101, 120,
              58, 32] ++ nerr.Error engMsg ∧
        Occurs (cerr.Error engMsg) (r.Error engMsg) ∧
        Occurs (nerr.Error engMsg) (r.Error engMsg)) := by
  rw [rebuildIndex_eq_build]
  generalize buildNewIndex L E s.cfg w docs = r at hbuild hclose
  obtain ⟨r1, w1⟩ := r
  simp only at hbuild hclose
  subst hbuild
  simp only
  unfold installIndex
  simp only [hfp, if_false, hold, World.close, hclose]
  cases hn : (E.close (E.close w1.eng old.handle).2 h).1 with
  | none =>
    refine ⟨rfl, by simp, Or.inl ⟨rfl, rfl⟩, GoError.closeOld cerr, rfl, ?_, ?_⟩
    · intro _
      exact ⟨rfl, rfl⟩
    · intro nerr hne
      exact absurd hne (by simp)
  | some nerr =>
    refine ⟨rfl, by simp, Or.inr ⟨nerr, rfl, rfl⟩, GoError.closeOldNew cerr nerr, rfl, ?_, ?_⟩
    · intro hne
      exact absurd hne (by simp)
    · intro nerr2 hne
      obtain rfl := Option.some.inj hne
      refine ⟨rfl, rfl, ?_, ?_⟩
      · exact ⟨[99, 108, 111, 115, 101, 32, 111, 108, 100, 32, 105, 110, 100, 101, 120, 58, 32],
          [59, 32, 99, 108, 111, 115, 101, 32, 110, 101, 119, 32, 105, 110, 100, 101, 120,
            58, 32] ++ GoError.Error engMsg nerr, by simp [GoError.Error]⟩
      · exact ⟨[99, 108, 111, 115, 101, 32, 111, 108, 100, 32, 105, 110, 100, 101, 120, 58, 32]
          ++ GoError.Error engMsg cerr ++
          [59, 32, 99, 108, 111, 115, 101, 32, 110, 101, 119, 32, 105, 110, 100, 101, 120,
            58, 32], [], by simp [GoError.Error]⟩

/-- C28 (amended), at the input of the counterexample: the close of the old index fails
with error 9 and the close of the new index succeeds, so the error is
`close old index: ` followed by the message of error 9, it unwraps to error 9, and the
searcher is unchanged. -/
theorem close_failure_keeps_old_index_witness :
    (buildNewIndex refLib closeFailEngine searcherABC.cfg worldABC [docA]).1 =
      Except.ok (1, summaryMap [docA], [docA].map (batchEntry refLib searcherABC.cfg)) ∧
    searcherABC.lastFingerprint ≠ computeFingerprint refLib [docA] ∧
    searcherABC.index = some ⟨0, [docA, docB, docC].map (batchEntry refLib searcherABC.cfg)⟩ ∧
    (closeFailEngine.close
      (buildNewIndex refLib closeFailEngine searcherABC.cfg worldABC [docA]).2.eng 0).1 =
        some (GoError.engine 9) ∧
    (rebuildIndex refLib closeFailEngine searcherABC worldABC [docA]
        (computeFingerprint refLib [docA])).2.1 = searcherABC ∧
    (rebuildIndex refLib closeFailEngine searcherABC worldABC [docA]
        (computeFingerprint refLib [docA])).1 = some (GoError.closeOld (GoError.engine 9)) ∧
    (GoError.closeOld (GoError.engine 9)).Unwrap = some (GoError.engine 9) ∧
    (GoError.closeOld (GoError.engine 9)).Error sampleMsg =
      [99, 108, 111, 115, 101, 32, 111, 108, 100, 32, 105, 110, 100, 101, 120, 58, 32, 9] :=
  ⟨rfl, by decide, by decide, by decide,
    (close_failure_keeps_old_index refLib closeFailEngine searcherABC worldABC [docA]
      (computeFingerprint refLib [docA]) sampleMsg 1 (summaryMap [docA])
      ([docA].map (batchEntry refLib searcherABC.cfg))
      ⟨0, [docA, docB, docC].map (batchEntry refLib searcherABC.cfg)⟩ (GoError.engine 9)
      rfl (by decide) (by decide) (by decide)).1,
    by decide, by decide, by decide⟩


/-! ## Errors of Search -/

theorem emptyQueryResult_not_error (limit : Int) (ds : List SearchDoc) (e : GoError) :
    emptyQueryResult limit ds ≠ SearchResult.error e := by
  unfold emptyQueryResult
  simp only
  split <;> split <;> simp

theorem finishSearch_not_error {σ : Type} [LinearOrder σ] (L : GoLib)
    (m : Option (List (GoString × Summary))) (limit : Int) (raw : List (Hit σ))
    (e : GoError) : finishSearch L m limit raw ≠ SearchResult.error e := by
  unfold finishSearch
  simp only
  split
  · split <;> simp
  · simp

theorem ensureIndex_error {ε σ : Type} (L : GoLib) (E : Engine ε σ) (s : BM25Searcher)
    (w : World ε) (pool : List SearchDoc) (e : GoError)
    (h : (ensureIndex L E s w pool).1 = some e) :
    (s.index = none ∨ s.lastFingerprint ≠ computeFingerprint L pool) ∧
    (rebuildIndex L E s w pool (computeFingerprint L pool)).1 = some e := by
  unfold ensureIndex at h
  split at h
  · rename_i hnr
    refine ⟨?_, h⟩
    simp only [Bool.or_eq_true, Option.isNone_iff_eq_none, decide_eq_true_eq] at hnr
    exact hnr
  · simp at h

/-- C29. When the engine's query execution fails during `Search`, `Search` returns
exactly the engine's error value, not wrapped, and no result sequence; and `Search`
returns an error only on the ranked path, and only if the rebuild it triggered failed
with that error or the engine query failed with that error. -/
theorem search_error_sources {ε σ : Type} [LinearOrder σ] (L : GoLib) (E : Engine ε σ)
    (s : BM25Searcher) (w : World ε) (query : GoString) (limit : Int)
    (docs : List SearchDoc) :
    (∀ (s1 : BM25Searcher) (w1 : World ε) (index : Index) (err : GoError),
      L.trimSpace query ≠ [] → sortedDocs L s.cfg docs ≠ [] →
      ensureIndex L E s w (sortedDocs L s.cfg docs) = (none, s1, w1) →
      s1.index = some index →
      (E.search w1.eng index (L.toLower (L.trimSpace query))
        (sortedDocs L s.cfg docs).length).1 = Except.error err →
      Search L E s w query limit docs =
        ⟨SearchResult.error err, s1,
          ⟨(E.search w1.eng index (L.toLower (L.trimSpace query))
              (sortedDocs L s.cfg docs).length).2,
            w1.trace ++ [EngineCall.search index.handle (L.toLower (L.trimSpace query))
              (sortedDocs L s.cfg docs).length]⟩⟩) ∧
    (∀ e, (Search L E s w query limit docs).result = SearchResult.error e →
      L.trimSpace query ≠ [] ∧ sortedDocs L s.cfg docs ≠ [] ∧
      (((s.index = none ∨
            s.lastFingerprint ≠ computeFingerprint L (sortedDocs L s.cfg docs)) ∧
          (rebuildIndex L E s w (sortedDocs L s.cfg docs)
            (computeFingerprint L (sortedDocs L s.cfg docs))).1 = some e) ∨
        ∃ (s1 : BM25Searcher) (w1 : World ε) (index : Index),
          ensureIndex L E s w (sortedDocs L s.cfg docs) = (none, s1, w1) ∧
          s1.index = some index ∧
          (E.search w1.eng index (L.toLower (L.trimSpace query))
            (sortedDocs L s.cfg docs).length).1 = Except.error e)) := by
  constructor
  · intro s1 w1 index err hq hd hens hidx hsearch
    rw [Search_eq_ensure L E s w query limit docs hq hd, hens]
    simp only [hidx, World.search, hsearch]
  · intro e hres
    by_cases hq : L.trimSpace query = []
    · exfalso
      rw [Search_empty L E s w query limit docs hq] at hres
      exact emptyQueryResult_not_error _ _ e hres
    by_cases hd : sortedDocs L s.cfg docs = []
    · exfalso
      rw [Search_no_docs L E s w query limit docs hq hd] at hres
      simp at hres
    refine ⟨hq, hd, ?_⟩
    rw [Search_eq_ensure L E s w query limit docs hq hd] at hres
    have hens := ensureIndex_error L E s w (sortedDocs L s.cfg docs)
    generalize ensureIndex L E s w (sortedDocs L s.cfg docs) = r at hres hens
    obtain ⟨r1, s1, w1⟩ := r
    cases r1 with
    | some err =>
      simp only [SearchResult.error.injEq] at hres
      subst hres
      exact Or.inl (hens err rfl)
    | none =>
      simp only at hres
      cases hidx : s1.index with
      | none =>
        rw [hidx] at hres
        simp at hres
      | some index =>
        rw [hidx] at hres
        simp only [World.search] at hres
        cases hs : (E.search w1.eng index (L.toLower (L.trimSpace query))
            (sortedDocs L s.cfg docs).length).1 with
        | error err =>
          rw [hs] at hres
          simp only [SearchResult.error.injEq] at hres
          subst hres
          exact Or.inr ⟨s1, w1, index, rfl, hidx, hs⟩
        | ok raw =>
          rw [hs] at hres
          exact absurd hres (finishSearch_not_error L _ _ _ e)

/-- C29, at a concrete input: on an engine whose searches fail with error 4, a search on
a new searcher builds the index and returns exactly that error. -/
theorem search_error_sources_witness :
    (Search refLib searchFailEngine (NewBM25Searcher zeroConfig) world0 [103] 10
        [docC, docB, docA]).result = SearchResult.error (GoError.engine 4) ∧
    (refLib.trimSpace [103] ≠ [] ∧
      sortedDocs refLib (NewBM25Searcher zeroConfig).cfg [docC, docB, docA] ≠ [] ∧
      ((((NewBM25Searcher zeroConfig).index = none ∨
            (NewBM25Searcher zeroConfig).lastFingerprint ≠ computeFingerprint refLib
              (sortedDocs refLib (NewBM25Searcher zeroConfig).cfg [docC, docB, docA])) ∧
          (rebuildIndex refLib searchFailEngine (NewBM25Searcher zeroConfig) world0
            (sortedDocs refLib (NewBM25Searcher zeroConfig).cfg [docC, docB, docA])
            (computeFingerprint refLib
              (sortedDocs refLib (NewBM25Searcher zeroConfig).cfg [docC, docB, docA]))).1 =
            some (GoError.engine 4)) ∨
        ∃ (s1 : BM25Searcher) (w1 : World Nat) (index : Index),
          ensureIndex refLib searchFailEngine (NewBM25Searcher zeroConfig) world0
            (sortedDocs refLib (NewBM25Searcher zeroConfig).cfg [docC, docB, docA]) =
              (none, s1, w1) ∧
          s1.index = some index ∧
          (searchFailEngine.search w1.eng index (refLib.toLower (refLib.trimSpace [103]))
            (sortedDocs refLib (NewBM25Searcher zeroConfig).cfg
              [docC, docB, docA]).length).1 = Except.error (GoError.engine 4))) :=
  ⟨by decide,
    (search_error_sources refLib searchFailEngine (NewBM25Searcher zeroConfig) world0 [103] 10
      [docC, docB, docA]).2 (GoError.engine 4) (by decide)⟩


/-! ## Rebuilding for the cached fingerprint -/

/-- C30. Installing is idempotent per fingerprint: if `rebuildIndex` is invoked with a
fingerprint equal to the cached one, the searcher afterwards is as before: its index,
mapping, fingerprint and build count are unchanged. When the build of the private index
succeeds, that index is closed as the last call and is not installed; no other index is
closed, so the previously installed index is not closed; and the call reports no error
unless that close fails, in which case it reports an error wrapping the close error. -/
theorem rebuild_same_fingerprint_discards {ε σ : Type} (L : GoLib) (E : Engine ε σ)
    (s : BM25Searcher) (w : World ε) (docs : List SearchDoc) (fingerprint : GoString)
    (hfp : s.lastFingerprint = fingerprint) :
    (rebuildIndex L E s w docs fingerprint).2.1 = s ∧
    (rebuildIndex L E s w docs fingerprint).2.1.index = s.index ∧
    (rebuildIndex L E s w docs fingerprint).2.1.idToSummary = s.idToSummary ∧
    (rebuildIndex L E s w docs fingerprint).2.1.lastFingerprint = s.lastFingerprint ∧
    (rebuildIndex L E s w docs fingerprint).2.1.indexBuildCount = s.indexBuildCount ∧
    ∀ (h : Nat) (m : List (GoString × Summary)) (b : List (GoString × GoString)),
      (buildNewIndex L E s.cfg w docs).1 = Except.ok (h, m, b) →
      (rebuildIndex L E s w docs fingerprint).2.2 =
        ⟨(E.close (buildNewIndex L E s.cfg w docs).2.eng h).2,
          (buildNewIndex L E s.cfg w docs).2.trace ++ [EngineCall.close h]⟩ ∧
      (((E.close (buildNewIndex L E s.cfg w docs).2.eng h).1 = none ∧
          (rebuildIndex L E s w docs fingerprint).1 = none) ∨
        ∃ cerr, (E.close (buildNewIndex L E s.cfg w docs).2.eng h).1 = some cerr ∧
          (rebuildIndex L E s w docs fingerprint).1 = some (GoError.closeIndex cerr)) ∧
      ∃ calls, (rebuildIndex L E s w docs fingerprint).2.2.trace =
          w.trace ++ calls ++ [EngineCall.close h] ∧
        ∀ c ∈ calls, ∀ h2 : Nat, c ≠ EngineCall.close h2 := by
  have hstate : (rebuildIndex L E s w docs fingerprint).2.1 = s := by
    rw [rebuildIndex_eq_build]
    split
    · rfl
    · unfold installIndex
      rw [if_pos hfp]
      split <;> rfl
  refine ⟨hstate, by rw [hstate], by rw [hstate], by rw [hstate], by rw [hstate], ?_⟩
  intro h m b hbuild
  obtain ⟨_, _, _, calls, htr, hcalls⟩ := buildNewIndex_ok L E s.cfg w docs h m b hbuild
  have hreb : rebuildIndex L E s w docs fingerprint =
      installIndex E s (buildNewIndex L E s.cfg w docs).2 ⟨h, b⟩ m fingerprint := by
    rw [rebuildIndex_eq_build]
    generalize buildNewIndex L E s.cfg w docs = r at hbuild
    obtain ⟨r1, w1⟩ := r
    simp only at hbuild
    subst hbuild
    rfl
  rw [hreb]
  unfold installIndex
  simp only [hfp, if_true, World.close]
  cases hc : (E.close (buildNewIndex L E s.cfg w docs).2.eng h).1 with
  | none =>
    simp only [true_and, false_and, exists_false, or_false, reduceCtorEq]
    refine ⟨EngineCall.newMemOnly :: (calls ++ [EngineCall.batch h b]), ?_, ?_⟩
    · rw [htr]
    · intro c hc2 h2
      simp only [List.mem_cons, List.mem_append, List.not_mem_nil, or_false] at hc2
      rcases hc2 with rfl | hc2 | rfl
      · simp
      · obtain ⟨d, _, rfl⟩ := hcalls c hc2
        simp
      · simp
  | some cerr =>
    simp only [Option.some.injEq, exists_eq_left', false_and, false_or, reduceCtorEq,
      true_and]
    refine ⟨EngineCall.newMemOnly :: (calls ++ [EngineCall.batch h b]), ?_, ?_⟩
    · rw [htr]
    · intro c hc2 h2
      simp only [List.mem_cons, List.mem_append, List.not_mem_nil, or_false] at hc2
      rcases hc2 with rfl | hc2 | rfl
      · simp
      · obtain ⟨d, _, rfl⟩ := hcalls c hc2
        simp
      · simp

/-- C30, at the sample searcher: rebuilding for the cached fingerprint builds index 1,
closes it as the last call and leaves the searcher as it was. -/
theorem rebuild_same_fingerprint_discards_witness :
    searcherABC.lastFingerprint = computeFingerprint refLib [docA, docB, docC] ∧
    (buildNewIndex refLib countEngine searcherABC.cfg worldABC [docA, docB, docC]).1 =
      Except.ok (1, summaryMap [docA, docB, docC],
        [docA, docB, docC].map (batchEntry refLib searcherABC.cfg)) ∧
    (rebuildIndex refLib countEngine searcherABC worldABC [docA, docB, docC]
        (computeFingerprint refLib [docA, docB, docC])).2.1 = searcherABC ∧
    (rebuildIndex refLib countEngine searcherABC worldABC [docA, docB, docC]
        (computeFingerprint refLib [docA, docB, docC])).2.2 =
      ⟨(countEngine.close
          (buildNewIndex refLib countEngine searcherABC.cfg worldABC
            [docA, docB, docC]).2.eng 1).2,
        (buildNewIndex refLib countEngine searcherABC.cfg worldABC
            [docA, docB, docC]).2.trace ++ [EngineCall.close 1]⟩ :=
  ⟨by decide, rfl,
    (rebuild_same_fingerprint_discards refLib countEngine searcherABC worldABC
      [docA, docB, docC] (computeFingerprint refLib [docA, docB, docC]) (by decide)).1,
    ((rebuild_same_fingerprint_discards refLib countEngine searcherABC worldABC
      [docA, docB, docC] (computeFingerprint refLib [docA, docB, docC])
      (by decide)).2.2.2.2.2 1 (summaryMap [docA, docB, docC])
      ([docA, docB, docC].map (batchEntry refLib searcherABC.cfg)) rfl).1⟩


/-! ## The cached state of a reachable searcher -/

theorem lookup_map_find {l : List SearchDoc} (id : GoString) :
    (l.map fun d => (d.ID, d.Summary)).lookup id =
      (l.find? fun d => decide (d.ID = id)).map fun d => d.Summary := by
  induction l with
  | nil => rfl
  | cons d t ih =>
    simp only [List.map_cons, List.lookup_cons, List.find?_cons]
    by_cases h : d.ID = id
    · simp [h]
    · have h2 : (id == d.ID) = false := by
        simp only [beq_eq_false_iff_ne, ne_eq]
        exact fun e => h e.symm
      simp [h, h2, ih]

theorem summaryMap_lookup_last (pool : List SearchDoc) (id : GoString) :
    mapLookup (some (summaryMap pool)) id = (lastWithID pool id).map fun d => d.Summary := by
  unfold mapLookup summaryMap lastWithID
  simp only
  rw [← List.map_reverse]
  exact lookup_map_find id

theorem lastWithID_isSome (pool : List SearchDoc) (id : GoString) :
    (lastWithID pool id).isSome = true ↔ ∃ d ∈ pool, d.ID = id := by
  unfold lastWithID
  rw [List.find?_isSome]
  simp

theorem summaryMap_keys (pool : List SearchDoc) (id : GoString) :
    (mapLookup (some (summaryMap pool)) id).isSome = true ↔ ∃ d ∈ pool, d.ID = id := by
  rw [summaryMap_lookup_last, Option.isSome_map']
  exact lastWithID_isSome pool id

theorem closeCalls_append (a b : List EngineCall) :
    closeCalls (a ++ b) = closeCalls a ++ closeCalls b := by
  unfold closeCalls
  exact List.filter_append a b

theorem closeCalls_build {ε σ : Type} (L : GoLib) (E : Engine ε σ) (cfg : BM25Config)
    (w : World ε) (docs : List SearchDoc) (h : Nat) (m : List (GoString × Summary))
    (b : List (GoString × GoString))
    (hok : (buildNewIndex L E cfg w docs).1 = Except.ok (h, m, b)) :
    closeCalls (buildNewIndex L E cfg w docs).2.trace = closeCalls w.trace := by
  obtain ⟨_, _, _, calls, htr, hcalls⟩ := buildNewIndex_ok L E cfg w docs h m b hok
  rw [htr, closeCalls_append]
  have hnil : closeCalls (EngineCall.newMemOnly :: (calls ++ [EngineCall.batch h b])) = [] := by
    unfold closeCalls
    rw [List.filter_eq_nil_iff]
    intro c hc
    simp only [List.mem_cons, List.mem_append, List.not_mem_nil, or_false] at hc
    rcases hc with rfl | hc | rfl
    · simp
    · obtain ⟨d, _, rfl⟩ := hcalls c hc
      simp
    · simp
  rw [hnil, List.append_nil]


theorem rebuildIndex_installs {ε σ : Type} (L : GoLib) (E : Engine ε σ) (s : BM25Searcher)
    (w : World ε) (docs : List SearchDoc) (fingerprint : GoString)
    (hfp : s.lastFingerprint ≠ fingerprint)
    (hok : (rebuildIndex L E s w docs fingerprint).1 = none) :
    ∃ h : Nat, (E.newMemOnly w.eng).1 = Except.ok h ∧
      (rebuildIndex L E s w docs fingerprint).2.1 = installed L s h docs fingerprint ∧
      (rebuildIndex L E s w docs fingerprint).2.2.trace =
        (buildNewIndex L E s.cfg w docs).2.trace ++
          (s.index.map fun old => EngineCall.close old.handle).toList ∧
      closeCalls (buildNewIndex L E s.cfg w docs).2.trace = closeCalls w.trace := by
  rw [rebuildIndex_eq_build] at hok ⊢
  cases hb : buildNewIndex L E s.cfg w docs with
  | mk r1 w1 =>
    cases r1 with
    | error err =>
      rw [hb] at hok
      simp at hok
    | ok v =>
      obtain ⟨h, m, b⟩ := v
      have hb1 : (buildNewIndex L E s.cfg w docs).1 = Except.ok (h, m, b) := by rw [hb]
      obtain ⟨hm, hbb, hnew, _⟩ := buildNewIndex_ok L E s.cfg w docs h m b hb1
      have hcc := closeCalls_build L E s.cfg w docs h m b hb1
      rw [hb] at hok hcc
      simp only at hok hcc ⊢
      refine ⟨h, hnew, ?_⟩
      subst hm hbb
      unfold installIndex at hok ⊢
      simp only [hfp, if_false] at hok ⊢
      cases hidx : s.index with
      | none =>
        simp only [hidx] at hok ⊢
        exact ⟨rfl, by simp, hcc⟩
      | some old =>
        simp only [hidx] at hok ⊢
        cases hc : (E.close w1.eng old.handle).1 with
        | some cerr =>
          exfalso
          simp only [World.close, hc] at hok
          split at hok <;> simp at hok
        | none =>
          simp only [World.close, hc]
          exact ⟨rfl, by simp, hcc⟩


/-- C31. In every state reached from a new searcher by `Search` and `Close` calls made one
after the other, if an index is present then there is a document sequence `pool`, the
canonical documents of one of the calls, such that the batch submitted to that index is
the entries of `pool`, the cached fingerprint is `computeFingerprint pool`, and the
id-to-summary mapping is present, has as keys exactly the ids of the documents of `pool`,
and maps each id to the summary of the last document of `pool` with that id. A rebuild
that installs (the fingerprint differs from the cached one and no error is returned)
establishes this for its documents and fingerprint: it leaves the configuration alone,
raises the build count by exactly 1, and after building closes the previous index exactly
once, when there is one, and no other index. -/
theorem cached_state_invariant {ε σ : Type} [LinearOrder σ] (L : GoLib) (E : Engine ε σ) :
    (∀ (cfg : BM25Config) (w0 : World ε) (calls : List Call) (idx : Index),
      (runCalls L E (NewBM25Searcher cfg, w0) calls).1.index = some idx →
      ∃ pool : List SearchDoc,
        (∃ c ∈ calls, pool = sortedDocs L (NewBM25Searcher cfg).cfg c.docs) ∧
        idx.docs = pool.map (batchEntry L (NewBM25Searcher cfg).cfg) ∧
        (runCalls L E (NewBM25Searcher cfg, w0) calls).1.lastFingerprint =
          computeFingerprint L pool ∧
        (runCalls L E (NewBM25Searcher cfg, w0) calls).1.idToSummary ≠ none ∧
        (∀ id, (mapLookup (runCalls L E (NewBM25Searcher cfg, w0) calls).1.idToSummary
            id).isSome = true ↔ ∃ d ∈ pool, d.ID = id) ∧
        ∀ id, mapLookup (runCalls L E (NewBM25Searcher cfg, w0) calls).1.idToSummary id =
          (lastWithID pool id).map fun d => d.Summary) ∧
    (∀ (s : BM25Searcher) (w : World ε) (docs : List SearchDoc) (fingerprint : GoString),
      s.lastFingerprint ≠ fingerprint →
      (rebuildIndex L E s w docs fingerprint).1 = none →
      ∃ h : Nat,
        (rebuildIndex L E s w docs fingerprint).2.1.index =
          some ⟨h, docs.map (batchEntry L s.cfg)⟩ ∧
        (rebuildIndex L E s w docs fingerprint).2.1.lastFingerprint = fingerprint ∧
        (rebuildIndex L E s w docs fingerprint).2.1.idToSummary = some (summaryMap docs) ∧
        (∀ id, (mapLookup (rebuildIndex L E s w docs fingerprint).2.1.idToSummary
            id).isSome = true ↔ ∃ d ∈ docs, d.ID = id) ∧
        (∀ id, mapLookup (rebuildIndex L E s w docs fingerprint).2.1.idToSummary id =
          (lastWithID docs id).map fun d => d.Summary) ∧
        (rebuildIndex L E s w docs fingerprint).2.1.cfg = s.cfg ∧
        (rebuildIndex L E s w docs fingerprint).2.1.indexBuildCount =
          s.indexBuildCount + 1 ∧
        (rebuildIndex L E s w docs fingerprint).2.2.trace =
          (buildNewIndex L E s.cfg w docs).2.trace ++
            (s.index.map fun old => EngineCall.close old.handle).toList ∧
        closeCalls (rebuildIndex L E s w docs fingerprint).2.2.trace =
          closeCalls w.trace ++ (s.index.map fun old => EngineCall.close old.handle).toList) := by
  constructor
  · intro cfg w0 calls idx hidx
    obtain ⟨hcfg, hc⟩ := runCalls_cachedFrom L E cfg w0 calls
    rcases hc with ⟨hnone, _, _⟩ | ⟨h, pool, hP, hi, hm, hf⟩
    · rw [hnone] at hidx
      exact absurd hidx (by simp)
    · rw [hi, hcfg] at hidx
      refine ⟨pool, hP, ?_, hf, ?_, ?_, ?_⟩
      · rw [← Option.some.inj hidx]
      · rw [hm]
        simp
      · intro id
        rw [hm]
        exact summaryMap_keys pool id
      · intro id
        rw [hm]
        exact summaryMap_lookup_last pool id
  · intro s w docs fingerprint hfp hok
    obtain ⟨h, _, hs, htr, hcc⟩ := rebuildIndex_installs L E s w docs fingerprint hfp hok
    refine ⟨h, ?_, ?_, ?_, ?_, ?_, ?_, ?_, htr, ?_⟩
    · rw [hs]
      rfl
    · rw [hs]
      rfl
    · rw [hs]
      rfl
    · intro id
      rw [hs]
      exact summaryMap_keys docs id
    · intro id
      rw [hs]
      exact summaryMap_lookup_last docs id
    · rw [hs]
      rfl
    · rw [hs]
      rfl
    · rw [htr, closeCalls_append, hcc]
      congr 1
      cases s.index <;> rfl

/-- C31, at the sample searcher: after one search over `c, b, a` the index holds the batch
of `a, b, c`; a rebuild for the two documents with id `a` installs the index with handle 1,
closes the index with handle 0 once, and maps `a` to the summary of the second document. -/
theorem cached_state_invariant_witness :
    (runCalls refLib countEngine (NewBM25Searcher zeroConfig, world0)
      [Call.search [103] 10 [docC, docB, docA]]).1.index =
        some ⟨0, [docA, docB, docC].map (batchEntry refLib (NewBM25Searcher zeroConfig).cfg)⟩ ∧
    (∃ pool : List SearchDoc,
      (∃ c ∈ [Call.search [103] 10 [docC, docB, docA]],
        pool = sortedDocs refLib (NewBM25Searcher zeroConfig).cfg c.docs) ∧
      (⟨0, [docA, docB, docC].map (batchEntry refLib (NewBM25Searcher zeroConfig).cfg)⟩ :
        Index).docs = pool.map (batchEntry refLib (NewBM25Searcher zeroConfig).cfg) ∧
      (runCalls refLib countEngine (NewBM25Searcher zeroConfig, world0)
        [Call.search [103] 10 [docC, docB, docA]]).1.lastFingerprint =
          computeFingerprint refLib pool ∧
      (runCalls refLib countEngine (NewBM25Searcher zeroConfig, world0)
        [Call.search [103] 10 [docC, docB, docA]]).1.idToSummary ≠ none ∧
      (∀ id, (mapLookup (runCalls refLib countEngine (NewBM25Searcher zeroConfig, world0)
          [Call.search [103] 10 [docC, docB, docA]]).1.idToSummary id).isSome = true ↔
        ∃ d ∈ pool, d.ID = id) ∧
      ∀ id, mapLookup (runCalls refLib countEngine (NewBM25Searcher zeroConfig, world0)
          [Call.search [103] 10 [docC, docB, docA]]).1.idToSummary id =
        (lastWithID pool id).map fun d => d.Summary) ∧
    searcherABC.lastFingerprint ≠ computeFingerprint refLib docsSameID ∧
    (rebuildIndex refLib countEngine searcherABC worldABC docsSameID
      (computeFingerprint refLib docsSameID)) =
      (none,
        { cfg := searcherABC.cfg,
          index := some ⟨1, docsSameID.map (batchEntry refLib searcherABC.cfg)⟩,
          idToSummary := some [([97], docNamed2.Summary), ([97], docNamed1.Summary)],
          lastFingerprint := computeFingerprint refLib docsSameID,
          indexBuildCount := 2 },
        ⟨2, worldABC.trace ++ [EngineCall.newMemOnly,
          EngineCall.batchIndex 1 [97] (buildWeightedDoc refLib searcherABC.cfg docNamed1),
          EngineCall.batchIndex 1 [97] (buildWeightedDoc refLib searcherABC.cfg docNamed2),
          EngineCall.batch 1 (docsSameID.map (batchEntry refLib searcherABC.cfg)),
          EngineCall.close 0]⟩) ∧
    mapLookup (rebuildIndex refLib countEngine searcherABC worldABC docsSameID
      (computeFingerprint refLib docsSameID)).2.1.idToSummary [97] = some docNamed2.Summary :=
  ⟨by decide,
    (cached_state_invariant refLib countEngine).1 zeroConfig world0
      [Call.search [103] 10 [docC, docB, docA]]
      ⟨0, [docA, docB, docC].map (batchEntry refLib (NewBM25Searcher zeroConfig).cfg)⟩
      (by decide),
    by decide, rfl, by decide⟩


/-! ## Close -/

/-- C32. `Close` on a searcher that holds an index calls the engine's release on that
index exactly once and makes no other engine call, returns the error of that release or
none, and afterwards the index is absent, the mapping is absent and the fingerprint is
empty, also when the release failed; the configuration and the build count are kept.
`Close` on a searcher with no index, such as a new searcher or one that has just been
closed, makes no engine call, changes nothing and returns no error. -/
theorem close_releases_once {ε σ : Type} (E : Engine ε σ) (s : BM25Searcher) (w : World ε) :
    (∀ idx, s.index = some idx →
      (Close E s w).1 = (E.close w.eng idx.handle).1 ∧
      (Close E s w).2.2 =
        ⟨(E.close w.eng idx.handle).2, w.trace ++ [EngineCall.close idx.handle]⟩ ∧
      (Close E s w).2.1.index = none ∧
      (Close E s w).2.1.idToSummary = none ∧
      (Close E s w).2.1.lastFingerprint = [] ∧
      (Close E s w).2.1.cfg = s.cfg ∧
      (Close E s w).2.1.indexBuildCount = s.indexBuildCount) ∧
    (s.index = none → Close E s w = (none, s, w)) ∧
    (∀ cfg, Close E (NewBM25Searcher cfg) w = (none, NewBM25Searcher cfg, w)) ∧
    Close E (Close E s w).2.1 (Close E s w).2.2 =
      (none, (Close E s w).2.1, (Close E s w).2.2) := by
  have hnone : ∀ (s2 : BM25Searcher) (w2 : World ε), s2.index = none →
      Close E s2 w2 = (none, s2, w2) := by
    intro s2 w2 h
    unfold Close
    rw [h]
  have hidx : (Close E s w).2.1.index = none := by
    unfold Close
    cases h : s.index with
    | none => simpa using h
    | some idx => rfl
  refine ⟨?_, hnone s w, fun cfg => hnone _ w rfl, hnone _ _ hidx⟩
  intro idx h
  unfold Close
  rw [h]
  exact ⟨rfl, rfl, rfl, rfl, rfl, rfl, rfl⟩

/-- C32, at the sample searcher on an engine whose release of index 0 fails: `Close`
returns that error, logs one close call and clears the cache; a second `Close` does
nothing. -/
theorem close_releases_once_witness :
    searcherABC.index =
      some ⟨0, [docA, docB, docC].map (batchEntry refLib searcherABC.cfg)⟩ ∧
    (Close closeFailEngine searcherABC worldABC).1 = some (GoError.engine 9) ∧
    (Close closeFailEngine searcherABC worldABC).2.2.trace =
      worldABC.trace ++ [EngineCall.close 0] ∧
    (Close closeFailEngine searcherABC worldABC).2.1 =
      { cfg := searcherABC.cfg, index := none, idToSummary := none, lastFingerprint := [],
        indexBuildCount := 1 } ∧
    Close closeFailEngine (Close closeFailEngine searcherABC worldABC).2.1
        (Close closeFailEngine searcherABC worldABC).2.2 =
      (none, (Close closeFailEngine searcherABC worldABC).2.1,
        (Close closeFailEngine searcherABC worldABC).2.2) :=
  ⟨by decide, by decide, by decide, by decide,
    (close_releases_once closeFailEngine searcherABC worldABC).2.2.2⟩


/-! ## Errors of a failed rebuild -/

theorem wrapClose_merges (engMsg : Nat → GoString) (e c : GoError) :
    (GoError.wrapClose e c).Unwrap = some e ∧
    (GoError.wrapClose e c).Error engMsg =
      e.Error engMsg ++ [59, 32, 99, 108, 111, 115, 101, 32, 105, 110, 100, 101, 120, 58, 32] ++
        c.Error engMsg ∧
    Occurs (e.Error engMsg) ((GoError.wrapClose e c).Error engMsg) ∧
    Occurs (c.Error engMsg) ((GoError.wrapClose e c).Error engMsg) := by
  refine ⟨rfl, rfl, ?_, ?_⟩
  · refine ⟨[], [59, 32, 99, 108, 111, 115, 101, 32, 105, 110, 100, 101, 120, 58, 32] ++
      c.Error engMsg, ?_⟩
    simp [GoError.Error]
  · refine ⟨e.Error engMsg ++
      [59, 32, 99, 108, 111, 115, 101, 32, 105, 110, 100, 101, 120, 58, 32], [], ?_⟩
    simp [GoError.Error]

/-- C34. When ingesting a document, or executing the batch, fails with `e` during a
rebuild and closing the partially built index also fails with `c`, the error returned by
`rebuildIndex` unwraps to `e`, and its message is the message of `e`, the text
`; close index: ` and the message of `c`, so it contains both messages; when the close
succeeds, the returned error is exactly `e`. In both cases an error is returned. -/
theorem rebuild_errors_merged {ε σ : Type} (L : GoLib) (E : Engine ε σ) (s : BM25Searcher)
    (w : World ε) (docs : List SearchDoc) (fingerprint : GoString)
    (engMsg : Nat → GoString) (h : Nat) (hnew : (E.newMemOnly w.eng).1 = Except.ok h) :
    (∀ e, (indexDocs L E s.cfg h docs [] []
        ⟨(E.newMemOnly w.eng).2, w.trace ++ [EngineCall.newMemOnly]⟩).1 = Except.error e →
      ((E.close (indexDocs L E s.cfg h docs [] []
          ⟨(E.newMemOnly w.eng).2, w.trace ++ [EngineCall.newMemOnly]⟩).2.eng h).1 = none →
        (rebuildIndex L E s w docs fingerprint).1 = some e) ∧
      ∀ c, (E.close (indexDocs L E s.cfg h docs [] []
          ⟨(E.newMemOnly w.eng).2, w.trace ++ [EngineCall.newMemOnly]⟩).2.eng h).1 = some c →
        ∃ r, (rebuildIndex L E s w docs fingerprint).1 = some r ∧ r.Unwrap = some e ∧
          r.Error engMsg = e.Error engMsg ++
            [59, 32, 99, 108, 111, 115, 101, 32, 105, 110, 100, 101, 120, 58, 32] ++
            c.Error engMsg ∧
          Occurs (e.Error engMsg) (r.Error engMsg) ∧
          Occurs (c.Error engMsg) (r.Error engMsg)) ∧
    (∀ m b e, (indexDocs L E s.cfg h docs [] []
        ⟨(E.newMemOnly w.eng).2, w.trace ++ [EngineCall.newMemOnly]⟩).1 = Except.ok (m, b) →
      (E.batch (indexDocs L E s.cfg h docs [] []
        ⟨(E.newMemOnly w.eng).2, w.trace ++ [EngineCall.newMemOnly]⟩).2.eng h b).1 = some e →
      ((E.close (E.batch (indexDocs L E s.cfg h docs [] []
          ⟨(E.newMemOnly w.eng).2, w.trace ++ [EngineCall.newMemOnly]⟩).2.eng h b).2 h).1 =
            none →
        (rebuildIndex L E s w docs fingerprint).1 = some e) ∧
      ∀ c, (E.close (E.batch (indexDocs L E s.cfg h docs [] []
          ⟨(E.newMemOnly w.eng).2, w.trace ++ [EngineCall.newMemOnly]⟩).2.eng h b).2 h).1 =
            some c →
        ∃ r, (rebuildIndex L E s w docs fingerprint).1 = some r ∧ r.Unwrap = some e ∧
          r.Error engMsg = e.Error engMsg ++
            [59, 32, 99, 108, 111, 115, 101, 32, 105, 110, 100, 101, 120, 58, 32] ++
            c.Error engMsg ∧
          Occurs (e.Error engMsg) (r.Error engMsg) ∧
          Occurs (c.Error engMsg) (r.Error engMsg)) := by
  constructor
  · intro e hidx
    generalize hg : indexDocs L E s.cfg h docs [] []
      ⟨(E.newMemOnly w.eng).2, w.trace ++ [EngineCall.newMemOnly]⟩ = r at hidx
    obtain ⟨r1, w2⟩ := r
    simp only at hidx
    subst hidx
    have hreb : rebuildIndex L E s w docs fingerprint =
        (some (closeAfter E w2 h e).1, s, (closeAfter E w2 h e).2) := by
      unfold rebuildIndex
      simp only [World.newMemOnly, hnew, hg]
    obtain ⟨_, hc1⟩ := closeAfter_spec E w2 h e
    rw [hreb]
    simp only
    constructor
    · intro hc
      rcases hc1 with ⟨_, h2⟩ | ⟨cerr, h1, _⟩
      · rw [h2]
      · rw [hc] at h1
        exact absurd h1 (by simp)
    · intro c hc
      rcases hc1 with ⟨h1, _⟩ | ⟨cerr, h1, h2⟩
      · rw [hc] at h1
        exact absurd h1 (by simp)
      · rw [hc] at h1
        obtain rfl := Option.some.inj h1
        rw [h2]
        exact ⟨_, rfl, wrapClose_merges engMsg e c⟩
  · intro m b e hidx hbatch
    generalize hg : indexDocs L E s.cfg h docs [] []
      ⟨(E.newMemOnly w.eng).2, w.trace ++ [EngineCall.newMemOnly]⟩ = r at hidx hbatch
    obtain ⟨r1, w2⟩ := r
    simp only at hidx hbatch
    subst hidx
    have hreb : rebuildIndex L E s w docs fingerprint =
        (some (closeAfter E ⟨(E.batch w2.eng h b).2, w2.trace ++ [EngineCall.batch h b]⟩
            h e).1, s,
          (closeAfter E ⟨(E.batch w2.eng h b).2, w2.trace ++ [EngineCall.batch h b]⟩
            h e).2) := by
      unfold rebuildIndex
      simp only [World.newMemOnly, hnew, hg, World.batch, hbatch]
    obtain ⟨_, hc1⟩ := closeAfter_spec E
      ⟨(E.batch w2.eng h b).2, w2.trace ++ [EngineCall.batch h b]⟩ h e
    rw [hreb]
    simp only at hc1 ⊢
    constructor
    · intro hc
      rcases hc1 with ⟨_, h2⟩ | ⟨cerr, h1, _⟩
      · rw [h2]
      · rw [hc] at h1
        exact absurd h1 (by simp)
    · intro c hc
      rcases hc1 with ⟨h1, _⟩ | ⟨cerr, h1, h2⟩
      · rw [hc] at h1
        exact absurd h1 (by simp)
      · rw [hc] at h1
        obtain rfl := Option.some.inj h1
        rw [h2]
        exact ⟨_, rfl, wrapClose_merges engMsg e c⟩

/-- C34, on an engine whose ingestion of `b` fails with error 7 and whose close fails with
error 9: the rebuild returns the error that wraps 7 and names 9. -/
theorem rebuild_errors_merged_witness :
    (ingestCloseFailEngine.newMemOnly world0.eng).1 = Except.ok 0 ∧
    (rebuildIndex refLib ingestCloseFailEngine (NewBM25Searcher zeroConfig) world0
      [docA, docB] (computeFingerprint refLib [docA, docB])).1 =
        some (GoError.wrapClose (GoError.engine 7) (GoError.engine 9)) ∧
    (GoError.wrapClose (GoError.engine 7) (GoError.engine 9)).Error sampleMsg =
      [7, 59, 32, 99, 108, 111, 115, 101, 32, 105, 110, 100, 101, 120, 58, 32, 9] ∧
    ∃ r, (rebuildIndex refLib ingestCloseFailEngine (NewBM25Searcher zeroConfig) world0
        [docA, docB] (computeFingerprint refLib [docA, docB])).1 = some r ∧
      r.Unwrap = some (GoError.engine 7) ∧
      r.Error sampleMsg = (GoError.engine 7).Error sampleMsg ++
        [59, 32, 99, 108, 111, 115, 101, 32, 105, 110, 100, 101, 120, 58, 32] ++
        (GoError.engine 9).Error sampleMsg ∧
      Occurs ((GoError.engine 7).Error sampleMsg) (r.Error sampleMsg) ∧
      Occurs ((GoError.engine 9).Error sampleMsg) (r.Error sampleMsg) :=
  ⟨rfl, by decide, by decide,
    ((rebuild_errors_merged refLib ingestCloseFailEngine (NewBM25Searcher zeroConfig) world0
      [docA, docB] (computeFingerprint refLib [docA, docB]) sampleMsg 0 rfl).1
      (GoError.engine 7) rfl).2 (GoError.engine 9) (by decide)⟩


/-! ## Injectivity of the fingerprint stream -/

/-- C35. On document sequences in which no id, body text, summary id, name, namespace,
short description or tag contains the byte `0x00`, no tag contains the byte `0x01` and no
tag is the empty string, the byte stream that `computeFingerprint` hashes is injective up
to the order of tags: two such sequences with the same stream have the same length and
agree, document by document in order, on id, body text, summary id, name, namespace and
short description, and their tags are the same up to order (the same multiset). -/
theorem fingerprint_stream_injective_clean (docs1 docs2 : List SearchDoc)
    (h1 : ∀ d ∈ docs1, CleanDoc d) (h2 : ∀ d ∈ docs2, CleanDoc d)
    (hs : fingerprintStream docs1 = fingerprintStream docs2) :
    docs1.length = docs2.length ∧
    ∀ (i : Nat) (hi1 : i < docs1.length) (hi2 : i < docs2.length),
      (docs1.get ⟨i, hi1⟩).ID = (docs2.get ⟨i, hi2⟩).ID ∧
      (docs1.get ⟨i, hi1⟩).DocText = (docs2.get ⟨i, hi2⟩).DocText ∧
      (docs1.get ⟨i, hi1⟩).Summary.ID = (docs2.get ⟨i, hi2⟩).Summary.ID ∧
      (docs1.get ⟨i, hi1⟩).Summary.Name = (docs2.get ⟨i, hi2⟩).Summary.Name ∧
      (docs1.get ⟨i, hi1⟩).Summary.Namespace = (docs2.get ⟨i, hi2⟩).Summary.Namespace ∧
      (docs1.get ⟨i, hi1⟩).Summary.ShortDescription =
        (docs2.get ⟨i, hi2⟩).Summary.ShortDescription ∧
      ((docs1.get ⟨i, hi1⟩).Summary.Tags : Multiset GoString) =
        ((docs2.get ⟨i, hi2⟩).Summary.Tags : Multiset GoString) := by
  have hf := fingerprintStream_injective docs1 docs2 h1 h2 hs
  refine ⟨hf.length_eq, ?_⟩
  intro i hi1 hi2
  obtain ⟨a, b, c, d, e, f, g⟩ := hf.get hi1 hi2
  exact ⟨a, b, c, d, e, f, Multiset.coe_eq_coe.mpr g⟩

/-- C35, at the sequences `b, t` whose second documents differ in the order of their two
tags: the streams are equal and the sequences agree up to the order of tags. -/
theorem fingerprint_stream_injective_clean_witness :
    (∀ d ∈ [docB, docT1], CleanDoc d) ∧ (∀ d ∈ [docB, docT2], CleanDoc d) ∧
    fingerprintStream [docB, docT1] = fingerprintStream [docB, docT2] ∧
    [docB, docT1].length = [docB, docT2].length ∧
    ∀ (i : Nat) (hi1 : i < [docB, docT1].length) (hi2 : i < [docB, docT2].length),
      ([docB, docT1].get ⟨i, hi1⟩).ID = ([docB, docT2].get ⟨i, hi2⟩).ID ∧
      ([docB, docT1].get ⟨i, hi1⟩).DocText = ([docB, docT2].get ⟨i, hi2⟩).DocText ∧
      ([docB, docT1].get ⟨i, hi1⟩).Summary.ID = ([docB, docT2].get ⟨i, hi2⟩).Summary.ID ∧
      ([docB, docT1].get ⟨i, hi1⟩).Summary.Name = ([docB, docT2].get ⟨i, hi2⟩).Summary.Name ∧
      ([docB, docT1].get ⟨i, hi1⟩).Summary.Namespace =
        ([docB, docT2].get ⟨i, hi2⟩).Summary.Namespace ∧
      ([docB, docT1].get ⟨i, hi1⟩).Summary.ShortDescription =
        ([docB, docT2].get ⟨i, hi2⟩).Summary.ShortDescription ∧
      (([docB, docT1].get ⟨i, hi1⟩).Summary.Tags : Multiset GoString) =
        (([docB, docT2].get ⟨i, hi2⟩).Summary.Tags : Multiset GoString) :=
  ⟨by decide, by decide, by decide,
    fingerprint_stream_injective_clean [docB, docT1] [docB, docT2] (by decide) (by decide)
      (by decide)⟩


/-! ## Coherence of the cache -/

theorem computeFingerprint_ne_nil (L : GoLib) (docs : List SearchDoc) :
    computeFingerprint L docs ≠ [] := by
  intro h
  have hl := hexEncodeToString_length (L.sha256 (fingerprintStream docs))
  unfold computeFingerprint at h
  rw [h, L.sha256_length] at hl
  simp at hl

theorem ensureIndex_index {ε σ : Type} (L : GoLib) (E : Engine ε σ) (s : BM25Searcher)
    (w : World ε) (pool : List SearchDoc) (hcoh : s.index = none → s.lastFingerprint = [])
    (hok : (ensureIndex L E s w pool).1 = none) :
    (ensureIndex L E s w pool).2.1.index ≠ none := by
  unfold ensureIndex at hok ⊢
  split at hok
  · rename_i hnr
    rw [if_pos hnr]
    obtain ⟨_, hs, hfp⟩ := rebuildIndex_spec L E s w pool (computeFingerprint L pool)
    rcases hs with hs | ⟨h, hs⟩
    · have hfp2 := hfp hok
      rw [hs] at hfp2 ⊢
      intro hnone
      exact computeFingerprint_ne_nil L pool (by rw [← hfp2]; exact hcoh hnone)
    · rw [hs]
      simp [installed]
  · rename_i hnr
    rw [if_neg hnr]
    simp only [Bool.or_eq_true, Option.isNone_iff_eq_none, decide_eq_true_eq, not_or] at hnr
    exact hnr.1

theorem Search_panic_cases {ε σ : Type} [LinearOrder σ] (L : GoLib) (E : Engine ε σ)
    (s : BM25Searcher) (w : World ε) (query : GoString) (limit : Int) (docs : List SearchDoc)
    (hlimit : 0 ≤ limit)
    (hp : (Search L E s w query limit docs).result = SearchResult.panic) :
    L.trimSpace query ≠ [] ∧ sortedDocs L s.cfg docs ≠ [] ∧
    (ensureIndex L E s w (sortedDocs L s.cfg docs)).1 = none ∧
    (ensureIndex L E s w (sortedDocs L s.cfg docs)).2.1.index = none := by
  by_cases hq : L.trimSpace query = []
  · rw [Search_empty L E s w query limit docs hq, emptyQueryResult_eq _ _ hlimit] at hp
    simp at hp
  by_cases hd : sortedDocs L s.cfg docs = []
  · rw [Search_no_docs L E s w query limit docs hq hd] at hp
    simp at hp
  refine ⟨hq, hd, ?_⟩
  rw [Search_eq_ensure L E s w query limit docs hq hd] at hp
  generalize ensureIndex L E s w (sortedDocs L s.cfg docs) = r at hp ⊢
  obtain ⟨r1, s1, w1⟩ := r
  cases r1 with
  | some err => simp at hp
  | none =>
    simp only at hp ⊢
    cases hidx : s1.index with
    | none => exact ⟨trivial, rfl⟩
    | some index =>
      exfalso
      rw [hidx] at hp
      simp only at hp
      split at hp
      · simp at hp
      · simp only [finishSearch_eq _ _ _ _ hlimit] at hp
        simp at hp

/-- C36. In every searcher state reached from a new searcher by `Search` and `Close`
calls made one after the other, the index is absent if and only if the cached fingerprint
is the empty string, if and only if the id-to-summary mapping is absent. Consequently, in
a `Search` on such a state whose rebuild step returned no error, the index that is queried
is present: with `limit >= 0` the call does not panic. -/
theorem reachable_cache_coherent {ε σ : Type} [LinearOrder σ] (L : GoLib) (E : Engine ε σ)
    (cfg : BM25Config) (w0 : World ε) (calls : List Call) (s : BM25Searcher)
    (hs : s = (runCalls L E (NewBM25Searcher cfg, w0) calls).1) :
    (s.index = none ↔ s.lastFingerprint = []) ∧
    (s.lastFingerprint = [] ↔ s.idToSummary = none) ∧
    (∀ (w : World ε) (pool : List SearchDoc), (ensureIndex L E s w pool).1 = none →
      (ensureIndex L E s w pool).2.1.index ≠ none) ∧
    ∀ (w : World ε) (query : GoString) (limit : Int) (docs : List SearchDoc), 0 ≤ limit →
      (Search L E s w query limit docs).result ≠ SearchResult.panic := by
  have hc := (runCalls_cachedFrom L E cfg w0 calls).2
  rw [← hs] at hc
  have hcoh : (s.index = none ↔ s.lastFingerprint = []) ∧
      (s.lastFingerprint = [] ↔ s.idToSummary = none) := by
    rcases hc with ⟨h1, h2, h3⟩ | ⟨h, pool, _, hi, hm, hf⟩
    · simp [h1, h2, h3]
    · have := computeFingerprint_ne_nil L pool
      simp [hi, hm, hf, this]
  refine ⟨hcoh.1, hcoh.2, ?_, ?_⟩
  · intro w pool hok
    exact ensureIndex_index L E s w pool hcoh.1.mp hok
  · intro w query limit docs hlimit hp
    obtain ⟨_, _, hok, hnone⟩ := Search_panic_cases L E s w query limit docs hlimit hp
    exact ensureIndex_index L E s w _ hcoh.1.mp hok hnone

/-- C36, after a search and a close: the cache is empty in all three fields, and a further
search installs an index and does not panic. -/
theorem reachable_cache_coherent_witness :
    (runCalls refLib countEngine (NewBM25Searcher zeroConfig, world0)
      [Call.search [103] 10 [docC, docB, docA], Call.close]).1 =
      { cfg := (NewBM25Searcher zeroConfig).cfg, index := none, idToSummary := none,
        lastFingerprint := [], indexBuildCount := 1 } ∧
    (Search refLib countEngine (runCalls refLib countEngine (NewBM25Searcher zeroConfig, world0)
      [Call.search [103] 10 [docC, docB, docA], Call.close]).1 world0 [103] 10
      [docC, docB, docA]).result = SearchResult.ok [docB.Summary, docA.Summary] ∧
    (Search refLib countEngine (runCalls refLib countEngine (NewBM25Searcher zeroConfig, world0)
      [Call.search [103] 10 [docC, docB, docA], Call.close]).1 world0 [103] 10
      [docC, docB, docA]).result ≠ SearchResult.panic :=
  ⟨by decide, by decide,
    (reachable_cache_coherent refLib countEngine zeroConfig world0
      [Call.search [103] 10 [docC, docB, docA], Call.close] _ rfl).2.2.2 world0 [103] 10
      [docC, docB, docA] (by decide)⟩


/-! ## Searching after Close -/

theorem sortedDocs_ne_nil (L : GoLib) (cfg : BM25Config) (docs : List SearchDoc)
    (hd : docs ≠ []) : sortedDocs L cfg docs ≠ [] := by
  have hlen : 0 < (sortDocsByID L docs).length := by
    rw [sortDocsByID_length]
    exact List.length_pos.mpr hd
  unfold sortedDocs
  simp only
  split
  · rename_i h
    intro hnil
    have := congrArg List.length hnil
    simp only [List.length_take, List.length_nil] at this
    omega
  · exact List.length_pos.mp hlen

theorem installIndex_trace {ε σ : Type} (E : Engine ε σ) (s : BM25Searcher) (w : World ε)
    (index : Index) (m : List (GoString × Summary)) (fingerprint : GoString) :
    ∃ calls, (installIndex E s w index m fingerprint).2.2.trace = w.trace ++ calls := by
  unfold installIndex
  simp only [World.close]
  by_cases hfp : s.lastFingerprint = fingerprint
  · simp only [hfp, if_true]
    cases hc : (E.close w.eng index.handle).1 <;>
      exact ⟨[EngineCall.close index.handle], by simp [hc]⟩
  · simp only [hfp, if_false]
    cases hidx : s.index with
    | none => exact ⟨[], by simp⟩
    | some old =>
      simp only
      cases hc : (E.close w.eng old.handle).1 with
      | none => exact ⟨[EngineCall.close old.handle], by simp [hc]⟩
      | some cerr =>
        cases hn : (E.close (E.close w.eng old.handle).2 index.handle).1 <;>
          exact ⟨[EngineCall.close old.handle, EngineCall.close index.handle], by simp [hc, hn]⟩

theorem rebuildIndex_trace_head {ε σ : Type} (L : GoLib) (E : Engine ε σ) (s : BM25Searcher)
    (w : World ε) (docs : List SearchDoc) (fingerprint : GoString) :
    ∃ calls, (rebuildIndex L E s w docs fingerprint).2.2.trace =
      w.trace ++ EngineCall.newMemOnly :: calls := by
  unfold rebuildIndex
  simp only [World.newMemOnly]
  cases hn : (E.newMemOnly w.eng).1 with
  | error err => exact ⟨[], by simp⟩
  | ok h =>
    simp only
    obtain ⟨⟨calls1, htr1, _⟩, _⟩ := indexDocs_spec L E s.cfg h docs [] []
      ⟨(E.newMemOnly w.eng).2, w.trace ++ [EngineCall.newMemOnly]⟩
    generalize indexDocs L E s.cfg h docs [] []
      ⟨(E.newMemOnly w.eng).2, w.trace ++ [EngineCall.newMemOnly]⟩ = r at htr1
    obtain ⟨r1, w2⟩ := r
    simp only at htr1
    cases r1 with
    | error err =>
      simp only
      rw [closeAfter_trace, htr1]
      exact ⟨calls1 ++ [EngineCall.close h], by simp⟩
    | ok v =>
      obtain ⟨m, b⟩ := v
      simp only [World.batch]
      cases hb : (E.batch w2.eng h b).1 with
      | some err =>
        simp only
        rw [closeAfter_trace]
        simp only [htr1]
        exact ⟨calls1 ++ [EngineCall.batch h b, EngineCall.close h], by simp⟩
      | none =>
        simp only
        obtain ⟨calls2, htr2⟩ := installIndex_trace E s
          ⟨(E.batch w2.eng h b).2, w2.trace ++ [EngineCall.batch h b]⟩ ⟨h, b⟩ m fingerprint
        rw [htr2]
        simp only [htr1]
        exact ⟨calls1 ++ [EngineCall.batch h b] ++ calls2, by simp⟩

theorem Search_trace_after_ensure {ε σ : Type} [LinearOrder σ] (L : GoLib) (E : Engine ε σ)
    (s : BM25Searcher) (w : World ε) (query : GoString) (limit : Int) (docs : List SearchDoc)
    (hq : L.trimSpace query ≠ []) (hd : sortedDocs L s.cfg docs ≠ []) :
    ∃ calls, (Search L E s w query limit docs).world.trace =
      (ensureIndex L E s w (sortedDocs L s.cfg docs)).2.2.trace ++ calls := by
  rw [Search_eq_ensure L E s w query limit docs hq hd]
  generalize ensureIndex L E s w (sortedDocs L s.cfg docs) = r
  obtain ⟨r1, s1, w1⟩ := r
  cases r1 with
  | some err => exact ⟨[], by simp⟩
  | none =>
    simp only
    cases hidx : s1.index with
    | none => exact ⟨[], by simp⟩
    | some index =>
      simp only [World.search]
      cases hs : (E.search w1.eng index (L.toLower (L.trimSpace query))
          (sortedDocs L s.cfg docs).length).1 <;> exact ⟨_, rfl⟩


theorem Search_without_index {ε σ : Type} [LinearOrder σ] (L : GoLib) (E : Engine ε σ)
    (s : BM25Searcher) (w : World ε) (query : GoString) (limit : Int) (docs : List SearchDoc)
    (hq : L.trimSpace query ≠ []) (hd : docs ≠ []) (hidx : s.index = none) :
    ensureIndex L E s w (sortedDocs L s.cfg docs) =
      rebuildIndex L E s w (sortedDocs L s.cfg docs)
        (computeFingerprint L (sortedDocs L s.cfg docs)) ∧
    (∃ calls, (Search L E s w query limit docs).world.trace =
      w.trace ++ EngineCall.newMemOnly :: calls) ∧
    ∀ results, (Search L E s w query limit docs).result = SearchResult.ok results →
      ∃ h, (Search L E s w query limit docs).searcher =
        installed L s h (sortedDocs L s.cfg docs)
          (computeFingerprint L (sortedDocs L s.cfg docs)) := by
  have hpool := sortedDocs_ne_nil L s.cfg docs hd
  have hens : ensureIndex L E s w (sortedDocs L s.cfg docs) =
      rebuildIndex L E s w (sortedDocs L s.cfg docs)
        (computeFingerprint L (sortedDocs L s.cfg docs)) := by
    unfold ensureIndex
    rw [if_pos]
    simp [hidx]
  refine ⟨hens, ?_, ?_⟩
  · obtain ⟨calls, htr⟩ := Search_trace_after_ensure L E s w query limit docs hq hpool
    obtain ⟨calls2, htr2⟩ := rebuildIndex_trace_head L E s w (sortedDocs L s.cfg docs)
      (computeFingerprint L (sortedDocs L s.cfg docs))
    rw [hens, htr2] at htr
    exact ⟨calls2 ++ calls, by rw [htr]; simp⟩
  · intro results hres
    exact Search_cache_miss L E s w query limit docs results hq hpool (Or.inl hidx) hres

/-- C37 as stated fails for a query that is non-empty but consists of white space: after
`Close` on the sample searcher, the query of one space over the non-empty list `c, b, a`
succeeds on the empty-query path; it makes no engine call, so it performs no rebuild, the
build count stays 1 and the searcher still has no index. -/
theorem search_after_close_rebuilds_counterexample :
    ([32] : GoString) ≠ [] ∧ [docC, docB, docA] ≠ [] ∧
    (Close countEngine searcherABC worldABC).2.1.indexBuildCount = 1 ∧
    (Search refLib countEngine (Close countEngine searcherABC worldABC).2.1
      (Close countEngine searcherABC worldABC).2.2 [32] 10 [docC, docB, docA]).result =
        SearchResult.ok [docA.Summary, docB.Summary, docC.Summary] ∧
    (Search refLib countEngine (Close countEngine searcherABC worldABC).2.1
      (Close countEngine searcherABC worldABC).2.2 [32] 10 [docC, docB, docA]).world.trace =
        (Close countEngine searcherABC worldABC).2.2.trace ∧
    (Search refLib countEngine (Close countEngine searcherABC worldABC).2.1
      (Close countEngine searcherABC worldABC).2.2 [32] 10
        [docC, docB, docA]).searcher.index = none ∧
    ¬ ((Search refLib countEngine (Close countEngine searcherABC worldABC).2.1
      (Close countEngine searcherABC worldABC).2.2 [32] 10
        [docC, docB, docA]).searcher.indexBuildCount =
      (Close countEngine searcherABC worldABC).2.1.indexBuildCount + 1) := by
  refine ⟨by decide, by decide, by decide, by decide, by decide, by decide, by decide⟩

/-- C37 (amended). `Close` never changes the build count or the configuration, and leaves the
searcher without an index. For every query that is non-empty after trimming and every
non-empty document list, whatever was indexed before, the `Search` that follows a `Close`
misses the cache and performs a rebuild: its first engine call constructs a new index,
and when it succeeds the searcher holds a newly built index for the documents of the call
and the build count has increased by exactly 1. The closed searcher remains usable: when
the searcher had an index or an empty fingerprint before the `Close`, as every reachable
searcher has, the search does not panic for `limit >= 0`. -/
theorem search_after_close_rebuilds {ε σ : Type} [LinearOrder σ] (L : GoLib) (E : Engine ε σ)
    (s : BM25Searcher) (w : World ε) (query : GoString) (limit : Int) (docs : List SearchDoc)
    (hq : L.trimSpace query ≠ []) (hd : docs ≠ []) :
    (Close E s w).2.1.indexBuildCount = s.indexBuildCount ∧
    (Close E s w).2.1.cfg = s.cfg ∧
    (Close E s w).2.1.index = none ∧
    ensureIndex L E (Close E s w).2.1 (Close E s w).2.2 (sortedDocs L s.cfg docs) =
      rebuildIndex L E (Close E s w).2.1 (Close E s w).2.2 (sortedDocs L s.cfg docs)
        (computeFingerprint L (sortedDocs L s.cfg docs)) ∧
    (∃ calls, (Search L E (Close E s w).2.1 (Close E s w).2.2 query limit docs).world.trace =
      (Close E s w).2.2.trace ++ EngineCall.newMemOnly :: calls) ∧
    (∀ results, (Search L E (Close E s w).2.1 (Close E s w).2.2 query limit docs).result =
        SearchResult.ok results →
      (Search L E (Close E s w).2.1 (Close E s w).2.2 query limit docs).searcher.indexBuildCount
        = s.indexBuildCount + 1 ∧
      (Search L E (Close E s w).2.1 (Close E s w).2.2 query limit docs).searcher.lastFingerprint
        = computeFingerprint L (sortedDocs L s.cfg docs) ∧
      ∃ h, (Search L E (Close E s w).2.1 (Close E s w).2.2 query limit docs).searcher.index =
        some ⟨h, (sortedDocs L s.cfg docs).map (batchEntry L s.cfg)⟩) ∧
    ((s.index = none → s.lastFingerprint = []) → 0 ≤ limit →
      (Search L E (Close E s w).2.1 (Close E s w).2.2 query limit docs).result ≠
        SearchResult.panic) := by
  have hcount : (Close E s w).2.1.indexBuildCount = s.indexBuildCount := by
    unfold Close
    cases s.index <;> rfl
  have hcfg : (Close E s w).2.1.cfg = s.cfg := by
    unfold Close
    cases s.index <;> rfl
  have hidx : (Close E s w).2.1.index = none := by
    unfold Close
    cases h : s.index with
    | none => simpa using h
    | some idx => rfl
  have hfp : (s.index = none → s.lastFingerprint = []) →
      (Close E s w).2.1.index = none → (Close E s w).2.1.lastFingerprint = [] := by
    intro hcoh _
    unfold Close
    cases h : s.index with
    | none => simpa using hcoh h
    | some idx => rfl
  obtain ⟨hens, htr, hok⟩ := Search_without_index L E (Close E s w).2.1 (Close E s w).2.2
    query limit docs hq hd hidx
  rw [hcfg] at hens hok
  refine ⟨hcount, hcfg, hidx, hens, htr, ?_, ?_⟩
  · intro results hres
    obtain ⟨h, hs⟩ := hok results hres
    rw [hs]
    refine ⟨?_, rfl, h, ?_⟩
    · simp only [installed]
      rw [hcount]
    · simp only [installed]
      rw [hcfg]
  · intro hcoh hlimit hp
    obtain ⟨_, _, hnone, hnidx⟩ := Search_panic_cases L E _ _ query limit docs hlimit hp
    exact ensureIndex_index L E _ _ _ (hfp hcoh) hnone hnidx

/-- C37 (amended), at the sample searcher: after `Close` the build count is still 1, and
the same query over the same documents rebuilds: the count becomes 2 and the results are the same. -/
theorem search_after_close_rebuilds_witness :
    (Close countEngine searcherABC worldABC).2.1.indexBuildCount = 1 ∧
    (Search refLib countEngine (Close countEngine searcherABC worldABC).2.1
      (Close countEngine searcherABC worldABC).2.2 [103] 10 [docC, docB, docA]).result =
        SearchResult.ok [docB.Summary, docA.Summary] ∧
    (Search refLib countEngine (Close countEngine searcherABC worldABC).2.1
      (Close countEngine searcherABC worldABC).2.2 [103] 10
        [docC, docB, docA]).searcher.indexBuildCount = searcherABC.indexBuildCount + 1 ∧
    (Search refLib countEngine (Close countEngine searcherABC worldABC).2.1
      (Close countEngine searcherABC worldABC).2.2 [103] 10
        [docC, docB, docA]).searcher.indexBuildCount = 2 :=
  ⟨by decide, by decide,
    ((search_after_close_rebuilds refLib countEngine searcherABC worldABC [103] 10
      [docC, docB, docA] (by decide) (by decide)).2.2.2.2.2.1
      [docB.Summary, docA.Summary] (by decide)).1,
    by decide⟩


/-! ## The cuts stay in range -/

theorem sliceTo_of_guard {α : Type} (xs : List α) (k : Int)
    (h : k > 0 ∧ (xs.length : Int) > k) : sliceTo xs k = some (xs.take k.toNat) := by
  unfold sliceTo
  rw [if_pos]
  omega

theorem cutToMaxDocs_eq (L : GoLib) (cfg : BM25Config) (docs : List SearchDoc) :
    cutToMaxDocs cfg (sortDocsByID L docs) = some (sortedDocs L cfg docs) := by
  unfold cutToMaxDocs sortedDocs
  simp only
  split
  · rename_i h
    exact sliceTo_of_guard _ _ h
  · rfl

theorem cutDocText_eq (L : GoLib) (cfg : BM25Config) (doc : SearchDoc) :
    cutDocText cfg (L.toLower doc.DocText) = some (specBody L cfg doc) := by
  unfold cutDocText specBody
  split
  · rename_i h
    exact sliceTo_of_guard _ _ h
  · rfl

theorem copySummaries_eq (ds : List SearchDoc) :
    ∀ k : Nat, k ≤ ds.length → copySummaries ds k = some ((ds.take k).map fun d => d.Summary) := by
  intro k
  induction k with
  | zero => intro _; rfl
  | succ k ih =>
    intro hk
    have hlt : k < ds.length := hk
    rw [copySummaries, ih (Nat.le_of_lt hlt), List.get?_eq_get hlt]
    simp only [List.take_succ, List.map_append]
    rw [List.getElem?_eq_getElem hlt]
    simp

theorem emptyQueryChecked_eq (limit : Int) (ds : List SearchDoc) :
    emptyQueryResult limit ds = SearchResult.ofChecked (emptyQueryChecked limit ds) := by
  unfold emptyQueryResult emptyQueryChecked makeLen
  simp only
  generalize hn : (if limit > (ds.length : Int) then (ds.length : Int) else limit) = n
  have hle : n ≤ (ds.length : Int) := by
    rw [← hn]
    split <;> omega
  by_cases hneg : n < 0
  · rw [if_pos hneg, if_neg (by omega)]
    rfl
  · rw [if_neg hneg, if_pos (by omega)]
    simp only
    rw [copySummaries_eq _ _ (by omega)]
    rfl

theorem cutToLimit_of_nonneg {α : Type} (hits : List α) (limit : Int) (hlimit : 0 ≤ limit) :
    cutToLimit hits limit = some (hits.take limit.toNat) := by
  unfold cutToLimit sliceTo
  split
  · rw [if_pos]
    omega
  · rw [List.take_of_length_le]
    omega

theorem finishSearch_checked {σ : Type} [LinearOrder σ] (L : GoLib)
    (m : Option (List (GoString × Summary))) (limit : Int) (raw : List (Hit σ)) :
    finishSearch L m limit raw =
      SearchResult.ofChecked ((cutToLimit (rankHits L m raw) limit).map fun hits =>
        hits.map fun hit => summaryOf m hit) := by
  unfold finishSearch cutToLimit sliceTo
  simp only
  split
  · rename_i hgt
    split
    · rename_i hneg
      rw [if_neg (by omega)]
      rfl
    · rename_i hneg
      rw [if_pos (by omega)]
      rfl
  · rfl


/-- C38. Under the precondition `limit >= 0`, for every configuration, also with negative
`MaxDocs` or `MaxDocTextLen`, every query, document list and engine hit list, each cut of
`Search` passes its run-time check, the cut point lying within the sequence: the cut of
the sorted documents to `MaxDocs`, the truncation of the body in `buildWeightedDoc`, the
allocation and the index expressions of the empty-query prefix, and the cut of the ranked
hits to `limit`. The empty-query path and the result assembly as modelled are the checked
computations, and a `Search` that panics can only have found no index after a rebuild
step without error; no slice bound or negative length is involved. -/
theorem search_cuts_in_range {ε σ : Type} [LinearOrder σ] (L : GoLib) (E : Engine ε σ)
    (s : BM25Searcher) (w : World ε) (query : GoString) (limit : Int) (docs : List SearchDoc)
    (hlimit : 0 ≤ limit) :
    cutToMaxDocs s.cfg (sortDocsByID L docs) = some (sortedDocs L s.cfg docs) ∧
    (∀ doc : SearchDoc, cutDocText s.cfg (L.toLower doc.DocText) = some (specBody L s.cfg doc)) ∧
    (∀ ds : List SearchDoc,
      emptyQueryResult limit ds = SearchResult.ofChecked (emptyQueryChecked limit ds) ∧
      emptyQueryChecked limit ds = some ((ds.take limit.toNat).map fun d => d.Summary)) ∧
    (∀ (m : Option (List (GoString × Summary))) (raw : List (Hit σ)),
      finishSearch L m limit raw =
        SearchResult.ofChecked ((cutToLimit (rankHits L m raw) limit).map fun hits =>
          hits.map fun hit => summaryOf m hit) ∧
      cutToLimit (rankHits L m raw) limit = some ((rankHits L m raw).take limit.toNat)) ∧
    ((Search L E s w query limit docs).result = SearchResult.panic →
      L.trimSpace query ≠ [] ∧ sortedDocs L s.cfg docs ≠ [] ∧
      (ensureIndex L E s w (sortedDocs L s.cfg docs)).1 = none ∧
      (ensureIndex L E s w (sortedDocs L s.cfg docs)).2.1.index = none) := by
  refine ⟨cutToMaxDocs_eq L s.cfg docs, fun doc => cutDocText_eq L s.cfg doc, ?_, ?_,
    Search_panic_cases L E s w query limit docs hlimit⟩
  · intro ds
    refine ⟨emptyQueryChecked_eq limit ds, ?_⟩
    have h1 := emptyQueryChecked_eq limit ds
    rw [emptyQueryResult_eq limit ds hlimit] at h1
    cases hc : emptyQueryChecked limit ds with
    | none =>
      rw [hc] at h1
      simp [SearchResult.ofChecked] at h1
    | some r =>
      rw [hc] at h1
      simp only [SearchResult.ofChecked, SearchResult.ok.injEq] at h1
      rw [h1]
  · intro m raw
    exact ⟨finishSearch_checked L m limit raw, cutToLimit_of_nonneg _ limit hlimit⟩

/-- C38, with `MaxDocs = -2` and `MaxDocTextLen = -3`: nothing is cut by the
configuration, the empty query with `limit = 1` returns the first document, and the query
`g` with `limit = 1` returns the best hit. -/
theorem search_cuts_in_range_witness :
    (0 : Int) ≤ 1 ∧
    cutToMaxDocs (NewBM25Searcher negativeCutConfig).cfg (sortDocsByID refLib [docC, docB, docA]) =
      some [docA, docB, docC] ∧
    (Search refLib countEngine (NewBM25Searcher negativeCutConfig) world0 [] 1
      [docC, docB, docA]).result = SearchResult.ok [docA.Summary] ∧
    (Search refLib countEngine (NewBM25Searcher negativeCutConfig) world0 [103] 1
      [docC, docB, docA]).result = SearchResult.ok [docB.Summary] ∧
    cutToMaxDocs (NewBM25Searcher negativeCutConfig).cfg (sortDocsByID refLib [docC, docB, docA]) =
      some (sortedDocs refLib (NewBM25Searcher negativeCutConfig).cfg [docC, docB, docA]) ∧
    ∀ ds : List SearchDoc,
      emptyQueryResult 1 ds = SearchResult.ofChecked (emptyQueryChecked 1 ds) ∧
      emptyQueryChecked 1 ds = some ((ds.take (1 : Int).toNat).map fun d => d.Summary) :=
  ⟨by decide, by decide, by decide, by decide,
    (search_cuts_in_range refLib countEngine (NewBM25Searcher negativeCutConfig) world0 [] 1
      [docC, docB, docA] (by decide)).1,
    (search_cuts_in_range refLib countEngine (NewBM25Searcher negativeCutConfig) world0 [] 1
      [docC, docB, docA] (by decide)).2.2.1⟩


/-! ## Monotonicity in the limit -/

theorem take_min_length {α : Type} (n : Nat) (xs : List α) :
    xs.take (min n xs.length) = xs.take n := by
  by_cases h : n ≤ xs.length
  · rw [Nat.min_eq_left h]
  · have h2 : xs.length ≤ n := Nat.le_of_lt (Nat.lt_of_not_le h)
    rw [Nat.min_eq_right h2, List.take_length, List.take_of_length_le h2]

theorem emptyQueryResult_firstN (l1 l2 : Int) (ds : List SearchDoc) (h1 : 0 ≤ l1)
    (h12 : l1 ≤ l2) :
    emptyQueryResult l1 ds = SearchResult.firstN l1 (emptyQueryResult l2 ds) := by
  rw [emptyQueryResult_eq l1 ds h1, emptyQueryResult_eq l2 ds (le_trans h1 h12)]
  simp only [SearchResult.firstN, SearchResult.ok.injEq]
  rw [← List.map_take, List.take_take, Nat.min_eq_left (Int.toNat_le_toNat h12)]

theorem finishSearch_firstN {σ : Type} [LinearOrder σ] (L : GoLib)
    (m : Option (List (GoString × Summary))) (l1 l2 : Int) (raw : List (Hit σ))
    (h1 : 0 ≤ l1) (h12 : l1 ≤ l2) :
    finishSearch L m l1 raw = SearchResult.firstN l1 (finishSearch L m l2 raw) := by
  rw [finishSearch_eq L m l1 raw h1, finishSearch_eq L m l2 raw (le_trans h1 h12)]
  simp only [SearchResult.firstN, SearchResult.ok.injEq]
  rw [← List.map_take, List.take_take, Nat.min_eq_left (Int.toNat_le_toNat h12)]

theorem Search_firstN {ε σ : Type} [LinearOrder σ] (L : GoLib) (E : Engine ε σ)
    (s : BM25Searcher) (w : World ε) (query : GoString) (l1 l2 : Int) (docs : List SearchDoc)
    (h1 : 0 ≤ l1) (h12 : l1 ≤ l2) :
    Search L E s w query l1 docs =
      ⟨SearchResult.firstN l1 (Search L E s w query l2 docs).result,
        (Search L E s w query l2 docs).searcher, (Search L E s w query l2 docs).world⟩ := by
  by_cases hq : L.trimSpace query = []
  · rw [Search_empty L E s w query l1 docs hq, Search_empty L E s w query l2 docs hq,
      emptyQueryResult_firstN l1 l2 _ h1 h12]
  by_cases hd : sortedDocs L s.cfg docs = []
  · rw [Search_no_docs L E s w query l1 docs hq hd, Search_no_docs L E s w query l2 docs hq hd]
    simp [SearchResult.firstN]
  rw [Search_eq_ensure L E s w query l1 docs hq hd, Search_eq_ensure L E s w query l2 docs hq hd]
  generalize ensureIndex L E s w (sortedDocs L s.cfg docs) = r
  obtain ⟨r1, s1, w1⟩ := r
  cases r1 with
  | some err => rfl
  | none =>
    simp only
    cases hidx : s1.index with
    | none => rfl
    | some index =>
      simp only
      generalize World.search E w1 index (L.toLower (L.trimSpace query))
        (sortedDocs L s.cfg docs).length = q
      obtain ⟨q1, w2⟩ := q
      cases q1 with
      | error err => rfl
      | ok raw =>
        simp only
        rw [finishSearch_firstN L _ l1 l2 raw h1 h12]

/-- C39. Search results are prefix-monotone in `limit`: for every searcher state, engine
state, query, document list, engine (a function of its state) and limits
`0 <= l1 <= l2`, `Search` with limit `l1` leaves the same searcher and makes the same
engine calls as with limit `l2`, fails as it does, and when the search with `l2` returns
`n` results, the search with `l1` returns the first `min(l1, n)` of them. -/
theorem search_limit_monotone {ε σ : Type} [LinearOrder σ] (L : GoLib) (E : Engine ε σ)
    (s : BM25Searcher) (w : World ε) (query : GoString) (l1 l2 : Int) (docs : List SearchDoc)
    (h1 : 0 ≤ l1) (h12 : l1 ≤ l2) :
    (Search L E s w query l1 docs).searcher = (Search L E s w query l2 docs).searcher ∧
    (Search L E s w query l1 docs).world = (Search L E s w query l2 docs).world ∧
    (Search L E s w query l1 docs).result =
      SearchResult.firstN l1 (Search L E s w query l2 docs).result ∧
    (∀ results, (Search L E s w query l2 docs).result = SearchResult.ok results →
      (Search L E s w query l1 docs).result =
        SearchResult.ok (results.take (min l1.toNat results.length))) ∧
    (∀ err, (Search L E s w query l2 docs).result = SearchResult.error err →
      (Search L E s w query l1 docs).result = SearchResult.error err) := by
  have h := Search_firstN L E s w query l1 l2 docs h1 h12
  refine ⟨by rw [h], by rw [h], by rw [h], ?_, ?_⟩
  · intro results hres
    rw [h]
    simp only [hres, SearchResult.firstN, take_min_length]
  · intro err herr
    rw [h]
    simp only [herr, SearchResult.firstN]

/-- C39, at the query `g` over the sample documents: with limit 2 the results are `b, a`,
with limit 1 the result is `b`. -/
theorem search_limit_monotone_witness :
    (0 : Int) ≤ 1 ∧ (1 : Int) ≤ 2 ∧
    (Search refLib countEngine (NewBM25Searcher zeroConfig) world0 [103] 2
      [docC, docB, docA]).result = SearchResult.ok [docB.Summary, docA.Summary] ∧
    (Search refLib countEngine (NewBM25Searcher zeroConfig) world0 [103] 1
      [docC, docB, docA]).result =
        SearchResult.ok ([docB.Summary, docA.Summary].take
          (min (1 : Int).toNat [docB.Summary, docA.Summary].length)) ∧
    (Search refLib countEngine (NewBM25Searcher zeroConfig) world0 [103] 1
      [docC, docB, docA]).result = SearchResult.ok [docB.Summary] :=
  ⟨by decide, by decide, by decide,
    (search_limit_monotone refLib countEngine (NewBM25Searcher zeroConfig) world0 [103] 1 2
      [docC, docB, docA] (by decide) (by decide)).2.2.2.1 [docB.Summary, docA.Summary]
      (by decide),
    by decide⟩


/-! ## The pool under MaxDocs -/

/-- C8 as stated fails for a searcher that has searched before. With `MaxDocs = 5`, after
the query `g` over the one-document list `docT1` (tags `x`, `y`), the query `g` over the
one-document list `docT2` (the same document with its tags in the order `y`, `x`): the
pool is `docT2`, the fingerprints of the two pools are equal, so the index of the first
call is reused, and the summary returned is that of `docT1`, which is the summary of no
document of the pool. -/
theorem search_maxDocs_pool_counterexample :
    (0 : Int) < 5 ∧ (NewBM25Searcher (maxDocsConfig 5)).cfg.MaxDocs = 5 ∧
    ([docT2].map fun d => d.ID).Nodup ∧
    sortedDocs refLib (NewBM25Searcher (maxDocsConfig 5)).cfg [docT2] = [docT2] ∧
    (Search refLib countEngine
      (Search refLib countEngine (NewBM25Searcher (maxDocsConfig 5)) world0 [103] 10
        [docT1]).searcher
      (Search refLib countEngine (NewBM25Searcher (maxDocsConfig 5)) world0 [103] 10
        [docT1]).world [103] 10 [docT2]).result = SearchResult.ok [docT1.Summary] ∧
    ¬ (∀ r ∈ [docT1.Summary], ∃ d ∈ [docT2], r = d.Summary) := by
  refine ⟨by decide, by decide, by decide, by decide, by decide, by decide⟩

/-- C8 (amended). With `MaxDocs = k > 0`, for every document list with pairwise distinct
ids, the candidate pool of `Search` is exactly the first `k` documents of the list sorted
by id ascending (the sorted list is a permutation of the input in strictly ascending id
order; the pool is the whole sorted list when the input has at most `k` documents), and it
is the same for every reordering of the input. The pool is what `Search` works on: every
call made to the engine submits documents of the pool only (each `batch.Index` call the id
and weighted text of a pool document, the batch the entries of the pool, the search `Size`
the length of the pool); the searcher afterwards is unchanged or holds the index, mapping
and fingerprint of the pool; after a successful search with a query that is non-empty
after trimming and a non-empty pool it holds an index and the fingerprint of the pool, and
when it held no index or another fingerprint before, the index, mapping and fingerprint
are those built from the pool. Every summary returned is the `Summary` of a pool document
provided the cache is coherent for the pool: if the searcher already holds the fingerprint
of the pool, its mapping is the one built from the pool, as for a new searcher. -/
theorem search_maxDocs_pool {ε σ : Type} [LinearOrder σ] (L : GoLib) (E : Engine ε σ)
    (s : BM25Searcher) (w : World ε) (query : GoString) (limit : Int) (docs : List SearchDoc)
    (k : Int) (hk : 0 < k) (hcfg : s.cfg.MaxDocs = k)
    (hnd : (docs.map fun d => d.ID).Nodup) :
    ∃ pool : List SearchDoc,
      pool = (sortDocsByID L docs).take k.toNat ∧
      (sortDocsByID L docs).Perm docs ∧
      (sortDocsByID L docs).Pairwise (fun a b => a.ID < b.ID) ∧
      ((docs.length : Int) ≤ k → pool = sortDocsByID L docs) ∧
      sortedDocs L s.cfg docs = pool ∧
      (∀ docs2 : List SearchDoc, docs.Perm docs2 → sortedDocs L s.cfg docs2 = pool) ∧
      (∃ calls, (Search L E s w query limit docs).world.trace = w.trace ++ calls ∧
        ∀ c ∈ calls, CallWithin L s.cfg pool c) ∧
      ((Search L E s w query limit docs).searcher = s ∨
        ∃ h, (Search L E s w query limit docs).searcher =
          installed L s h pool (computeFingerprint L pool)) ∧
      (∀ results, (Search L E s w query limit docs).result = SearchResult.ok results →
        L.trimSpace query ≠ [] → pool ≠ [] →
        (Search L E s w query limit docs).searcher.lastFingerprint =
          computeFingerprint L pool ∧
        (Search L E s w query limit docs).searcher.index ≠ none ∧
        ((s.index = none ∨ s.lastFingerprint ≠ computeFingerprint L pool) →
          ∃ h, (Search L E s w query limit docs).searcher =
            installed L s h pool (computeFingerprint L pool))) ∧
      ((s.lastFingerprint = computeFingerprint L pool →
          s.idToSummary = some (summaryMap pool)) →
        ∀ results, (Search L E s w query limit docs).result = SearchResult.ok results →
          ∀ r ∈ results, ∃ d ∈ pool, r = d.Summary) := by
  have hpool : sortedDocs L s.cfg docs = (sortDocsByID L docs).take k.toNat := by
    rw [sortedDocs_eq, hcfg, if_pos hk]
  obtain ⟨htrace, hs, hfp⟩ := Search_spec L E s w query limit docs
  refine ⟨(sortDocsByID L docs).take k.toNat, rfl, sortDocsByID_perm L docs, ?_, ?_, hpool, ?_,
    ?_, ?_, ?_, ?_⟩
  · have hne : (sortDocsByID L docs).Pairwise (fun a b => a.ID ≠ b.ID) := by
      have := (((sortDocsByID_perm L docs).map (fun d => d.ID)).nodup_iff).mpr hnd
      exact List.pairwise_map.mp this
    exact ((sortDocsByID_sorted L docs).and hne).imp (fun h => lt_of_le_of_ne h.1 h.2)
  · intro hlen
    apply List.take_of_length_le
    rw [sortDocsByID_length]
    omega
  · intro docs2 hp
    rw [← sortedDocs_congr L s.cfg docs docs2 hnd hp, hpool]
  · rw [← hpool]
    exact htrace
  · rw [← hpool]
    exact hs
  · rw [← hpool]
    intro results hres hq hd
    exact ⟨hfp results hres hq hd, Search_ok_index L E s w query limit docs results hq hd hres,
      fun hmiss => Search_cache_miss L E s w query limit docs results hq hd hmiss hres⟩
  · rw [← hpool]
    intro hcache
    exact Search_results_from_pool L E s w query limit docs hcache

/-- C8 (amended), at a concrete input: `MaxDocs = 2`, three documents, a new searcher. -/
theorem search_maxDocs_pool_witness :
    (0 : Int) < 2 ∧ (NewBM25Searcher (maxDocsConfig 2)).cfg.MaxDocs = 2 ∧
    ([docC, docB, docA].map fun d => d.ID).Nodup ∧
    (Search refLib countEngine (NewBM25Searcher (maxDocsConfig 2)) world0 [103] 10
      [docC, docB, docA]).result = SearchResult.ok [docB.Summary, docA.Summary] ∧
    ∃ pool : List SearchDoc,
      pool = (sortDocsByID refLib [docC, docB, docA]).take (2 : Int).toNat ∧
      (sortDocsByID refLib [docC, docB, docA]).Perm [docC, docB, docA] ∧
      (sortDocsByID refLib [docC, docB, docA]).Pairwise (fun a b => a.ID < b.ID) ∧
      ((([docC, docB, docA] : List SearchDoc).length : Int) ≤ 2 →
        pool = sortDocsByID refLib [docC, docB, docA]) ∧
      sortedDocs refLib (NewBM25Searcher (maxDocsConfig 2)).cfg [docC, docB, docA] = pool ∧
      (∀ docs2 : List SearchDoc, [docC, docB, docA].Perm docs2 →
        sortedDocs refLib (NewBM25Searcher (maxDocsConfig 2)).cfg docs2 = pool) ∧
      (∃ calls, (Search refLib countEngine (NewBM25Searcher (maxDocsConfig 2)) world0 [103] 10
          [docC, docB, docA]).world.trace = world0.trace ++ calls ∧
        ∀ c ∈ calls, CallWithin refLib (NewBM25Searcher (maxDocsConfig 2)).cfg pool c) ∧
      ((Search refLib countEngine (NewBM25Searcher (maxDocsConfig 2)) world0 [103] 10
          [docC, docB, docA]).searcher = NewBM25Searcher (maxDocsConfig 2) ∨
        ∃ h, (Search refLib countEngine (NewBM25Searcher (maxDocsConfig 2)) world0 [103] 10
          [docC, docB, docA]).searcher =
            installed refLib (NewBM25Searcher (maxDocsConfig 2)) h pool
              (computeFingerprint refLib pool)) ∧
      (∀ results, (Search refLib countEngine (NewBM25Searcher (maxDocsConfig 2)) world0 [103] 10
          [docC, docB, docA]).result = SearchResult.ok results →
        refLib.trimSpace [103] ≠ [] → pool ≠ [] →
        (Search refLib countEngine (NewBM25Searcher (maxDocsConfig 2)) world0 [103] 10
          [docC, docB, docA]).searcher.lastFingerprint = computeFingerprint refLib pool ∧
        (Search refLib countEngine (NewBM25Searcher (maxDocsConfig 2)) world0 [103] 10
          [docC, docB, docA]).searcher.index ≠ none ∧
        (((NewBM25Searcher (maxDocsConfig 2)).index = none ∨
            (NewBM25Searcher (maxDocsConfig 2)).lastFingerprint ≠
              computeFingerprint refLib pool) →
          ∃ h, (Search refLib countEngine (NewBM25Searcher (maxDocsConfig 2)) world0 [103] 10
            [docC, docB, docA]).searcher =
              installed refLib (NewBM25Searcher (maxDocsConfig 2)) h pool
                (computeFingerprint refLib pool))) ∧
      (((NewBM25Searcher (maxDocsConfig 2)).lastFingerprint = computeFingerprint refLib pool →
          (NewBM25Searcher (maxDocsConfig 2)).idToSummary = some (summaryMap pool)) →
        ∀ results, (Search refLib countEngine (NewBM25Searcher (maxDocsConfig 2)) world0 [103]
            10 [docC, docB, docA]).result = SearchResult.ok results →
          ∀ r ∈ results, ∃ d ∈ pool, r = d.Summary) :=
  ⟨by decide, by decide, by decide, by decide,
    search_maxDocs_pool refLib countEngine (NewBM25Searcher (maxDocsConfig 2)) world0 [103] 10
      [docC, docB, docA] 2 (by decide) (by decide) (by decide)⟩

end Toolsearch
